import Mathlib

/-!
# Manual game order (libraryroot.custom.js): identity, reconciliation, application, gradients

A shallow embedding of the manual-order script of `libraryroot.custom.js`.

* JavaScript strings are Lean strings; `charCodes` gives their UTF-16 code units
  (lone surrogates, which a Lean string cannot hold, are left out).
* A game cell is what the script reads from it: the first `a[role="link"]`
  descendant (its `href` attribute and text) and the `alt` of the first `img`.
* The grid is the list of its game cells in document order; a cell is told from the
  others by its position in that list.
* A `Map` is an insertion-ordered association list (`JSMap`).
* An element of an order array is `Entry`: `none` is a `null` element, and the
  `id` / `title` properties of an object may be absent (`undefined`). `Item` is the
  element of the data model, with both properties present.
* A thrown `TypeError` is `none` in the `Option` monad; the `try`/`catch` of the
  source turns it into the documented fallback value.
* Console output, CSS classes and timers are not part of the state; the callback of a
  timer is a function of its own, run when the timer fires.
* The markup of the grid (`innerHTML`) is the list of the game cells it describes
  together with the text of the rest of the markup; it is the empty string when both
  are empty.
* A double of `generateGradient` is a pair of mantissa and binary exponent, rounded to
  nearest with ties to even; numbers that are only printed are carried as their text.

Definitions come first, then the lemmas and the theorems of the claims `C1`, `C2`, ...
-/

namespace ManualOrder

/-! ## JavaScript strings -/

/-- UTF-16 code units of a string, as `charCodeAt` reads them. -/
def charCodes (s : String) : List Nat :=
  s.data.flatMap fun c =>
    if c.toNat < 65536 then [c.toNat]
    else [55296 + (c.toNat - 65536) / 1024, 56320 + (c.toNat - 65536) % 1024]

/-- The `length` property of a string: its number of UTF-16 code units. -/
def jsLength (s : String) : Nat := (charCodes s).length

/-- The method `s.startsWith(p)`. -/
def startsWith (s p : String) : Bool := p.data.isPrefixOf s.data

/-- The call `s.substring(0, n)`; it is only applied to ASCII strings here, where
code units and characters coincide. -/
def substring0 (s : String) (n : Nat) : String := String.mk (s.data.take n)

/-- White space and line terminators removed by `String.prototype.trim`. -/
def isJsWhitespace (c : Char) : Bool :=
  let n := c.toNat
  n == 9 || n == 10 || n == 11 || n == 12 || n == 13 || n == 32 || n == 160 ||
  n == 5760 || (8192 ≤ n && n ≤ 8202) || n == 8232 || n == 8233 || n == 8239 ||
  n == 8287 || n == 12288 || n == 65279

/-- The method `s.trim()`. -/
def jsTrim (s : String) : String :=
  String.mk ((s.data.dropWhile isJsWhitespace).reverse.dropWhile isJsWhitespace).reverse

/-- The class `\d` of a regular expression without the unicode flag. -/
def isDigit (c : Char) : Bool := 48 ≤ c.toNat && c.toNat ≤ 57

/-- The capture of the leftmost match of `/app\/(\d+)/` in a character list. -/
def matchAppId : List Char → Option (List Char)
  | [] => none
  | c :: rest =>
    if "app/".data.isPrefixOf (c :: rest)
        && !((c :: rest).drop 4 |>.takeWhile isDigit).isEmpty then
      some ((c :: rest).drop 4 |>.takeWhile isDigit)
    else matchAppId rest

/-- Conversion `ToInt32` on an exact integer value. -/
def toInt32 (x : Int) : Int :=
  if x % 4294967296 ≥ 2147483648 then x % 4294967296 - 4294967296 else x % 4294967296

/-- One round of the title hash: `hash = ((hash << 5) - hash) + char; hash = hash & hash`. -/
def hashStep (hash : Int) (char : Nat) : Int :=
  toInt32 ((toInt32 (toInt32 hash * 32) - hash) + (char : Int))

/-- One base-36 digit, as `Number.prototype.toString(36)` writes it. -/
def digit36 (d : Nat) : Char :=
  if d < 10 then Char.ofNat (48 + d) else Char.ofNat (87 + d)

/-- Digits of `n` in base 36, most significant first, put in front of `acc`. -/
def toDigits36 : Nat → Nat → List Char → List Char
  | 0, _, acc => acc
  | fuel + 1, n, acc =>
    if n < 36 then digit36 n :: acc
    else toDigits36 fuel (n / 36) (digit36 (n % 36) :: acc)

/-- The call `n.toString(36)` on a non-negative integer. -/
def toString36 (n : Nat) : String := String.mk (toDigits36 (n + 1) n [])

/-- One character of the base-64 alphabet. -/
def base64Char (n : Nat) : Char :=
  if n < 26 then Char.ofNat (65 + n)
  else if n < 52 then Char.ofNat (71 + n)
  else if n < 62 then Char.ofNat (n - 4)
  else if n = 62 then Char.ofNat 43
  else Char.ofNat 47

/-- Base-64 encoding of a list of bytes, with `=` padding. -/
def base64Encode : List Nat → List Char
  | [] => []
  | [a] => [base64Char (a / 4), base64Char (a % 4 * 16), Char.ofNat 61, Char.ofNat 61]
  | [a, b] =>
    [base64Char (a / 4), base64Char (a % 4 * 16 + b / 16), base64Char (b % 16 * 4), Char.ofNat 61]
  | a :: b :: c :: rest =>
    base64Char (a / 4) :: base64Char (a % 4 * 16 + b / 16)
      :: base64Char (b % 16 * 4 + c / 64) :: base64Char (c % 64) :: base64Encode rest

/-- The call `btoa(s)`: it throws (`none`) when a code unit is above 255. -/
def btoa (s : String) : Option String :=
  if (charCodes s).all (fun u => u ≤ 255) then some (String.mk (base64Encode (charCodes s)))
  else none

/-- The call `s.replace(/[^a-zA-Z0-9]/g, "")`. -/
def stripNonAlnum (s : String) : String :=
  String.mk (s.data.filter fun c =>
    (97 ≤ c.toNat && c.toNat ≤ 122) || (65 ≤ c.toNat && c.toNat ≤ 90) || isDigit c)

/-! ## Game cells and the identity resolver -/

/-- The first `a[role="link"]` descendant of a cell. -/
structure Link where
  /-- The value of `getAttribute("href")`; `none` when the attribute is absent. -/
  href : Option String
  /-- The property `textContent`. -/
  textContent : String
deriving DecidableEq, Repr

/-- A rendered game cell (`div[role="gridcell"]`), as far as the script reads it. -/
structure GameCell where
  /-- The result of `querySelector('a[role="link"]')`. -/
  link : Option Link
  /-- The `alt` of the result of `querySelector("img")`; `none` when there is no image. -/
  imgAlt : Option String
deriving DecidableEq, Repr

/-- Source function `getGameTitle`. -/
def getGameTitle (gameCell : GameCell) : String :=
  match gameCell.imgAlt with
  | some alt =>
    if alt ≠ "" then alt
    else match gameCell.link with
      | some link => if jsTrim link.textContent ≠ "" then jsTrim link.textContent else "Unknown Game"
      | none => "Unknown Game"
  | none =>
    match gameCell.link with
    | some link => if jsTrim link.textContent ≠ "" then jsTrim link.textContent else "Unknown Game"
    | none => "Unknown Game"

/-- The application id that `getGameId` takes from the link, when there is one. -/
def appIdOfLink (gameCell : GameCell) : Option String :=
  match gameCell.link with
  | some link => (matchAppId ((link.href.getD "").data)).map String.mk
  | none => none

/-- Source function `getGameId`. -/
def getGameId (gameCell : GameCell) : String :=
  match appIdOfLink gameCell with
  | some appId => appId
  | none =>
    let gameTitle := getGameTitle gameCell
    let hash := (charCodes gameTitle).foldl hashStep 0
    let hashStr := toString36 hash.natAbs
    substring0 ("game_" ++ hashStr) 16

/-- Source function `generateCompatibleGameId`; the source gives `useOldFormat` the default
`false`. -/
def generateCompatibleGameId (gameTitle : String) (useOldFormat : Bool) : String :=
  if useOldFormat then
    match btoa gameTitle with
    | some b => substring0 (stripNonAlnum b) 16
    | none =>
      let hash := (charCodes gameTitle).foldl
        (fun (hash : Int) (char : Nat) => toInt32 ((toInt32 (toInt32 hash * 32) - hash) + (char : Int))) 0
      substring0 ("game_" ++ toString36 hash.natAbs) 16
  else
    let hash := (charCodes gameTitle).foldl
        (fun (hash : Int) (char : Nat) => toInt32 ((toInt32 (toInt32 hash * 32) - hash) + (char : Int))) 0
    substring0 ("game_" ++ toString36 hash.natAbs) 16

/-- Source function `isOldFormatId`. -/
def isOldFormatId (gameId : String) : Bool :=
  !startsWith gameId "game_" && decide (jsLength gameId ≤ 16)

/-- Source function `convertOldIdToNew`. -/
def convertOldIdToNew (_oldId : String) (gameTitle : String) : String :=
  generateCompatibleGameId gameTitle false

/-! ## Maps, order entries and the script state -/

/-- A JavaScript `Map` with string keys: its pairs in insertion order. -/
abbrev JSMap (V : Type) := List (String × V)

/-- The method `Map.prototype.has`. -/
def JSMap.has {V : Type} (m : JSMap V) (k : String) : Bool := m.any fun p => p.1 == k

/-- The method `Map.prototype.get`; `none` is `undefined`. -/
def JSMap.get {V : Type} (m : JSMap V) (k : String) : Option V :=
  (m.find? fun p => p.1 == k).map fun p => p.2

/-- The method `Map.prototype.set`: a known key keeps its place, a new key goes last. -/
def JSMap.set {V : Type} (m : JSMap V) (k : String) (v : V) : JSMap V :=
  if JSMap.has m k then m.map fun p => if p.1 == k then (k, v) else p else m ++ [(k, v)]

/-- The method `Map.prototype.delete`. -/
def JSMap.delete {V : Type} (m : JSMap V) (k : String) : JSMap V := m.filter fun p => p.1 != k

/-- The keys of a map, in iteration order. -/
def JSMap.keys {V : Type} (m : JSMap V) : List String := m.map fun p => p.1

/-- An object of an order array; a property that is absent is `none`. -/
structure Game where
  /-- The property `id`. -/
  id : Option String := none
  /-- The property `title`. -/
  title : Option String := none
deriving DecidableEq, Repr

/-- An element of an order array: an object, or `null` (`none`). -/
abbrev Entry := Option Game

/-- The id of an element of an order array, when it has one. -/
def entryId (e : Entry) : Option String := e.bind fun g => g.id

/-- An item of the data model: both `id` and `title` are strings. -/
structure Item where
  /-- The derived identifier. -/
  id : String
  /-- The display title. -/
  title : String
deriving DecidableEq, Repr

/-- The order-array element that holds an item. -/
def Item.toEntry (i : Item) : Entry := some { id := some i.id, title := some i.title }

/-- The object `{ id, title }` that the script builds for a rendered cell. -/
def cellItem (cell : GameCell) : Item := { id := getGameId cell, title := getGameTitle cell }

/-- The element `currentGrid`: the game cells it holds, in document order (the result of
`querySelectorAll(GAME_SELECTOR)`), and whether `document.contains` it. -/
structure Grid where
  /-- Game cells of the grid, in document order. -/
  cells : List GameCell
  /-- Whether the grid (and so each of its cells) is attached to the document. -/
  inDocument : Bool := true
deriving DecidableEq, Repr

/-- A value of the property `innerHTML` of the grid: the game cells that the string
describes, in document order, and the rest of the markup. -/
structure GridMarkup where
  /-- The game cells that the markup describes. -/
  cells : List GameCell
  /-- The markup of the content that is not a game cell, such as a placeholder; the empty
  string when the markup describes nothing but game cells. -/
  otherMarkup : String
deriving DecidableEq, Repr

/-- Whether a value of `innerHTML` is the empty string, the one string that is falsy: it
describes no game cell and nothing else. -/
def GridMarkup.isEmptyString (html : GridMarkup) : Bool :=
  html.cells.isEmpty && html.otherMarkup == ""

/-- The property `innerHTML` of a grid that holds, besides its game cells, what
`otherMarkup` describes. -/
def innerHTML (grid : Grid) (otherMarkup : String) : GridMarkup :=
  { cells := grid.cells, otherMarkup := otherMarkup }

/-- The module-level variables of the script, the persisted order and the notifications
shown so far. -/
structure State where
  /-- Variable `isManualOrderEnabled`. -/
  isManualOrderEnabled : Bool := false
  /-- Variable `savedOrder`. -/
  savedOrder : List Entry := []
  /-- Variable `currentGrid`; `none` is `null`. -/
  currentGrid : Option Grid := none
  /-- Variable `modalOpen`. -/
  modalOpen : Bool := false
  /-- Variable `isApplyingOrder`. -/
  isApplyingOrder : Bool := false
  /-- The array stored under `MANUAL_ORDER_KEY` in `localStorage`; `none` when unset. -/
  storedOrder : Option (List Entry) := none
  /-- Messages passed to `showNotification`, oldest first. -/
  notifications : List String := []
  /-- The timer of variable `gridRenderTimeout` while it is pending: its delay in
  milliseconds; `none` when no such timer is pending. -/
  gridRenderTimeout : Option Nat := none
  /-- Variable `originalGridHTML`: the value of `innerHTML` it holds; `none` is `null`. -/
  originalGridHTML : Option GridMarkup := none
  /-- The flag stored under `MANUAL_ORDER_ENABLED_KEY` in `localStorage`; `none` when
  unset. -/
  storedEnabled : Option Bool := none
  /-- Variable `isRefreshInProgress`. -/
  isRefreshInProgress : Bool := false
  /-- Variable `wasManualOrderEnabledBeforeRefresh`. -/
  wasManualOrderEnabledBeforeRefresh : Bool := false
  /-- The markup of what the element `currentGrid` holds besides its game cells; the empty
  string when it holds nothing but game cells. -/
  gridOtherMarkup : String := ""
deriving DecidableEq, Repr

/-- Source function `getAllGames`. -/
def getAllGames (s : State) : List GameCell :=
  match s.currentGrid with
  | none => []
  | some grid => grid.cells

/-- The map `currentGameMap` of both synchronisations: id to title, filled cell by cell
(the stored `id` and `element` are never read back). -/
def currentGameMapOf (currentGames : List GameCell) : JSMap String :=
  currentGames.foldl (fun m cell =>
    if getGameId cell ≠ "" ∧ getGameTitle cell ≠ "" then
      JSMap.set m (getGameId cell) (getGameTitle cell)
    else m) []

/-! ## Reconciliation with an imported order -/

/-- The array `oldFormatGames` of `synchronizeImportedOrder`. -/
def oldFormatGamesOf (importedOrder : List Entry) : List Game :=
  importedOrder.filterMap fun game =>
    match game with
    | none => none
    | some g =>
      match g.id with
      | none => none
      | some id => if id ≠ "" ∧ isOldFormatId id = true then some g else none

/-- The conversion loop over `oldFormatGames`: the converted games written to
`importedGameMap` (a map that is never read), or `none` when `convertOldIdToNew`
throws on an absent title. -/
def convertOldFormatGames : List Game → Option (List Game)
  | [] => some []
  | oldGame :: rest =>
    match oldGame.id, oldGame.title with
    | some id, some title =>
      match convertOldFormatGames rest with
      | some converted =>
        some ({ id := some (convertOldIdToNew id title), title := some title } :: converted)
      | none => none
    | _, _ => none

/-- The id under which step 1 looks an imported game up: `none` when `isOldFormatId` or
`convertOldIdToNew` throws on an absent property. -/
def resolveImportedId (importedGame : Game) : Option String :=
  match importedGame.id with
  | none => none
  | some gameId =>
    if isOldFormatId gameId then
      match importedGame.title with
      | none => none
      | some title => some (convertOldIdToNew gameId title)
    else some gameId

/-- Step 1 of `synchronizeImportedOrder`: the games kept and the map that remains. -/
def keepImported : List Entry → JSMap String → Option (List Entry × JSMap String)
  | [], m => some ([], m)
  | none :: rest, m => keepImported rest m
  | some importedGame :: rest, m =>
    match resolveImportedId importedGame with
    | none => none
    | some gameId =>
      if JSMap.has m gameId then
        match keepImported rest (JSMap.delete m gameId) with
        | none => none
        | some r => some (some { id := some gameId, title := importedGame.title } :: r.1, r.2)
      else keepImported rest m

/-- Step 2 of both synchronisations: the objects pushed for the games left in the map. -/
def remainingEntries (m : JSMap String) : List Entry :=
  m.map fun p => some { id := some p.1, title := some p.2 }

/-- First loop of step 3: the games of `synchronizedOrder` with a new non-empty id, and
the set `usedIds` after it. -/
def dedupSynchronized : List Entry → List String → List Entry × List String
  | [], usedIds => ([], usedIds)
  | none :: rest, usedIds => dedupSynchronized rest usedIds
  | some game :: rest, usedIds =>
    match game.id with
    | none => dedupSynchronized rest usedIds
    | some id =>
      if id ≠ "" ∧ id ∉ usedIds then
        (some game :: (dedupSynchronized rest (usedIds ++ [id])).1,
          (dedupSynchronized rest (usedIds ++ [id])).2)
      else dedupSynchronized rest usedIds

/-- Step 3 of `synchronizeImportedOrder`, run when the count does not match. -/
def resyncOrder (synchronizedOrder : List Entry) (currentGames : List GameCell) : List Entry :=
  (dedupSynchronized synchronizedOrder []).1 ++
    currentGames.filterMap fun cell =>
      if getGameId cell ≠ "" ∧ getGameTitle cell ≠ ""
          ∧ getGameId cell ∉ (dedupSynchronized synchronizedOrder []).2 then
        some (cellItem cell).toEntry
      else none

/-- First loop of the final rebuild of `synchronizeImportedOrder`. -/
def rebuildKept : List Entry → JSMap String → List String → List Entry × JSMap String
  | [], m, _ => ([], m)
  | none :: rest, m, processedIds => rebuildKept rest m processedIds
  | some importedGame :: rest, m, processedIds =>
    match importedGame.id with
    | none => rebuildKept rest m processedIds
    | some id =>
      if id ≠ "" ∧ JSMap.has m id = true ∧ id ∉ processedIds then
        (some importedGame :: (rebuildKept rest (JSMap.delete m id) (processedIds ++ [id])).1,
          (rebuildKept rest (JSMap.delete m id) (processedIds ++ [id])).2)
      else rebuildKept rest m processedIds

/-- The final rebuild of `synchronizeImportedOrder` (its `else` branch). -/
def rebuildOrder (importedOrder : List Entry) (m : JSMap String) : List Entry :=
  (rebuildKept importedOrder m []).1 ++ remainingEntries (rebuildKept importedOrder m []).2

/-- The `try` block of `synchronizeImportedOrder`; `none` when it throws. -/
def synchronizeImportedOrderTry (currentGames : List GameCell) (importedOrder : List Entry) :
    Option (List Entry) :=
  match convertOldFormatGames (oldFormatGamesOf importedOrder) with
  | none => none
  | some _ =>
    match keepImported importedOrder (currentGameMapOf currentGames) with
    | none => none
    | some r =>
      if (r.1 ++ remainingEntries r.2).length ≠ currentGames.length then
        some (resyncOrder (r.1 ++ remainingEntries r.2) currentGames)
      else if (r.1 ++ remainingEntries r.2).length = currentGames.length then
        some (r.1 ++ remainingEntries r.2)
      else some (rebuildOrder importedOrder r.2)

/-- Source function `synchronizeImportedOrder`, reading the variable `currentGrid`. -/
def synchronizeImportedOrder (currentGrid : Option Grid) (importedOrder : List Entry) :
    List Entry :=
  match currentGrid with
  | none => importedOrder
  | some grid =>
    if grid.cells.length = 0 then importedOrder
    else
      match synchronizeImportedOrderTry grid.cells importedOrder with
      | some synchronizedOrder => synchronizedOrder
      | none => importedOrder

/-! ## Reconciliation with the saved order -/

/-- Step 1 of `synchronizeGameOrder`: the saved games kept, the map that remains and
whether a saved game was dropped. -/
def keepSaved : List Entry → JSMap String → List Entry × JSMap String × Bool
  | [], m => ([], m, false)
  | none :: rest, m => keepSaved rest m
  | some savedGame :: rest, m =>
    match savedGame.id with
    | none => ((keepSaved rest m).1, (keepSaved rest m).2.1, true)
    | some id =>
      if JSMap.has m id then
        (some savedGame :: (keepSaved rest (JSMap.delete m id)).1,
          (keepSaved rest (JSMap.delete m id)).2.1, (keepSaved rest (JSMap.delete m id)).2.2)
      else ((keepSaved rest m).1, (keepSaved rest m).2.1, true)

/-- The text of the notification of `synchronizeGameOrder`. -/
def syncMessage (addedCount removedCount : Nat) : String :=
  "🔄 Order synchronized: "
    ++ (if addedCount > 0 then "+" ++ toString addedCount ++ " new games " else "")
    ++ (if removedCount > 0 then "-" ++ toString removedCount ++ " removed games" else "")

/-- Source function `synchronizeGameOrder`: the state after the call and the value
returned (`none` is `undefined`). The map `savedGameMap` is filled and never read, and
nothing in the `try` block throws. -/
def synchronizeGameOrder (s : State) : State × Option Bool :=
  match s.currentGrid with
  | none => (s, none)
  | some grid =>
    if !s.isManualOrderEnabled then (s, none)
    else if grid.cells.length = 0 then (s, some false)
    else
      let r := keepSaved s.savedOrder (currentGameMapOf grid.cells)
      let newOrder := r.1 ++ remainingEntries r.2.1
      let orderChanged := r.2.2 || !r.2.1.isEmpty
      if orderChanged then
        let addedCount := r.2.1.length
        -- `savedOrder` is `newOrder` when the count is taken
        let removedCount := newOrder.length - newOrder.length + addedCount
        ({ s with
            savedOrder := newOrder
            storedOrder := some newOrder
            notifications :=
              if addedCount > 0 ∨ removedCount > 0 then
                s.notifications ++ [syncMessage addedCount removedCount]
              else s.notifications }, some true)
      else (s, some false)

/-! ## Applying the saved order to the grid -/

/-- The map `gameMap` of `applyOrder`: id to cell, a cell being its position in the grid
together with its content. -/
def gameMapOf (currentGames : List GameCell) : JSMap (Nat × GameCell) :=
  currentGames.enum.foldl (fun m p => JSMap.set m (getGameId p.2) p) []

/-- The loop of `applyOrder` over `savedOrder`: the cells moved to the fragment, the map
that remains, and whether the loop was left by the `TypeError` of reading `id` of
`null`. -/
def moveSaved (inDocument : Bool) :
    List Entry → JSMap (Nat × GameCell) → List (Nat × GameCell) × JSMap (Nat × GameCell) × Bool
  | [], m => ([], m, false)
  | none :: _, m => ([], m, true)
  | some savedGame :: rest, m =>
    match savedGame.id with
    | none => moveSaved inDocument rest m
    | some id =>
      match JSMap.get m id with
      | none => moveSaved inDocument rest m
      | some gameElement =>
        if inDocument then
          (gameElement :: (moveSaved inDocument rest (JSMap.delete m id)).1,
            (moveSaved inDocument rest (JSMap.delete m id)).2.1,
            (moveSaved inDocument rest (JSMap.delete m id)).2.2)
        else moveSaved inDocument rest m

/-- The cells still in the grid once the cells of `fragment` have been taken out. -/
def detach (fragment : List (Nat × GameCell)) (currentGames : List GameCell) : List GameCell :=
  (currentGames.enum.filter fun p => p.1 ∉ fragment.map fun q => q.1).map fun p => p.2

/-- The game cells of the grid after the body of `applyOrder`, in document order: the
cells that were not moved, then the fragment appended to the grid. When the loop over
`savedOrder` throws, the fragment is never appended. -/
def reorderedCells (grid : Grid) (savedOrder : List Entry) : List GameCell :=
  let r := moveSaved grid.inDocument savedOrder (gameMapOf grid.cells)
  if r.2.2 then detach r.1 grid.cells
  else
    let fragment := r.1 ++ (if grid.inDocument then r.2.1.map fun p => p.2 else [])
    detach fragment grid.cells ++ (if grid.inDocument then fragment.map fun p => p.2 else [])

/-- Source function `applyOrder`. The two timers it starts are not part of the state:
the one that clears the `loading` class, and the one that runs `applyOrderTimeout`
after 1000 ms. -/
def applyOrder (s : State) : State :=
  match s.currentGrid with
  | none => s
  | some grid =>
    if s.savedOrder.length = 0 ∨ s.isManualOrderEnabled = false ∨ s.isApplyingOrder = true then s
    else
      let r := moveSaved grid.inDocument s.savedOrder (gameMapOf grid.cells)
      { s with
          isApplyingOrder := true
          currentGrid := some { grid with cells := reorderedCells grid s.savedOrder }
          notifications :=
            -- an exception leaves the function before the notification
            if r.2.2 = true ∨ s.modalOpen = true then s.notifications
            else s.notifications ++ ["🔄 " ++ toString r.1.length ++ " games reordered"] }

/-- The callback that `applyOrder` schedules after 1000 ms: `isApplyingOrder = false`. -/
def applyOrderTimeout (s : State) : State := { s with isApplyingOrder := false }

/-- Whether the call `applyOrder()` in state `s` is left by the `TypeError` of its loop
over `savedOrder`. -/
def applyOrderThrows (s : State) : Bool :=
  match s.currentGrid with
  | none => false
  | some grid =>
    if s.savedOrder.length = 0 ∨ s.isManualOrderEnabled = false ∨ s.isApplyingOrder = true then
      false
    else (moveSaved grid.inDocument s.savedOrder (gameMapOf grid.cells)).2.2

/-- Source function `applyOrderWithSync`: the state after the call and the value returned
(`none` is `undefined`). -/
def applyOrderWithSync (s : State) : State × Option Bool :=
  match s.currentGrid with
  | none => (s, none)
  | some _ =>
    if s.isManualOrderEnabled = false ∨ s.isApplyingOrder = true then (s, none)
    else (applyOrder (synchronizeGameOrder s).1, (synchronizeGameOrder s).2)

/-- Whether the call `applyOrderWithSync()` in state `s` is left by the `TypeError` of
`applyOrder`. -/
def applyOrderWithSyncThrows (s : State) : Bool :=
  match s.currentGrid with
  | none => false
  | some _ =>
    if s.isManualOrderEnabled = false ∨ s.isApplyingOrder = true then false
    else applyOrderThrows (synchronizeGameOrder s).1

/-! ## Import of an order file -/

/-- The text of an imported file, as `handleImportFile` tells its cases apart. -/
inductive ImportedDocument where
  /-- The call `JSON.parse` throws, or reading `order` of the parsed value throws. -/
  | invalidJson
  /-- The parsed value has no `order`, or a falsy one. -/
  | orderMissing
  /-- The `order` of the parsed value is not an array. -/
  | orderNotArray
  /-- The `order` of the parsed value is this array. -/
  | order (importedOrder : List Entry)
deriving DecidableEq, Repr

/-- Source function `closeModal`; the overlay is in the document exactly when `modalOpen`
is set. -/
def closeModal (s : State) : State := { s with modalOpen := false }

/-- Source function `handleImportFile`, with the `onload` callback of its reader run;
`file` is `event.target.files[0]`, `none` when no file was chosen. -/
def handleImportFile (s : State) (file : Option ImportedDocument) : State :=
  match file with
  | none => s
  | some (ImportedDocument.order importedOrder) =>
    let synchronizedOrder := synchronizeImportedOrder s.currentGrid importedOrder
    let s1 := { s with savedOrder := synchronizedOrder, storedOrder := some synchronizedOrder }
    if s1.isManualOrderEnabled = true then
      if applyOrderWithSyncThrows s1 = true then
        -- the `catch` block: the saved order was already replaced
        { (applyOrderWithSync s1).1 with
          notifications := (applyOrderWithSync s1).1.notifications ++ ["❌ Error importing file"] }
      else
        closeModal { (applyOrderWithSync s1).1 with
          notifications := (applyOrderWithSync s1).1.notifications
            ++ ["📂 Order imported and synchronized ("
              ++ toString (applyOrderWithSync s1).1.savedOrder.length ++ " games)"] }
    else
      closeModal { s1 with
        notifications := s1.notifications
          ++ ["📂 Order imported and synchronized (" ++ toString s1.savedOrder.length
            ++ " games)"] }
  | some _ => { s with notifications := s.notifications ++ ["❌ Error importing file"] }

/-! ## The observer of the grid -/

/-- A node of `addedNodes` or `removedNodes`, as the observer callback reads it. -/
structure MutationNode where
  /-- The property `nodeType` (1 for an element). -/
  nodeType : Nat
  /-- The value of `node.matches(GAME_SELECTOR)`, for an element. -/
  matchesGameSelector : Bool
deriving DecidableEq, Repr

/-- A mutation record delivered to the observer callback. -/
structure MutationRecord where
  /-- Whether `mutation.type === "childList"`. -/
  isChildList : Bool := true
  /-- The list `mutation.addedNodes`. -/
  addedNodes : List MutationNode
  /-- The list `mutation.removedNodes`. -/
  removedNodes : List MutationNode
deriving DecidableEq, Repr

/-- The filter of the observer callback: the nodes that are game cells. -/
def gameNodes (nodes : List MutationNode) : List MutationNode :=
  nodes.filter fun node => node.nodeType == 1 && node.matchesGameSelector

/-- Source function `detectSignificantChanges`. -/
def detectSignificantChanges (s : State) : Bool :=
  match s.currentGrid with
  | none => false
  | some grid =>
    decide (((grid.cells.length : Int) - (s.savedOrder.length : Int)).natAbs > 1)

/-- The loop of the observer callback over the records: the flags `shouldApplyOrder` and
`significantChange` after it, from their values before it. -/
def classifyMutations (s : State) : List MutationRecord → Bool × Bool → Bool × Bool
  | [], flags => flags
  | mutation :: rest, flags =>
    if mutation.isChildList then
      let addedNodes := gameNodes mutation.addedNodes
      let removedNodes := gameNodes mutation.removedNodes
      let flags1 : Bool × Bool :=
        if addedNodes.length > 3 ∨ removedNodes.length > 3 then (flags.1, true)
        else if addedNodes.length > 0 ∨ removedNodes.length > 0 then (true, flags.2)
        else flags
      let flags2 : Bool × Bool :=
        if detectSignificantChanges s then (flags1.1, true) else flags1
      classifyMutations s rest flags2
    else classifyMutations s rest flags

/-- The callback of the `MutationObserver` that `setupGridObserver` puts on the grid, run
on a batch of records; the state is the one the callback finds, the grid already
changed. -/
def gridObserverCallback (s : State) (mutations : List MutationRecord) : State :=
  if s.isManualOrderEnabled = false ∨ s.modalOpen = true ∨ s.isApplyingOrder = true then s
  else
    let flags := classifyMutations s mutations (false, false)
    -- `clearTimeout(gridRenderTimeout)`, then a new timer when the batch asks for one
    if flags.2 = true ∨ flags.1 = true then
      { s with gridRenderTimeout := some (if flags.2 then 800 else 300) }
    else { s with gridRenderTimeout := none }

/-- The callback of the timer `gridRenderTimeout`, run when the timer fires. -/
def gridRenderTimeoutFired (s : State) : State :=
  if s.isApplyingOrder = false ∧ s.isManualOrderEnabled = true then
    (applyOrderWithSync { s with gridRenderTimeout := none }).1
  else { s with gridRenderTimeout := none }

/-! ## Enabling and disabling manual ordering -/

/-- Source function `saveOrder`; `none` for `newOrder` is the default `null`. -/
def saveOrder (s : State) (newOrder : Option (List Entry)) : State :=
  match s.currentGrid with
  | none => s
  | some _ =>
    if s.isManualOrderEnabled = false then s
    else
      let gameOrder := match newOrder with
        | some order => order
        | none => (getAllGames s).map fun cell => (cellItem cell).toEntry
      { s with savedOrder := gameOrder, storedOrder := some gameOrder }

/-- Source function `loadOrder`, as far as it changes the state. -/
def loadOrder (s : State) : State :=
  match s.storedOrder with
  | some saved => { s with savedOrder := saved }
  | none => s

/-- Source function `saveEnabledState`. -/
def saveEnabledState (s : State) (enabled : Bool) : State := { s with storedEnabled := some enabled }

/-- Whether the variable `originalGridHTML` is truthy: it holds a string, and the string
is not empty. -/
def hasSnapshot (s : State) : Bool :=
  match s.originalGridHTML with
  | some html => !html.isEmptyString
  | none => false

/-- The property `currentGrid.innerHTML`, when there is a grid. -/
def currentGridHTML (s : State) : Option GridMarkup :=
  s.currentGrid.map fun grid => innerHTML grid s.gridOtherMarkup

/-- The `change` listener of the toggle: `checked` is `e.target.checked`, `found` is what
`findByClasses(GRID_CLASSES)` returns if it is called, and `foundOther` is the markup of
what that element holds besides its game cells. The 500 ms timer that the listener
starts when it enables the ordering runs `toggleEnableTimeout`; the observer, the
buttons and the classes it sets are not part of the state. -/
def toggleInputChange (s : State) (checked : Bool) (found : Option Grid) (foundOther : String) :
    State :=
  let previousState := s.isManualOrderEnabled
  let s1 := saveEnabledState { s with isManualOrderEnabled := checked } checked
  let s2 :=
    if previousState = true ∧ checked = false ∧ s1.isRefreshInProgress = false then
      { s1 with wasManualOrderEnabledBeforeRefresh := false }
    else s1
  if s2.isManualOrderEnabled = true then
    match found with
    | some grid =>
      let s3 := { s2 with currentGrid := some grid, gridOtherMarkup := foundOther }
      let s4 :=
        if hasSnapshot s3 = false then
          { s3 with originalGridHTML := some (innerHTML grid foundOther) }
        else s3
      let s5 := loadOrder s4
      { s5 with notifications := s5.notifications ++ ["🎮 Manual mode enabled"] }
    | none => saveEnabledState { s2 with currentGrid := none, isManualOrderEnabled := false } false
  else
    let s3 :=
      match s2.currentGrid with
      | some grid =>
        if hasSnapshot s2 = true then
          match s2.originalGridHTML with
          | some html =>
            -- `currentGrid.innerHTML = originalGridHTML`
            { s2 with
                currentGrid := some { grid with cells := html.cells }
                gridOtherMarkup := html.otherMarkup }
          | none => s2
        else s2
      | none => s2
    { s3 with notifications := s3.notifications ++ ["📋 Manual mode disabled - Grid restored"] }

/-- The callback of the 500 ms timer that the toggle listener starts when it enables the
ordering. -/
def toggleEnableTimeout (s : State) : State :=
  (applyOrderWithSync (if s.savedOrder.length = 0 then saveOrder s none else s)).1

/-! ## Export of the saved order -/

/-- The object `orderData` that `exportOrder` writes to the downloaded file. -/
structure OrderData where
  /-- The property `version`. -/
  version : String
  /-- The property `timestamp`. -/
  timestamp : String
  /-- The property `gameCount`. -/
  gameCount : Nat
  /-- The property `order`. -/
  order : List Entry
deriving DecidableEq, Repr

/-- Source function `exportOrder`: the state after the call and the object written to the
file; `now` is the value of `new Date().toISOString()`. -/
def exportOrder (s : State) (now : String) : State × OrderData :=
  ({ s with notifications := s.notifications
      ++ ["📁 Order exported (" ++ toString s.savedOrder.length ++ " games)"] },
    { version := "5.1", timestamp := now, gameCount := s.savedOrder.length, order := s.savedOrder })

/-- The exported file as `handleImportFile` reads it back: `JSON.parse` of the text that
`JSON.stringify` made of `orderData` has the array `order`, entry by entry. -/
def exportedDocument (orderData : OrderData) : ImportedDocument :=
  ImportedDocument.order orderData.order

/-! ## Gradients of the colour customizer -/

/-- The position of the highest set bit of `n`, found in at most `fuel` halvings. -/
def log2Fuel : Nat → Nat → Nat
  | 0, _ => 0
  | fuel + 1, n => if n ≥ 2 then log2Fuel fuel (n / 2) + 1 else 0

/-- The position of the highest set bit of `n` (`0` for `n ≤ 1`). -/
def log2 (n : Nat) : Nat := log2Fuel n n

/-- The double nearest to `num / den`, ties to even, as a pair of mantissa and binary
exponent: the value is `mantissa * 2 ^ exponent` with `2 ^ 52 ≤ mantissa < 2 ^ 53`,
or the pair `(0, 0)` for zero. The exponent is not limited: no quotient or product of
`generateGradient` leaves the range of the normal doubles. -/
def roundToDouble (num den : Nat) : Nat × Int :=
  if num = 0 then (0, 0)
  else
    let k : Int := (log2 num : Int) - (log2 den : Int)
    let scaledNum (e : Int) : Nat := if e ≥ 0 then num else num * 2 ^ (-e).toNat
    let scaledDen (e : Int) : Nat := if e ≥ 0 then den * 2 ^ e.toNat else den
    let e : Int :=
      if scaledNum (k - 52) / scaledDen (k - 52) < 2 ^ 52 then k - 53 else k - 52
    let q := scaledNum e / scaledDen e
    let r := scaledNum e % scaledDen e
    let m := if 2 * r > scaledDen e ∨ (2 * r = scaledDen e ∧ q % 2 = 1) then q + 1 else q
    if m = 2 ^ 53 then (2 ^ 52, e + 1) else (m, e)

/-- The quotient `a / b` of two integers, as JavaScript computes it. -/
def divDouble (a b : Nat) : Nat × Int := roundToDouble a b

/-- The product `index * x` of an integer and a double, as JavaScript computes it. -/
def mulDouble (index : Nat) (x : Nat × Int) : Nat × Int :=
  if x.2 ≥ 0 then roundToDouble (index * x.1 * 2 ^ x.2.toNat) 1
  else roundToDouble (index * x.1) (2 ^ (-x.2).toNat)

/-- The call `Math.round(x)` on a double that is not negative: the integer nearest to `x`,
the upper one of the two at a tie. -/
def mathRound (x : Nat × Int) : Nat :=
  if x.2 ≥ 0 then x.1 * 2 ^ x.2.toNat
  else (2 * x.1 + 2 ^ (-x.2).toNat) / 2 ^ ((-x.2).toNat + 1)

/-- A colour of a gradient section. -/
structure Color where
  /-- The property `hex`. -/
  hex : String
  /-- The property `alpha`, a number, as a template literal prints it. -/
  alpha : String
deriving DecidableEq, Repr

/-- White space and line terminators that `parseInt` skips, as code units. -/
def isWhitespaceCode (n : Nat) : Bool :=
  n == 9 || n == 10 || n == 11 || n == 12 || n == 13 || n == 32 || n == 160 ||
  n == 5760 || (8192 ≤ n && n ≤ 8202) || n == 8232 || n == 8233 || n == 8239 ||
  n == 8287 || n == 12288 || n == 65279

/-- The value of a code unit as a hexadecimal digit. -/
def hexDigitValue (u : Nat) : Option Nat :=
  if 48 ≤ u ∧ u ≤ 57 then some (u - 48)
  else if 97 ≤ u ∧ u ≤ 102 then some (u - 87)
  else if 65 ≤ u ∧ u ≤ 70 then some (u - 55)
  else none

/-- The hexadecimal digits at the front of a list of code units, as values. -/
def leadingHexDigits : List Nat → List Nat
  | [] => []
  | u :: rest =>
    match hexDigitValue u with
    | some d => d :: leadingHexDigits rest
    | none => []

/-- The call `parseInt(text, 16)` on the code units of `text`; `none` is `NaN`. -/
def parseInt16 (codes : List Nat) : Option Int :=
  let trimmed := codes.dropWhile isWhitespaceCode
  let signed : Bool := trimmed.head? == some 45 || trimmed.head? == some 43
  let unsigned := if signed then trimmed.drop 1 else trimmed
  let body :=
    if unsigned.take 2 == [48, 120] || unsigned.take 2 == [48, 88] then unsigned.drop 2
    else unsigned
  let digits := leadingHexDigits body
  if digits.isEmpty then none
  else
    let value : Nat := digits.foldl (fun (n : Nat) (d : Nat) => n * 16 + d) 0
    some (if trimmed.head? == some 45 then -(value : Int) else (value : Int))

/-- A number that `parseInt` returned, as a template literal prints it. -/
def printParsed (n : Option Int) : String :=
  match n with
  | none => "NaN"
  | some v => toString v

/-- The call `hex.slice(start, start + 2)`, as code units. -/
def sliceTwo (hex : String) (start : Nat) : List Nat := ((charCodes hex).drop start).take 2

/-- Source function `hexAlphaToRGBA`; `alpha` is the number as a template literal prints
it. -/
def hexAlphaToRGBA (hex : String) (alpha : String) : String :=
  let r := parseInt16 (sliceTwo hex 1)
  let g := parseInt16 (sliceTwo hex 3)
  let b := parseInt16 (sliceTwo hex 5)
  "rgba(" ++ printParsed r ++ ", " ++ printParsed g ++ ", " ++ printParsed b ++ ", " ++ alpha ++ ")"

/-- The constant `percentage` of `generateGradient` for the colour at `index` of `length`
colours. -/
def gradientPercentage (length index : Nat) : Nat :=
  if index = length - 1 then 100
  else mathRound (mulDouble index (divDouble 100 (length - 1)))

/-- The strings that the `map` of `generateGradient` builds, one for each colour. -/
def colorStopsOf (colors : List Color) : List String :=
  colors.enum.map fun p =>
    hexAlphaToRGBA p.2.hex p.2.alpha ++ " " ++ toString (gradientPercentage colors.length p.1)
      ++ "%"

/-- Source function `generateGradient`; `angle` is the number as a template literal
prints it. -/
def generateGradient (colors : List Color) (angle : String) : String :=
  if colors.length < 2 then "linear-gradient(0deg, #000 0%, #000 100%)"
  else "linear-gradient(" ++ angle ++ "deg, " ++ ", ".intercalate (colorStopsOf colors) ++ ")"

/-! ## Words of the specification -/

/-- The id under which an imported item takes part in the reconciliation: the id itself,
or the converted id when `isOldFormatId` holds of it. -/
def resolvedId (i : Item) : String :=
  if isOldFormatId i.id then convertOldIdToNew i.id i.title else i.id

/-- Closure, in the words of the specification: the ids of `result` are exactly the ids
of the rendered cells. -/
def SameIds (result : List Entry) (cells : List GameCell) : Prop :=
  ∀ k : Option String, k ∈ result.map entryId ↔ k ∈ cells.map fun c => some (getGameId c)

/-- The reconciled order in the words of the specification: the imported items whose id
is rendered, in imported order, then the rendered items that the import does not
mention, in render order. -/
def expectedImportOrder (cells : List GameCell) (items : List Item) : List Entry :=
  (items.filter fun i => i.id ∈ cells.map getGameId).map Item.toEntry
    ++ (cells.filter fun c => getGameId c ∉ items.map Item.id).map fun c => (cellItem c).toEntry

/-- The elements of a list whose key is not in `seen` and did not occur earlier in the
list: each key once, at its first occurrence. -/
def firstByKey {α : Type} (key : α → String) (seen : List String) : List α → List α
  | [] => []
  | a :: l =>
    if key a ∈ seen then firstByKey key seen l else a :: firstByKey key (seen ++ [key a]) l

/-- The ids of the rendered cells, each once, in render order. -/
def renderedIdsOnce (cells : List GameCell) : List String :=
  firstByKey (fun k => k) [] (cells.map getGameId)

/-- The rendered cell with id `k`, when there is one. -/
def cellWithId (cells : List GameCell) (k : String) : Option GameCell :=
  cells.find? fun c => getGameId c == k

/-- The arrangement of the specification for the saved ids `ids`: the cells whose id
occurs in `ids`, in the sequence of `ids` (first occurrence of each id), followed by
the cells whose id is not in `ids`, in their previous relative order. -/
def expectedArrangement (cells : List GameCell) (ids : List String) : List GameCell :=
  (firstByKey (fun k => k) [] ids).filterMap (cellWithId cells)
    ++ cells.filter fun c => getGameId c ∉ ids

/-- The rolling hash of the specification over the code units of a title:
`hash = hash * 31 + charCode`, wrapped to a signed 32-bit integer after each
character, from the seed 0. -/
def rollingHash (codes : List Nat) : Int :=
  codes.foldl (fun (hash : Int) (charCode : Nat) => toInt32 (hash * 31 + (charCode : Int))) 0

/-- The fallback id of the specification with the prefix `pfx`: the prefix, then the
absolute value of the rolling hash of the title in base 36, cut to 16 characters. -/
def expectedFallbackId (pfx title : String) : String :=
  substring0 (pfx ++ toString36 (rollingHash (charCodes title)).natAbs) 16

/-- The value of a base-36 digit character. -/
def digitValue36 (c : Char) : Nat := if c.toNat < 58 then c.toNat - 48 else c.toNat - 87

/-- The number that a list of base-36 digits denotes, most significant digit first. -/
def fromDigits36 (digits : List Char) : Nat :=
  digits.foldl (fun n c => n * 36 + digitValue36 c) 0

/-- In `href`, the text "app/" followed by a decimal digit occurs right after `pre`. -/
def IsAppOccurrence (href pre : List Char) : Prop :=
  ∃ d suffix, isDigit d = true ∧ href = pre ++ "app/".data ++ d :: suffix

/-- In `href`, the first occurrence of "app/" followed by a decimal digit is right after
`pre`, and `digits` is the maximal run of decimal digits that follows it. -/
def IsFirstAppMatch (href pre digits rest : List Char) : Prop :=
  href = pre ++ "app/".data ++ digits ++ rest
    ∧ digits ≠ []
    ∧ (∀ c ∈ digits, isDigit c = true)
    ∧ (∀ c ∈ rest.head?, isDigit c = false)
    ∧ ∀ pre2, IsAppOccurrence href pre2 → pre.length ≤ pre2.length

/-- The title of the specification: the first non-empty text among the image alt text and
the text of the link (read by `linkText`), or else the literal `unknown`. -/
def specTitle (linkText : Link → String) (unknown : String) (cell : GameCell) : String :=
  ([cell.imgAlt.getD "", (cell.link.map linkText).getD ""].find? fun t => t ≠ "").getD unknown

/-- The number of game cells among the nodes that a batch of records adds. -/
def batchAdded (batch : List MutationRecord) : Nat :=
  (batch.map fun r => (gameNodes r.addedNodes).length).sum

/-- The number of game cells among the nodes that a batch of records removes. -/
def batchRemoved (batch : List MutationRecord) : Nat :=
  (batch.map fun r => (gameNodes r.removedNodes).length).sum

/-- A record of type `childList` that adds or removes more than `n` game cells. -/
def recordMovesMoreThan (n : Nat) (r : MutationRecord) : Bool :=
  r.isChildList
    && (decide ((gameNodes r.addedNodes).length > n)
      || decide ((gameNodes r.removedNodes).length > n))

/-- The number of positions of the grid at which the cell is not the one that was there
before. -/
def repositionedCount (before after : List GameCell) : Nat :=
  ((before.zip after).filter fun p => p.1 ≠ p.2).length

/-- The number of rendered games, each id once, that no entry of the saved order names. -/
def newGamesCount (cells : List GameCell) (savedOrder : List Entry) : Nat :=
  ((renderedIdsOnce cells).filter fun k => some k ∉ savedOrder.map entryId).length

/-- The number of entries of the saved order whose game is not rendered. -/
def removedGamesCount (cells : List GameCell) (savedOrder : List Entry) : Nat :=
  (savedOrder.filter fun e =>
    e ≠ none ∧ ∀ k ∈ entryId e, k ∉ cells.map getGameId).length

/-- The integer nearest to `num / den`, the upper one of the two at a tie. -/
def nearestInteger (num den : Nat) : Nat := (2 * num + den) / (2 * den)

/-! ## Sample cells -/

/-- A cell that links to application 1. -/
def cellApp1 : GameCell := { link := some { href := some "/library/app/1", textContent := "A" }, imgAlt := some "A" }

/-- A cell that links to application 2. -/
def cellApp2 : GameCell := { link := some { href := some "/library/app/2", textContent := "B" }, imgAlt := some "B" }

/-- A cell that links to application 3. -/
def cellApp3 : GameCell := { link := some { href := some "/library/app/3", textContent := "C" }, imgAlt := some "C" }

/-- A cell that links to application 4. -/
def cellApp4 : GameCell := { link := some { href := some "/library/app/4", textContent := "D" }, imgAlt := some "D" }

/-- A second cell that links to application 1, with another image text. -/
def cellApp1Again : GameCell := { link := some { href := some "/library/app/1", textContent := "A" }, imgAlt := some "A (copy)" }

/-- A cell without a link, titled by its image. -/
def cellCuphead : GameCell := { link := none, imgAlt := some "Cuphead" }

/-- A saved entry in the old format for the title "Cuphead". -/
def legacyCuphead : Game := { id := some "Q3VwaGVhZA", title := some "Cuphead" }

/-- A node of a mutation record that is a game cell. -/
def gameNode : MutationNode := { nodeType := 1, matchesGameSelector := true }

/-- A node of a mutation record that is a text node. -/
def textNode : MutationNode := { nodeType := 3, matchesGameSelector := false }

/-- A record that adds one game cell. -/
def addsOneGame : MutationRecord := { addedNodes := [gameNode], removedNodes := [] }

/-- A record that adds one text node. -/
def addsOneText : MutationRecord := { addedNodes := [textNode], removedNodes := [] }

/-- A colour without transparency. -/
def solidColor (hex : String) : Color := { hex := hex, alpha := "1" }

set_option maxRecDepth 8000

/-! ## Basic facts on the identity resolver -/

theorem matchAppId_ne_nil (l d : List Char) (h : matchAppId l = some d) : d ≠ [] := by
  induction l with
  | nil => simp [matchAppId] at h
  | cons c rest ih =>
    unfold matchAppId at h
    split at h
    · rename_i hc
      simp only [Bool.and_eq_true, Bool.not_eq_true', List.isEmpty_eq_false] at hc
      injection h with h
      subst h
      intro h0
      rw [h0] at hc
      simp at hc
    · exact ih h

theorem string_mk_ne_empty (l : List Char) (h : l ≠ []) : String.mk l ≠ "" := by
  intro h0
  apply h
  have := congrArg String.data h0
  simpa using this

theorem getGameTitle_ne_empty (cell : GameCell) : getGameTitle cell ≠ "" := by
  unfold getGameTitle
  split
  · split
    · assumption
    · split
      · split
        · assumption
        · decide
      · decide
  · split
    · split
      · assumption
      · decide
    · decide

theorem substring0_game_ne_empty (x : String) : substring0 ("game_" ++ x) 16 ≠ "" := by
  apply string_mk_ne_empty
  simp [String.data_append]

theorem getGameId_ne_empty (cell : GameCell) : getGameId cell ≠ "" := by
  unfold getGameId
  split
  · rename_i appId h
    unfold appIdOfLink at h
    split at h
    · simp only [Option.map_eq_some'] at h
      obtain ⟨d, hd, rfl⟩ := h
      exact string_mk_ne_empty d (matchAppId_ne_nil _ d hd)
    · simp at h
  · exact substring0_game_ne_empty _

/-! ## Facts on maps -/

theorem JSMap.has_iff {V : Type} (m : JSMap V) (k : String) :
    JSMap.has m k = true ↔ k ∈ JSMap.keys m := by
  simp [JSMap.has, JSMap.keys]

theorem JSMap.keys_set {V : Type} (m : JSMap V) (k : String) (v : V) :
    JSMap.keys (JSMap.set m k v) = if k ∈ JSMap.keys m then JSMap.keys m else JSMap.keys m ++ [k] := by
  unfold JSMap.set
  by_cases h : JSMap.has m k = true
  · rw [if_pos h, if_pos ((JSMap.has_iff m k).1 h)]
    simp only [JSMap.keys, List.map_map]
    apply List.map_congr_left
    intro p _
    by_cases hp : p.1 = k <;> simp [hp]
  · rw [if_neg h, if_neg (fun hk => h ((JSMap.has_iff m k).2 hk))]
    simp [JSMap.keys]

theorem JSMap.keys_delete {V : Type} (m : JSMap V) (k : String) :
    JSMap.keys (JSMap.delete m k) = (JSMap.keys m).filter fun x => x != k := by
  simp [JSMap.keys, JSMap.delete, List.filter_map, Function.comp_def]

theorem JSMap.keys_delete_erase {V : Type} (m : JSMap V) (k : String)
    (hm : (JSMap.keys m).Nodup) : JSMap.keys (JSMap.delete m k) = (JSMap.keys m).erase k := by
  rw [JSMap.keys_delete, hm.erase_eq_filter]

theorem JSMap.nodup_delete {V : Type} (m : JSMap V) (k : String)
    (hm : (JSMap.keys m).Nodup) : (JSMap.keys (JSMap.delete m k)).Nodup := by
  rw [JSMap.keys_delete]
  exact hm.filter _

theorem JSMap.nodup_set {V : Type} (m : JSMap V) (k : String) (v : V)
    (hm : (JSMap.keys m).Nodup) : (JSMap.keys (JSMap.set m k v)).Nodup := by
  rw [JSMap.keys_set]
  split
  · exact hm
  · rename_i h
    exact List.Nodup.append hm (List.nodup_singleton k) (by simpa using h)

theorem JSMap.mem_keys_delete {V : Type} (m : JSMap V) (k x : String) :
    x ∈ JSMap.keys (JSMap.delete m k) ↔ x ∈ JSMap.keys m ∧ x ≠ k := by
  simp [JSMap.keys_delete]

/-! ## The map of the rendered games -/

theorem currentGameMapOf_eq (cells : List GameCell) :
    currentGameMapOf cells
      = cells.foldl (fun m cell => JSMap.set m (getGameId cell) (getGameTitle cell)) [] := by
  unfold currentGameMapOf
  congr 1
  funext m cell
  simp [getGameId_ne_empty, getGameTitle_ne_empty]

theorem foldl_set_keys {α V : Type} (key : α → String) (f : α → V) (l : List α) (m : JSMap V) :
    (JSMap.keys m).Nodup →
    (JSMap.keys (l.foldl (fun m a => JSMap.set m (key a) (f a)) m)).Nodup ∧
    ∀ k, k ∈ JSMap.keys (l.foldl (fun m a => JSMap.set m (key a) (f a)) m)
      ↔ k ∈ JSMap.keys m ∨ k ∈ l.map key := by
  induction l generalizing m with
  | nil => intro hm; simp [hm]
  | cons c rest ih =>
    intro hm
    have h := ih (JSMap.set m (key c) (f c)) (JSMap.nodup_set m _ _ hm)
    refine ⟨h.1, fun k => ?_⟩
    rw [List.foldl_cons, h.2 k, JSMap.keys_set]
    by_cases hc : key c ∈ JSMap.keys m
    · rw [if_pos hc]
      simp only [List.map_cons, List.mem_cons]
      constructor
      · rintro (h1 | h1)
        · exact Or.inl h1
        · exact Or.inr (Or.inr h1)
      · rintro (h1 | h1 | h1)
        · exact Or.inl h1
        · exact Or.inl (h1 ▸ hc)
        · exact Or.inr h1
    · rw [if_neg hc]
      simp only [List.map_cons, List.mem_cons, List.mem_append, List.mem_singleton]
      tauto

theorem foldl_set_nodup {α V : Type} (key : α → String) (f : α → V) (l : List α) (m : JSMap V)
    (hd : (JSMap.keys m ++ l.map key).Nodup) :
    l.foldl (fun m a => JSMap.set m (key a) (f a)) m = m ++ l.map fun a => (key a, f a) := by
  induction l generalizing m with
  | nil => simp
  | cons c rest ih =>
    have hc : key c ∉ JSMap.keys m := by
      intro hmem
      have := List.disjoint_of_nodup_append hd hmem
      simp at this
    have hset : JSMap.set m (key c) (f c) = m ++ [(key c, f c)] := by
      unfold JSMap.set
      rw [if_neg (fun h => hc ((JSMap.has_iff m _).1 h))]
    rw [List.foldl_cons, hset, ih]
    · simp
    · simpa [JSMap.keys] using hd

theorem JSMap.mem_set {V : Type} (m : JSMap V) (k : String) (v : V) (p : String × V)
    (hp : p ∈ JSMap.set m k v) : p ∈ m ∨ p = (k, v) := by
  unfold JSMap.set at hp
  split at hp
  · obtain ⟨q, hq, rfl⟩ := List.mem_map.1 hp
    by_cases h : q.1 = k
    · right; simp [h]
    · left; simpa [h] using hq
  · simpa using hp

theorem mem_foldl_set {α V : Type} (key : α → String) (f : α → V) (l : List α) (m : JSMap V)
    (p : String × V) (hp : p ∈ l.foldl (fun m a => JSMap.set m (key a) (f a)) m) :
    p ∈ m ∨ ∃ a ∈ l, p = (key a, f a) := by
  induction l generalizing m with
  | nil => left; simpa using hp
  | cons c rest ih =>
    rw [List.foldl_cons] at hp
    rcases ih _ hp with h | ⟨c2, hc2, rfl⟩
    · rcases JSMap.mem_set m _ _ p h with h | h
      · exact Or.inl h
      · exact Or.inr ⟨c, List.mem_cons_self _ _, h⟩
    · exact Or.inr ⟨c2, List.mem_cons_of_mem _ hc2, rfl⟩

theorem firstByKey_congr {α : Type} (key : α → String) (l : List α) (seen seen2 : List String)
    (h : ∀ k, k ∈ seen ↔ k ∈ seen2) : firstByKey key seen l = firstByKey key seen2 l := by
  induction l generalizing seen seen2 with
  | nil => rfl
  | cons a l ih =>
    simp only [firstByKey, h (key a)]
    rw [ih (seen ++ [key a]) (seen2 ++ [key a]) (by intro k; simp [h k]), ih seen seen2 h]

theorem foldl_set_keys_eq {α V : Type} (key : α → String) (f : α → V) (l : List α)
    (m : JSMap V) :
    JSMap.keys (l.foldl (fun m a => JSMap.set m (key a) (f a)) m)
      = JSMap.keys m ++ firstByKey (fun k => k) (JSMap.keys m) (l.map key) := by
  induction l generalizing m with
  | nil => simp [firstByKey]
  | cons c rest ih =>
    rw [List.foldl_cons, ih, JSMap.keys_set]
    by_cases hc : key c ∈ JSMap.keys m
    · simp [firstByKey, hc]
    · simp [firstByKey, hc]

theorem currentGameMapOf_nodup (cells : List GameCell) :
    (JSMap.keys (currentGameMapOf cells)).Nodup := by
  rw [currentGameMapOf_eq]
  exact (foldl_set_keys getGameId getGameTitle cells [] (by simp [JSMap.keys])).1

theorem mem_currentGameMapOf (cells : List GameCell) (k : String) :
    k ∈ JSMap.keys (currentGameMapOf cells) ↔ k ∈ cells.map getGameId := by
  rw [currentGameMapOf_eq, (foldl_set_keys getGameId getGameTitle cells [] (by simp [JSMap.keys])).2 k]
  simp [JSMap.keys]

theorem currentGameMapOf_of_nodup (cells : List GameCell) (hd : (cells.map getGameId).Nodup) :
    currentGameMapOf cells = cells.map fun cell => (getGameId cell, getGameTitle cell) := by
  rw [currentGameMapOf_eq, foldl_set_nodup getGameId getGameTitle cells [] (by simpa [JSMap.keys] using hd)]
  simp

/-! ## Step 1 and step 3 of the import reconciliation, on items -/

theorem entryId_toEntry (i : Item) : entryId i.toEntry = some i.id := rfl

theorem map_entryId_remainingEntries (m : JSMap String) :
    (remainingEntries m).map entryId = (JSMap.keys m).map some := by
  simp [remainingEntries, JSMap.keys, entryId, Function.comp_def]

theorem convertOldFormatGames_items (items : List Item) :
    ∃ c, convertOldFormatGames (oldFormatGamesOf (items.map Item.toEntry)) = some c := by
  induction items with
  | nil => exact ⟨[], rfl⟩
  | cons i rest ih =>
    obtain ⟨c, hc⟩ := ih
    by_cases h : i.id ≠ "" ∧ isOldFormatId i.id = true
    · refine ⟨{ id := some (convertOldIdToNew i.id i.title), title := some i.title } :: c, ?_⟩
      have : oldFormatGamesOf ((i :: rest).map Item.toEntry)
          = { id := some i.id, title := some i.title }
              :: oldFormatGamesOf (rest.map Item.toEntry) := by
        simp [oldFormatGamesOf, Item.toEntry, List.filterMap_cons, h]
      rw [this]
      simp only [convertOldFormatGames, hc]
    · refine ⟨c, ?_⟩
      have : oldFormatGamesOf ((i :: rest).map Item.toEntry)
          = oldFormatGamesOf (rest.map Item.toEntry) := by
        simp [oldFormatGamesOf, Item.toEntry, List.filterMap_cons, h]
      rw [this, hc]

theorem resolveImportedId_item (i : Item) :
    resolveImportedId { id := some i.id, title := some i.title } = some (resolvedId i) := by
  unfold resolveImportedId resolvedId
  by_cases h : isOldFormatId i.id = true <;> simp [h]

theorem keepImported_items (items : List Item) (m : JSMap String) (hm : (JSMap.keys m).Nodup) :
    ∃ r ks, keepImported (items.map Item.toEntry) m = some r
      ∧ r.1.map entryId = ks.map some
      ∧ (ks ++ JSMap.keys r.2).Perm (JSMap.keys m) := by
  induction items generalizing m with
  | nil => exact ⟨([], m), [], rfl, rfl, by simp⟩
  | cons i rest ih =>
    by_cases h : JSMap.has m (resolvedId i) = true
    · obtain ⟨r, ks, hr, hk, hp⟩ := ih (JSMap.delete m (resolvedId i)) (JSMap.nodup_delete m _ hm)
      refine ⟨(some { id := some (resolvedId i), title := some i.title } :: r.1, r.2),
        resolvedId i :: ks, ?_, ?_, ?_⟩
      · simp only [List.map_cons, Item.toEntry, keepImported, resolveImportedId_item, h, if_true]
        have hr2 : keepImported (List.map Item.toEntry rest) (JSMap.delete m (resolvedId i))
            = some r := hr
        rw [hr2]
      · simp [hk, entryId]
      · rw [JSMap.keys_delete_erase m _ hm] at hp
        exact (List.Perm.cons _ hp).trans
          (List.perm_cons_erase ((JSMap.has_iff m _).1 h)).symm
    · obtain ⟨r, ks, hr, hk, hp⟩ := ih m hm
      refine ⟨r, ks, ?_, hk, hp⟩
      simp only [List.map_cons, Item.toEntry, keepImported, resolveImportedId_item, h]
      exact hr

theorem dedupSynchronized_id (l : List Entry) (ks used : List String)
    (hl : l.map entryId = ks.map some) (hd : (used ++ ks).Nodup) (hne : ∀ k ∈ ks, k ≠ "") :
    dedupSynchronized l used = (l, used ++ ks) := by
  induction l generalizing ks used with
  | nil =>
    cases ks with
    | nil => simp [dedupSynchronized]
    | cons k ks => simp at hl
  | cons e rest ih =>
    cases ks with
    | nil => simp at hl
    | cons k ks =>
      simp only [List.map_cons, List.cons.injEq] at hl
      obtain ⟨he, hrest⟩ := hl
      cases e with
      | none => simp [entryId] at he
      | some game =>
        have hid : game.id = some k := by simpa [entryId] using he
        have hk1 : k ≠ "" := hne k (List.mem_cons_self _ _)
        have hk2 : k ∉ used := by
          intro hmem
          have := List.disjoint_of_nodup_append hd hmem
          simp at this
        have hd2 : ((used ++ [k]) ++ ks).Nodup := by simpa using hd
        have := ih ks (used ++ [k]) hrest hd2 (fun x hx => hne x (List.mem_cons_of_mem _ hx))
        simp only [dedupSynchronized, hid]
        rw [if_pos ⟨hk1, hk2⟩, this]
        simp

theorem resyncOrder_id (l : List Entry) (ks : List String) (cells : List GameCell)
    (hl : l.map entryId = ks.map some) (hd : ks.Nodup) (hne : ∀ k ∈ ks, k ≠ "")
    (hall : ∀ c ∈ cells, getGameId c ∈ ks) : resyncOrder l cells = l := by
  unfold resyncOrder
  rw [dedupSynchronized_id l ks [] hl (by simpa using hd) hne]
  simp only [List.nil_append]
  have : (cells.filterMap fun cell =>
      if getGameId cell ≠ "" ∧ getGameTitle cell ≠ "" ∧ getGameId cell ∉ ks then
        some (cellItem cell).toEntry
      else none) = [] := by
    rw [List.filterMap_eq_nil_iff]
    intro c hc
    simp [hall c hc]
  rw [this, List.append_nil]

/-- On items and a non-empty grid the import reconciliation returns the games kept by
step 1 followed by the games left in the map; its ids are a rearrangement of the
keys of the map of rendered games. -/
theorem synchronizeImportedOrder_items (cells : List GameCell) (d : Bool) (items : List Item)
    (hne : cells ≠ []) :
    ∃ r ks, keepImported (items.map Item.toEntry) (currentGameMapOf cells) = some r
      ∧ synchronizeImportedOrder (some ⟨cells, d⟩) (items.map Item.toEntry)
          = r.1 ++ remainingEntries r.2
      ∧ (r.1 ++ remainingEntries r.2).map entryId = (ks ++ JSMap.keys r.2).map some
      ∧ (ks ++ JSMap.keys r.2).Perm (JSMap.keys (currentGameMapOf cells)) := by
  obtain ⟨r, ks, hr, hk, hp⟩ :=
    keepImported_items items (currentGameMapOf cells) (currentGameMapOf_nodup cells)
  obtain ⟨c, hc⟩ := convertOldFormatGames_items items
  have hids : (r.1 ++ remainingEntries r.2).map entryId = (ks ++ JSMap.keys r.2).map some := by
    simp [hk, map_entryId_remainingEntries]
  refine ⟨r, ks, hr, ?_, hids, hp⟩
  have hlen : cells.length ≠ 0 := by simpa using hne
  have hre : resyncOrder (r.1 ++ remainingEntries r.2) cells = r.1 ++ remainingEntries r.2 := by
    rw [resyncOrder_id _ (ks ++ JSMap.keys r.2) cells hids]
    · exact hp.nodup_iff.2 (currentGameMapOf_nodup cells)
    · intro k hk
      have := (mem_currentGameMapOf cells k).1 (hp.mem_iff.1 hk)
      obtain ⟨c, _, rfl⟩ := List.mem_map.1 this
      exact getGameId_ne_empty c
    · intro c hc
      exact hp.mem_iff.2 ((mem_currentGameMapOf cells _).2 (List.mem_map_of_mem _ hc))
  have htry : synchronizeImportedOrderTry cells (items.map Item.toEntry)
      = some (r.1 ++ remainingEntries r.2) := by
    simp only [synchronizeImportedOrderTry, hc, hr, hre]
    by_cases hmis : (r.1 ++ remainingEntries r.2).length = cells.length
    · rw [if_neg (not_not.2 hmis), if_pos hmis]
    · rw [if_pos hmis]
  simp only [synchronizeImportedOrder, hlen, if_false, htry]

/-! ## Claims on the import reconciliation -/

/-- C1 (failing input). Rendered cells with application ids 1 and 2, imported order
[2, 1]: `isOldFormatId` classifies both imported ids as old-format, they are replaced
by title hashes, found nowhere, and the result lists the ids in render order 1, 2. -/
theorem C1_imported_order_lost :
    (synchronizeImportedOrder (some { cells := [cellApp1, cellApp2] })
        [Item.toEntry { id := "2", title := "B" }, Item.toEntry { id := "1", title := "A" }]).map
      entryId = [some "1", some "2"]
    ∧ isOldFormatId "2" = true ∧ isOldFormatId "1" = true := by
  decide

/-- C2 (counterexample). With a grid that holds no game cell the imported order is
returned as it is: its id is not the id of any rendered cell. -/
theorem C2_closure_fails_on_empty_grid :
    ¬ SameIds (synchronizeImportedOrder (some { cells := [] })
        [Item.toEntry { id := "game_x", title := "X" }]) [] := by
  intro h
  have := (h (some "game_x")).1 (by decide)
  simp at this

/-- C2 (amended). For every non-empty rendered set and every imported order of items,
the ids of the list returned by `synchronizeImportedOrder` are exactly the ids of the
rendered cells. -/
theorem C2_closure (cells : List GameCell) (d : Bool) (items : List Item) (hne : cells ≠ []) :
    SameIds (synchronizeImportedOrder (some { cells := cells, inDocument := d })
      (items.map Item.toEntry)) cells := by
  obtain ⟨r, ks, _, hs, hids, hp⟩ := synchronizeImportedOrder_items cells d items hne
  intro k
  rw [hs, hids]
  constructor
  · intro hk
    obtain ⟨x, hx, rfl⟩ := List.mem_map.1 hk
    have := (mem_currentGameMapOf cells x).1 (hp.mem_iff.1 hx)
    obtain ⟨c, hc, rfl⟩ := List.mem_map.1 this
    exact List.mem_map.2 ⟨c, hc, rfl⟩
  · intro hk
    obtain ⟨c, hc, rfl⟩ := List.mem_map.1 hk
    exact List.mem_map_of_mem _
      (hp.mem_iff.2 ((mem_currentGameMapOf cells _).2 (List.mem_map_of_mem _ hc)))

/-- Witness of C2 (amended): two rendered cells, an import that names one of them and a
game that is not rendered. -/
theorem C2_closure_witness :
    SameIds (synchronizeImportedOrder (some { cells := [cellApp1, cellCuphead] })
      ([{ id := "game_owci6a", title := "Cuphead" }, { id := "game_zz", title := "Gone" }].map
        Item.toEntry)) [cellApp1, cellCuphead] :=
  C2_closure [cellApp1, cellCuphead] true _ (by simp)

theorem keepImported_exact (items : List Item) (m : JSMap String)
    (hd : (items.map Item.id).Nodup) (hnew : ∀ i ∈ items, isOldFormatId i.id = false) :
    keepImported (items.map Item.toEntry) m
      = some ((items.filter fun i => i.id ∈ JSMap.keys m).map Item.toEntry,
          m.filter fun p => p.1 ∉ items.map Item.id) := by
  induction items generalizing m with
  | nil => simp [keepImported]
  | cons i rest ih =>
    have hres : resolvedId i = i.id := by
      simp [resolvedId, hnew i (List.mem_cons_self _ _)]
    have hd2 : (rest.map Item.id).Nodup := (List.nodup_cons.1 hd).2
    have hi : i.id ∉ rest.map Item.id := (List.nodup_cons.1 hd).1
    have hnew2 : ∀ j ∈ rest, isOldFormatId j.id = false :=
      fun j hj => hnew j (List.mem_cons_of_mem _ hj)
    simp only [List.map_cons, Item.toEntry, keepImported, resolveImportedId_item, hres]
    by_cases h : JSMap.has m i.id = true
    · have hmem : i.id ∈ JSMap.keys m := (JSMap.has_iff m _).1 h
      have e1 := ih (JSMap.delete m i.id) hd2 hnew2
      simp only [Item.toEntry] at e1
      rw [if_pos h, e1]
      have f1 : (rest.filter fun j => j.id ∈ JSMap.keys (JSMap.delete m i.id))
          = rest.filter fun j => j.id ∈ JSMap.keys m := by
        apply List.filter_congr
        intro j hj
        have : j.id ≠ i.id := fun e => hi (e ▸ List.mem_map_of_mem _ hj)
        simp [JSMap.mem_keys_delete, this]
      have f2 : ((JSMap.delete m i.id).filter fun p => p.1 ∉ rest.map Item.id)
          = m.filter fun p => p.1 ∉ (i :: rest).map Item.id := by
        simp only [JSMap.delete, List.filter_filter]
        apply List.filter_congr
        intro p _
        by_cases hp : p.1 = i.id <;> simp [hp]
      simp only [f1, f2, List.filter_cons, hmem, decide_True, if_true, List.map_cons]
      rfl
    · have hmem : i.id ∉ JSMap.keys m := fun hk => h ((JSMap.has_iff m _).2 hk)
      have e1 := ih m hd2 hnew2
      simp only [Item.toEntry] at e1
      rw [if_neg h, e1]
      have f2 : (m.filter fun p => p.1 ∉ rest.map Item.id)
          = m.filter fun p => p.1 ∉ (i :: rest).map Item.id := by
        apply List.filter_congr
        intro p hp
        have : p.1 ≠ i.id := fun e => hmem (e ▸ List.mem_map_of_mem (fun p => p.1) hp)
        simp [this]
      simp only [f2, List.filter_cons, hmem, decide_False, Bool.false_eq_true, if_false]
      rfl

/-- C3 (counterexample). Two inputs at which the claim fails: with a grid that holds no
game cell the import comes back unchanged instead of the empty list; and rendered ids
1, 2, 3, 4 with imported ids 3, 1 give 1, 2, 3, 4. -/
theorem C3_expected_order_fails :
    synchronizeImportedOrder (some { cells := [] }) [Item.toEntry { id := "game_x", title := "X" }]
        ≠ expectedImportOrder [] [{ id := "game_x", title := "X" }]
    ∧ (synchronizeImportedOrder (some { cells := [cellApp1, cellApp2, cellApp3, cellApp4] })
        [Item.toEntry { id := "3", title := "C" }, Item.toEntry { id := "1", title := "A" }]).map
      entryId = [some "1", some "2", some "3", some "4"] := by
  decide

/-- C3 (amended). For every non-empty rendered set with pairwise distinct ids and every
imported order of items without repeated ids, none of which `isOldFormatId` takes for
an old-format id, `synchronizeImportedOrder` returns the imported items whose id is
rendered, in imported order, followed by the rendered items that the import does not
mention, in render order; when every imported item is rendered, the imported list is a
prefix of the result. -/
theorem C3_expected_order (cells : List GameCell) (d : Bool) (items : List Item)
    (hne : cells ≠ []) (hcells : (cells.map getGameId).Nodup)
    (hitems : (items.map Item.id).Nodup) (hnew : ∀ i ∈ items, isOldFormatId i.id = false) :
    synchronizeImportedOrder (some { cells := cells, inDocument := d }) (items.map Item.toEntry)
        = expectedImportOrder cells items
    ∧ ((∀ i ∈ items, i.id ∈ cells.map getGameId) →
        items.map Item.toEntry <+: synchronizeImportedOrder
          (some { cells := cells, inDocument := d }) (items.map Item.toEntry)) := by
  obtain ⟨r, ks, hr, hs, _, _⟩ := synchronizeImportedOrder_items cells d items hne
  rw [keepImported_exact items _ hitems hnew] at hr
  have hr2 := (Option.some.inj hr).symm
  have hmain : synchronizeImportedOrder (some { cells := cells, inDocument := d })
      (items.map Item.toEntry) = expectedImportOrder cells items := by
    rw [hs, hr2]
    unfold expectedImportOrder
    dsimp only
    congr 1
    · congr 1
      apply List.filter_congr
      intro i _
      simp [mem_currentGameMapOf]
    · rw [currentGameMapOf_of_nodup cells hcells]
      simp [remainingEntries, List.filter_map, Function.comp_def, cellItem, Item.toEntry]
  refine ⟨hmain, fun hall => ?_⟩
  rw [hmain]
  unfold expectedImportOrder
  have : (items.filter fun i => i.id ∈ cells.map getGameId) = items := by
    rw [List.filter_eq_self]
    intro i hi
    simpa using hall i hi
  rw [this]
  exact List.prefix_append _ _

/-- Witness of C3 (amended): rendered cells of applications 1 and 2 and of a title
hash, imported order: the title hash, then a game that is gone. -/
theorem C3_expected_order_witness :
    synchronizeImportedOrder (some { cells := [cellApp1, cellCuphead, cellApp2] })
        ([{ id := "game_owci6a", title := "Cuphead" }, { id := "game_zz", title := "Gone" }].map
          Item.toEntry)
      = expectedImportOrder [cellApp1, cellCuphead, cellApp2]
          [{ id := "game_owci6a", title := "Cuphead" }, { id := "game_zz", title := "Gone" }] :=
  (C3_expected_order [cellApp1, cellCuphead, cellApp2] true
    [{ id := "game_owci6a", title := "Cuphead" }, { id := "game_zz", title := "Gone" }]
    (by simp) (by decide) (by decide) (by decide)).1

/-- On items the reconciliation lists no id twice: for every non-empty rendered set
(cells may share an id) and every imported order of items (ids may repeat, old-format
ids may convert to an id already listed), the list returned by
`synchronizeImportedOrder` holds no id twice. -/
theorem synchronizeImportedOrder_nodup_items (cells : List GameCell) (d : Bool)
    (items : List Item) (hne : cells ≠ []) :
    ((synchronizeImportedOrder (some { cells := cells, inDocument := d })
      (items.map Item.toEntry)).map entryId).Nodup := by
  obtain ⟨r, ks, _, hs, hids, hp⟩ := synchronizeImportedOrder_items cells d items hne
  rw [hs, hids]
  exact (hp.nodup_iff.2 (currentGameMapOf_nodup cells)).map (Option.some_injective _)

/-- An instance: two cells share the id 1; the import repeats an id and holds an
old-format id that converts to the id listed before it. -/
theorem synchronizeImportedOrder_nodup_items_example :
    ((synchronizeImportedOrder (some { cells := [cellApp1, cellCuphead, cellApp1Again] })
      ([{ id := "game_owci6a", title := "Cuphead" }, { id := "Q3VwaGVhZA", title := "Cuphead" },
        { id := "game_owci6a", title := "Cuphead" }].map Item.toEntry)).map entryId).Nodup :=
  synchronizeImportedOrder_nodup_items [cellApp1, cellCuphead, cellApp1Again] true _ (by simp)

/-- C4 (failing input). Rendered cells: application 1 and "Cuphead". The import names
the id "game_x" twice and ends with an entry without `id`: step 1 throws on that entry
and the import comes back as it is, with the id "game_x" twice; without that entry the
result lists the two rendered ids once each. -/
theorem C4_duplicate_id_after_entry_without_id :
    synchronizeImportedOrder (some { cells := [cellApp1, cellCuphead] })
        [Item.toEntry { id := "game_x", title := "X" },
          Item.toEntry { id := "game_x", title := "X" },
          some { id := none, title := some "No id" }]
      = [Item.toEntry { id := "game_x", title := "X" },
          Item.toEntry { id := "game_x", title := "X" },
          some { id := none, title := some "No id" }]
    ∧ ¬ ((synchronizeImportedOrder (some { cells := [cellApp1, cellCuphead] })
        [Item.toEntry { id := "game_x", title := "X" },
          Item.toEntry { id := "game_x", title := "X" },
          some { id := none, title := some "No id" }]).map entryId).Nodup
    ∧ (synchronizeImportedOrder (some { cells := [cellApp1, cellCuphead] })
        [Item.toEntry { id := "game_x", title := "X" },
          Item.toEntry { id := "game_x", title := "X" }]).map entryId
      = [some "1", some "game_owci6a"] := by
  decide

/-- C5 (counterexample). Two rendered cells share the id 1: the list returned holds
one entry, not two. -/
theorem C5_count_fails_on_shared_id :
    (synchronizeImportedOrder (some { cells := [cellApp1, cellApp1Again] }) []).length = 1
    ∧ [cellApp1, cellApp1Again].length = 2 := by
  decide

/-- C5 (amended). For every non-empty rendered set and every imported order of items,
the list returned by `synchronizeImportedOrder` has as many entries as there are
distinct ids among the rendered cells; when the rendered ids are pairwise distinct
that is the number of rendered cells. -/
theorem C5_count (cells : List GameCell) (d : Bool) (items : List Item) (hne : cells ≠ []) :
    (synchronizeImportedOrder (some { cells := cells, inDocument := d })
        (items.map Item.toEntry)).length = (cells.map getGameId).toFinset.card
    ∧ ((cells.map getGameId).Nodup →
        (synchronizeImportedOrder (some { cells := cells, inDocument := d })
          (items.map Item.toEntry)).length = cells.length) := by
  obtain ⟨r, ks, _, hs, hids, hp⟩ := synchronizeImportedOrder_items cells d items hne
  have hlen : (synchronizeImportedOrder (some { cells := cells, inDocument := d })
      (items.map Item.toEntry)).length = (JSMap.keys (currentGameMapOf cells)).length := by
    rw [hs, ← hp.length_eq]
    have := congrArg List.length hids
    simpa using this
  have hset : (JSMap.keys (currentGameMapOf cells)).toFinset = (cells.map getGameId).toFinset := by
    ext k
    simp only [List.mem_toFinset]
    exact mem_currentGameMapOf cells k
  have hcard : (JSMap.keys (currentGameMapOf cells)).length
      = (cells.map getGameId).toFinset.card := by
    rw [← hset, List.toFinset_card_of_nodup (currentGameMapOf_nodup cells)]
  refine ⟨hlen.trans hcard, fun hnd => ?_⟩
  rw [hlen, hcard, List.toFinset_card_of_nodup hnd, List.length_map]

/-- Witness of C5 (amended): the import names five ids, two of them rendered, and two
more cells are rendered: four entries. -/
theorem C5_count_witness :
    (synchronizeImportedOrder (some { cells := [cellApp1, cellCuphead, cellApp2, cellApp3] })
        ([{ id := "game_owci6a", title := "Cuphead" }, { id := "game_a", title := "Gone" },
          { id := "1", title := "A" }, { id := "game_b", title := "Gone too" },
          { id := "game_c", title := "Gone as well" }].map Item.toEntry)).length = 4 :=
  ((C5_count [cellApp1, cellCuphead, cellApp2, cellApp3] true _ (by simp)).2 (by decide)).trans
    (by decide)

/-! ## Reconciliation with the saved order -/

theorem keys_currentGameMapOf (cells : List GameCell) :
    JSMap.keys (currentGameMapOf cells) = renderedIdsOnce cells := by
  rw [currentGameMapOf_eq, foldl_set_keys_eq]
  simp [JSMap.keys, renderedIdsOnce]

theorem mem_currentGameMapOf_pair (cells : List GameCell) (p : String × String)
    (hp : p ∈ currentGameMapOf cells) : ∃ c ∈ cells, p = (getGameId c, getGameTitle c) := by
  rw [currentGameMapOf_eq] at hp
  rcases mem_foldl_set getGameId getGameTitle cells [] p hp with h | h
  · simp at h
  · exact h

theorem keepSaved_items (items : List Item) (m : JSMap String) (rendered seen : List String)
    (hm : ∀ k, k ∈ JSMap.keys m ↔ k ∈ rendered ∧ k ∉ seen) :
    (keepSaved (items.map Item.toEntry) m).1
        = (firstByKey Item.id seen (items.filter fun i => i.id ∈ rendered)).map Item.toEntry
    ∧ (keepSaved (items.map Item.toEntry) m).2.1 = m.filter fun p => p.1 ∉ items.map Item.id := by
  induction items generalizing m seen with
  | nil => simp [keepSaved, firstByKey]
  | cons i rest ih =>
    simp only [List.map_cons, Item.toEntry, keepSaved]
    by_cases h : JSMap.has m i.id = true
    · have hmem := (hm i.id).1 ((JSMap.has_iff m _).1 h)
      have hm2 : ∀ k, k ∈ JSMap.keys (JSMap.delete m i.id)
          ↔ k ∈ rendered ∧ k ∉ seen ++ [i.id] := by
        intro k
        rw [JSMap.mem_keys_delete, hm k]
        simp [and_assoc]
      obtain ⟨e1, e2⟩ := ih (JSMap.delete m i.id) (seen ++ [i.id]) hm2
      rw [if_pos h]
      refine ⟨?_, ?_⟩
      · simp only [e1, List.filter_cons, hmem.1, decide_True, if_true, firstByKey, hmem.2,
          if_false, List.map_cons]
        rfl
      · rw [e2]
        simp only [JSMap.delete, List.filter_filter]
        apply List.filter_congr
        intro p _
        by_cases hp : p.1 = i.id <;> simp [hp]
    · have hmem : i.id ∉ JSMap.keys m := fun hk => h ((JSMap.has_iff m _).2 hk)
      obtain ⟨e1, e2⟩ := ih m seen hm
      rw [if_neg h]
      refine ⟨?_, ?_⟩
      · simp only [e1]
        by_cases hr : i.id ∈ rendered
        · have hs : i.id ∈ seen := by
            by_contra hs
            exact hmem ((hm i.id).2 ⟨hr, hs⟩)
          simp [List.filter_cons, hr, firstByKey, hs]
        · simp [List.filter_cons, hr]
      · rw [e2]
        apply List.filter_congr
        intro p hp
        have : p.1 ≠ i.id := fun e => hmem (e ▸ List.mem_map_of_mem (fun p => p.1) hp)
        simp [this]

theorem keepSaved_perm (items : List Item) (m : JSMap String) (hm : (JSMap.keys m).Nodup) :
    ∃ ks, (keepSaved (items.map Item.toEntry) m).1.map entryId = ks.map some
      ∧ (ks ++ JSMap.keys (keepSaved (items.map Item.toEntry) m).2.1).Perm (JSMap.keys m) := by
  induction items generalizing m with
  | nil => exact ⟨[], rfl, by simp [keepSaved]⟩
  | cons i rest ih =>
    simp only [List.map_cons, Item.toEntry, keepSaved]
    by_cases h : JSMap.has m i.id = true
    · obtain ⟨ks, hk, hp⟩ := ih (JSMap.delete m i.id) (JSMap.nodup_delete m _ hm)
      rw [if_pos h]
      refine ⟨i.id :: ks, by simp [hk, entryId], ?_⟩
      rw [JSMap.keys_delete_erase m _ hm] at hp
      exact (List.Perm.cons _ hp).trans (List.perm_cons_erase ((JSMap.has_iff m _).1 h)).symm
    · obtain ⟨ks, hk, hp⟩ := ih m hm
      rw [if_neg h]
      exact ⟨ks, hk, hp⟩

theorem keepSaved_unchanged (items : List Item) (m : JSMap String)
    (h : (keepSaved (items.map Item.toEntry) m).2.2 = false) :
    (keepSaved (items.map Item.toEntry) m).1 = items.map Item.toEntry := by
  induction items generalizing m with
  | nil => simp [keepSaved]
  | cons i rest ih =>
    simp only [List.map_cons, Item.toEntry, keepSaved] at h ⊢
    by_cases hh : JSMap.has m i.id = true
    · rw [if_pos hh] at h ⊢
      have := ih (JSMap.delete m i.id) h
      simp only [Item.toEntry] at this
      simp [this]
    · rw [if_neg hh] at h
      simp at h

/-- The saved order after `synchronizeGameOrder`, when ordering is enabled and a game is
rendered: the games kept by step 1 followed by the games left in the map. -/
theorem synchronizeGameOrder_savedOrder (s : State) (grid : Grid) (items : List Item)
    (hen : s.isManualOrderEnabled = true) (hg : s.currentGrid = some grid)
    (hne : grid.cells ≠ []) (hs : s.savedOrder = items.map Item.toEntry) :
    (synchronizeGameOrder s).1.savedOrder
      = (keepSaved (items.map Item.toEntry) (currentGameMapOf grid.cells)).1
        ++ remainingEntries (keepSaved (items.map Item.toEntry) (currentGameMapOf grid.cells)).2.1 := by
  have hlen : grid.cells.length ≠ 0 := by simpa using hne
  simp only [synchronizeGameOrder, hg, hen, hlen, hs, Bool.not_true, Bool.false_eq_true, if_false]
  split
  · rfl
  · rename_i hch
    simp only [Bool.or_eq_true, Bool.not_eq_true', not_or, Bool.not_eq_true,
      Bool.not_eq_false, List.isEmpty_iff] at hch
    rw [hs, keepSaved_unchanged items _ hch.1, hch.2]
    simp [remainingEntries]

/-- On a saved order of items the reconciliation is the one of the specification: when
manual ordering is enabled and at least one game is rendered, the saved order after
`synchronizeGameOrder` is: the previously saved items whose id is rendered, each id
once, in saved order, followed by items `added` of rendered cells whose ids are the
rendered ids that were not saved, each once, in render order; the ids of the new saved
order are pairwise distinct and are exactly the ids of the rendered cells. -/
theorem synchronizeGameOrder_reconciled_items (s : State) (grid : Grid) (items : List Item)
    (hen : s.isManualOrderEnabled = true) (hg : s.currentGrid = some grid)
    (hne : grid.cells ≠ []) (hs : s.savedOrder = items.map Item.toEntry) :
    ∃ added : List Item,
      (synchronizeGameOrder s).1.savedOrder
          = (firstByKey Item.id [] (items.filter fun i => i.id ∈ grid.cells.map getGameId)
              ++ added).map Item.toEntry
      ∧ added.map Item.id
          = (renderedIdsOnce grid.cells).filter (fun k => k ∉ items.map Item.id)
      ∧ (∀ a ∈ added, ∃ c ∈ grid.cells, cellItem c = a)
      ∧ ((synchronizeGameOrder s).1.savedOrder.map entryId).Nodup
      ∧ SameIds (synchronizeGameOrder s).1.savedOrder grid.cells := by
  have hso := synchronizeGameOrder_savedOrder s grid items hen hg hne hs
  obtain ⟨e1, e2⟩ := keepSaved_items items (currentGameMapOf grid.cells)
    (grid.cells.map getGameId) [] (by intro k; simp [mem_currentGameMapOf])
  obtain ⟨ks, hk, hp⟩ := keepSaved_perm items (currentGameMapOf grid.cells)
    (currentGameMapOf_nodup grid.cells)
  have hids : (synchronizeGameOrder s).1.savedOrder.map entryId
      = (ks ++ JSMap.keys (keepSaved (items.map Item.toEntry)
          (currentGameMapOf grid.cells)).2.1).map some := by
    rw [hso]
    simp [hk, map_entryId_remainingEntries]
  refine ⟨((currentGameMapOf grid.cells).filter fun p => p.1 ∉ items.map Item.id).map
      fun p => { id := p.1, title := p.2 }, ?_, ?_, ?_, ?_, ?_⟩
  · rw [hso, e1, e2]
    simp [remainingEntries, Item.toEntry, Function.comp_def]
  · rw [← keys_currentGameMapOf]
    simp [JSMap.keys, List.filter_map, Function.comp_def]
  · intro a ha
    obtain ⟨p, hp1, rfl⟩ := List.mem_map.1 ha
    obtain ⟨c, hc, rfl⟩ := mem_currentGameMapOf_pair grid.cells p (List.mem_filter.1 hp1).1
    exact ⟨c, hc, rfl⟩
  · rw [hids]
    exact (hp.nodup_iff.2 (currentGameMapOf_nodup grid.cells)).map (Option.some_injective _)
  · intro k
    rw [hids]
    constructor
    · intro hk
      obtain ⟨x, hx, rfl⟩ := List.mem_map.1 hk
      have := (mem_currentGameMapOf grid.cells x).1 (hp.mem_iff.1 hx)
      obtain ⟨c, hc, rfl⟩ := List.mem_map.1 this
      exact List.mem_map.2 ⟨c, hc, rfl⟩
    · intro hk
      obtain ⟨c, hc, rfl⟩ := List.mem_map.1 hk
      exact List.mem_map_of_mem _
        (hp.mem_iff.2 ((mem_currentGameMapOf grid.cells _).2 (List.mem_map_of_mem _ hc)))

/-- An instance: three rendered cells, a saved order that names one of them twice and a
game that is gone. -/
theorem synchronizeGameOrder_reconciled_items_example :
    ((synchronizeGameOrder
      { isManualOrderEnabled := true
        currentGrid := some { cells := [cellApp1, cellApp2, cellApp3] }
        savedOrder := [Item.toEntry { id := "2", title := "B" },
          Item.toEntry { id := "9", title := "Gone" },
          Item.toEntry { id := "2", title := "B" }] }).1.savedOrder.map entryId).Nodup :=
  (synchronizeGameOrder_reconciled_items
    { isManualOrderEnabled := true
      currentGrid := some { cells := [cellApp1, cellApp2, cellApp3] }
      savedOrder := [Item.toEntry { id := "2", title := "B" },
        Item.toEntry { id := "9", title := "Gone" },
        Item.toEntry { id := "2", title := "B" }] }
    { cells := [cellApp1, cellApp2, cellApp3] }
    [{ id := "2", title := "B" }, { id := "9", title := "Gone" }, { id := "2", title := "B" }]
    rfl rfl (by simp) rfl).elim fun _ h => h.2.2.2.1

/-- C6 (failing input). Manual ordering is enabled, the cell of application 1 is rendered
and the saved order is a `null` followed by the entry of application 1: the run
returns `false` and leaves the state, and so the `null` in the saved order, as it is;
the ids of the saved order are not the rendered ids, and `applyOrder` then throws on
it. With the cell of application 2 rendered as well, the same `null` is dropped. -/
theorem C6_null_entry_stays_in_saved_order :
    synchronizeGameOrder
        { isManualOrderEnabled := true
          currentGrid := some { cells := [cellApp1] }
          savedOrder := [none, Item.toEntry { id := "1", title := "A" }] }
      = ({ isManualOrderEnabled := true
           currentGrid := some { cells := [cellApp1] }
           savedOrder := [none, Item.toEntry { id := "1", title := "A" }] }, some false)
    ∧ ¬ SameIds (synchronizeGameOrder
        { isManualOrderEnabled := true
          currentGrid := some { cells := [cellApp1] }
          savedOrder := [none, Item.toEntry { id := "1", title := "A" }] }).1.savedOrder
        [cellApp1]
    ∧ applyOrderThrows (synchronizeGameOrder
        { isManualOrderEnabled := true
          currentGrid := some { cells := [cellApp1] }
          savedOrder := [none, Item.toEntry { id := "1", title := "A" }] }).1 = true
    ∧ (synchronizeGameOrder
        { isManualOrderEnabled := true
          currentGrid := some { cells := [cellApp1, cellApp2] }
          savedOrder := [none, Item.toEntry { id := "1", title := "A" }] }).1.savedOrder
      = [Item.toEntry { id := "1", title := "A" }, Item.toEntry { id := "2", title := "B" }] := by
  refine ⟨by decide, ?_, by decide, by decide⟩
  intro h
  have := (h none).1 (by decide)
  simp at this

/-! ## Facts on `applyOrder` -/

theorem JSMap.get_eq_none {V : Type} (m : JSMap V) (k : String) :
    JSMap.get m k = none ↔ k ∉ JSMap.keys m := by
  simp only [JSMap.get, JSMap.keys, Option.map_eq_none', List.find?_eq_none, List.mem_map,
    not_exists, not_and]
  constructor
  · intro h p hp e
    exact h p hp (by simp [e])
  · intro h p hp e
    exact h p hp (by simpa using e)

theorem JSMap.get_delete {V : Type} (m : JSMap V) (k x : String) :
    JSMap.get (JSMap.delete m k) x = if x = k then none else JSMap.get m x := by
  unfold JSMap.get JSMap.delete
  rw [List.find?_filter]
  by_cases hx : x = k
  · subst hx
    rw [if_pos rfl]
    have : List.find? (fun a : String × V => decide ((a.1 != x) = true ∧ (a.1 == x) = true)) m
        = none := by
      rw [List.find?_eq_none]
      intro a _
      simp
    rw [this]
    rfl
  · rw [if_neg hx]
    have : (fun a : String × V => decide ((a.1 != k) = true ∧ (a.1 == x) = true))
        = fun a => a.1 == x := by
      funext a
      by_cases ha : a.1 = x
      · simp [ha, hx]
      · simp [ha]
    rw [this]

theorem JSMap.perm_delete {V : Type} (m : JSMap V) (k : String) (v : V)
    (hm : (JSMap.keys m).Nodup) (hv : JSMap.get m k = some v) :
    (m.map fun p => p.2).Perm (v :: (JSMap.delete m k).map fun p => p.2) := by
  induction m with
  | nil => simp [JSMap.get] at hv
  | cons p m ih =>
    have hm2 : (JSMap.keys m).Nodup := (List.nodup_cons.1 hm).2
    have hp : p.1 ∉ JSMap.keys m := (List.nodup_cons.1 hm).1
    by_cases hpk : p.1 = k
    · have hv2 : p.2 = v := by simpa [JSMap.get, List.find?_cons, hpk] using hv
      have hdel : JSMap.delete (p :: m) k = m := by
        simp only [JSMap.delete, List.filter_cons, hpk, bne_self_eq_false, Bool.false_eq_true,
          if_false]
        rw [List.filter_eq_self]
        intro q hq
        have : q.1 ≠ k := fun e => hp (hpk ▸ e ▸ List.mem_map_of_mem (fun p => p.1) hq)
        simpa using this
      rw [hdel, List.map_cons, hv2]
    · have hv2 : JSMap.get m k = some v := by
        simpa [JSMap.get, List.find?_cons, hpk] using hv
      have hdel : JSMap.delete (p :: m) k = p :: JSMap.delete m k := by
        simp [JSMap.delete, List.filter_cons, hpk]
      rw [hdel, List.map_cons, List.map_cons]
      exact ((ih hm2 hv2).cons p.2).trans (List.Perm.swap _ _ _)

theorem gameMapOf_nodup (cells : List GameCell) : (JSMap.keys (gameMapOf cells)).Nodup :=
  (foldl_set_keys (fun p : Nat × GameCell => getGameId p.2) (fun p => p) cells.enum []
    (by simp [JSMap.keys])).1

theorem mem_gameMapOf (cells : List GameCell) (p : String × Nat × GameCell)
    (hp : p ∈ gameMapOf cells) : p.2 ∈ cells.enum ∧ getGameId p.2.2 = p.1 := by
  rcases mem_foldl_set (fun p : Nat × GameCell => getGameId p.2) (fun p => p) cells.enum [] p hp
    with h | ⟨a, ha, rfl⟩
  · simp at h
  · exact ⟨ha, rfl⟩

theorem gameMapOf_values_nodup (cells : List GameCell) :
    ((gameMapOf cells).map fun p => p.2).Nodup := by
  apply List.Nodup.of_map (fun q : Nat × GameCell => getGameId q.2)
  have : ((gameMapOf cells).map fun p => p.2).map (fun q : Nat × GameCell => getGameId q.2)
      = JSMap.keys (gameMapOf cells) := by
    rw [List.map_map]
    apply List.map_congr_left
    intro p hp
    exact (mem_gameMapOf cells p hp).2
  rw [this]
  exact gameMapOf_nodup cells

theorem moveSaved_no_throw (d : Bool) (games : List Game) (m : JSMap (Nat × GameCell)) :
    (moveSaved d (games.map some) m).2.2 = false := by
  induction games generalizing m with
  | nil => rfl
  | cons g rest ih =>
    simp only [List.map_cons, moveSaved]
    split
    · exact ih m
    · split
      · exact ih m
      · split
        · exact ih _
        · exact ih m

theorem moveSaved_detached (l : List Entry) (m : JSMap (Nat × GameCell)) :
    (moveSaved false l m).1 = [] := by
  induction l generalizing m with
  | nil => rfl
  | cons e rest ih =>
    cases e with
    | none => rfl
    | some g =>
      simp only [moveSaved]
      split
      · exact ih m
      · split
        · exact ih m
        · simp [ih m]

theorem moveSaved_perm (games : List Game) (m : JSMap (Nat × GameCell))
    (hm : (JSMap.keys m).Nodup) :
    ((moveSaved true (games.map some) m).1
        ++ (moveSaved true (games.map some) m).2.1.map fun p => p.2).Perm
      (m.map fun p => p.2) := by
  induction games generalizing m with
  | nil => simp [moveSaved]
  | cons g rest ih =>
    simp only [List.map_cons, moveSaved]
    split
    · exact ih m hm
    · rename_i id hid
      split
      · exact ih m hm
      · rename_i el hel
        simp only [if_true, List.cons_append]
        exact ((ih (JSMap.delete m id) (JSMap.nodup_delete m id hm)).cons el).trans
          (JSMap.perm_delete m id el hm hel).symm

theorem enum_index_inj (cells : List GameCell) (p q : Nat × GameCell)
    (hp : p ∈ cells.enum) (hq : q ∈ cells.enum) (h : p.1 = q.1) : p = q :=
  List.inj_on_of_nodup_map (List.nodup_enum_map_fst cells) hp hq h

theorem enum_nodup (cells : List GameCell) : cells.enum.Nodup :=
  List.Nodup.of_map Prod.fst (List.nodup_enum_map_fst cells)

theorem detach_perm (cells : List GameCell) (fragment : List (Nat × GameCell))
    (hn : fragment.Nodup) (hs : ∀ p ∈ fragment, p ∈ cells.enum) :
    (detach fragment cells ++ fragment.map fun p => p.2).Perm cells := by
  have h1 : (cells.enum.filter fun p => p.1 ∉ fragment.map fun q => q.1)
      = cells.enum.filter fun p => !decide (p ∈ fragment) := by
    apply List.filter_congr
    intro p hp
    have : p.1 ∈ fragment.map (fun q => q.1) ↔ p ∈ fragment := by
      constructor
      · intro h
        obtain ⟨q, hq, e⟩ := List.mem_map.1 h
        have := enum_index_inj cells q p (hs q hq) hp e
        exact this ▸ hq
      · intro h
        exact List.mem_map_of_mem _ h
    simp [this]
  have h2 : fragment.Perm (cells.enum.filter fun p => decide (p ∈ fragment)) := by
    rw [List.perm_ext_iff_of_nodup hn ((enum_nodup cells).filter _)]
    intro p
    simp only [List.mem_filter, decide_eq_true_eq]
    exact ⟨fun h => ⟨hs p h, h⟩, fun h => h.2⟩
  unfold detach
  rw [h1, ← List.map_append]
  have h3 : ((cells.enum.filter fun p => !decide (p ∈ fragment)) ++ fragment).Perm cells.enum :=
    ((List.Perm.append_left _ h2).trans List.perm_append_comm).trans
      (List.filter_append_perm _ _)
  have := h3.map fun p => p.2
  rwa [List.enum_map_snd] at this

theorem detach_nil (cells : List GameCell) : detach [] cells = cells := by
  simp [detach, List.enum_map_snd]

/-- The body of `applyOrder` rearranges the cells: nothing is created or lost. -/
theorem reorderedCells_perm (grid : Grid) (games : List Game) :
    (reorderedCells grid (games.map some)).Perm grid.cells := by
  unfold reorderedCells
  simp only [moveSaved_no_throw, Bool.false_eq_true, if_false]
  cases hd : grid.inDocument with
  | false =>
    simp [moveSaved_detached, detach_nil]
  | true =>
    simp only [if_true]
    have hp := moveSaved_perm games (gameMapOf grid.cells) (gameMapOf_nodup grid.cells)
    apply detach_perm
    · exact hp.nodup_iff.2 (gameMapOf_values_nodup grid.cells)
    · intro p hp1
      have := hp.mem_iff.1 hp1
      obtain ⟨q, hq, rfl⟩ := List.mem_map.1 this
      exact (mem_gameMapOf grid.cells q hq).1

/-- On a saved order of objects `applyOrder` neither creates nor loses a cell: for every
state (cells may share an id) whose saved order is a list of objects (ids may repeat,
be unknown or be absent), the cells of the grid after `applyOrder` are a permutation
of the cells before. -/
theorem applyOrder_permutes_objects (s : State) (games : List Game) (hs : s.savedOrder = games.map some) :
    (getAllGames (applyOrder s)).Perm (getAllGames s) := by
  unfold applyOrder
  cases hg : s.currentGrid with
  | none => simp [getAllGames, hg]
  | some grid =>
    simp only
    split
    · simp [getAllGames, hg]
    · simp only [getAllGames, hg, hs]
      exact reorderedCells_perm grid games

/-- An instance: three cells, two sharing the id 1; the saved order repeats an id and
names an unknown one. -/
theorem applyOrder_permutes_objects_example :
    (getAllGames (applyOrder
      { isManualOrderEnabled := true
        currentGrid := some { cells := [cellApp2, cellApp1, cellApp1Again] }
        savedOrder := [some { id := some "1", title := some "A" },
          some { id := some "9", title := some "Gone" },
          some { id := some "1", title := some "A" }] })).Perm
      [cellApp2, cellApp1, cellApp1Again] :=
  applyOrder_permutes_objects _
    [{ id := some "1", title := some "A" }, { id := some "9", title := some "Gone" },
      { id := some "1", title := some "A" }] rfl

/-- C9 (failing input). The cells of applications 1, 2 and 3 are rendered and the saved
order is the entry of application 3, a `null` and the entry of application 1: the cell
of application 3 is moved to the fragment, reading `id` of the `null` throws, and the
fragment is never appended. Two cells are left in the grid, which is no permutation of
the three cells before. -/
theorem C9_cell_lost_on_null_entry :
    getAllGames (applyOrder
        { isManualOrderEnabled := true
          currentGrid := some { cells := [cellApp1, cellApp2, cellApp3] }
          savedOrder := [Item.toEntry { id := "3", title := "C" }, none,
            Item.toEntry { id := "1", title := "A" }] })
      = [cellApp1, cellApp2]
    ∧ applyOrderThrows
        { isManualOrderEnabled := true
          currentGrid := some { cells := [cellApp1, cellApp2, cellApp3] }
          savedOrder := [Item.toEntry { id := "3", title := "C" }, none,
            Item.toEntry { id := "1", title := "A" }] } = true
    ∧ ¬ (getAllGames (applyOrder
        { isManualOrderEnabled := true
          currentGrid := some { cells := [cellApp1, cellApp2, cellApp3] }
          savedOrder := [Item.toEntry { id := "3", title := "C" }, none,
            Item.toEntry { id := "1", title := "A" }] })).Perm
        [cellApp1, cellApp2, cellApp3] := by
  refine ⟨by decide, by decide, ?_⟩
  intro h
  have hlen := h.length_eq
  revert hlen
  decide

/-! ## The arrangement made by `applyOrder` -/

theorem firstByKey_subset {α : Type} (key : α → String) (l : List α) (seen : List String)
    (a : α) (h : a ∈ firstByKey key seen l) : a ∈ l := by
  induction l generalizing seen with
  | nil => simp [firstByKey] at h
  | cons b l ih =>
    simp only [firstByKey] at h
    split at h
    · exact List.mem_cons_of_mem _ (ih seen h)
    · rcases List.mem_cons.1 h with h | h
      · exact h ▸ List.mem_cons_self _ _
      · exact List.mem_cons_of_mem _ (ih _ h)

theorem moveSaved_closed (games : List Game) (m : JSMap (Nat × GameCell)) (seen : List String)
    (lookup : String → Option (Nat × GameCell))
    (hm : ∀ k, JSMap.get m k = if k ∈ seen then none else lookup k) :
    (moveSaved true (games.map some) m).1
        = (firstByKey (fun k => k) seen (games.filterMap fun g => g.id)).filterMap lookup
    ∧ (moveSaved true (games.map some) m).2.1
        = m.filter fun p => p.1 ∉ games.filterMap fun g => g.id := by
  induction games generalizing m seen with
  | nil => simp [moveSaved, firstByKey]
  | cons g rest ih =>
    simp only [List.map_cons, moveSaved]
    cases hid : g.id with
    | none =>
      simp only [List.filterMap_cons, hid]
      exact ih m seen hm
    | some id =>
      simp only [List.filterMap_cons, hid]
      cases hget : JSMap.get m id with
      | none =>
        have hnot : id ∉ JSMap.keys m := (JSMap.get_eq_none m id).1 hget
        have hf : (m.filter fun p => p.1 ∉ rest.filterMap fun g => g.id)
            = m.filter fun p => p.1 ∉ id :: rest.filterMap fun g => g.id := by
          apply List.filter_congr
          intro p hp
          have : p.1 ≠ id := fun e => hnot (e ▸ List.mem_map_of_mem (fun p => p.1) hp)
          simp [this]
        by_cases hs : id ∈ seen
        · obtain ⟨e1, e2⟩ := ih m seen hm
          refine ⟨?_, ?_⟩
          · simp only [firstByKey, hs, if_true]
            exact e1
          · rw [← hf]
            exact e2
        · have hl : lookup id = none := by
            have := hm id
            rw [if_neg hs, hget] at this
            exact this.symm
          have hm2 : ∀ k, JSMap.get m k = if k ∈ seen ++ [id] then none else lookup k := by
            intro k
            by_cases hk : k = id
            · subst hk
              simp [hget]
            · rw [hm k]
              simp [hk]
          obtain ⟨e1, e2⟩ := ih m (seen ++ [id]) hm2
          refine ⟨?_, ?_⟩
          · simp only [firstByKey, hs, if_false, List.filterMap_cons, hl]
            exact e1
          · rw [← hf]
            exact e2
      | some el =>
        have hs : id ∉ seen := by
          intro hs
          have := hm id
          rw [if_pos hs, hget] at this
          cases this
        have hl : lookup id = some el := by
          have := hm id
          rw [if_neg hs, hget] at this
          exact this.symm
        have hm2 : ∀ k, JSMap.get (JSMap.delete m id) k
            = if k ∈ seen ++ [id] then none else lookup k := by
          intro k
          rw [JSMap.get_delete]
          by_cases hk : k = id
          · simp [hk]
          · rw [if_neg hk, hm k]
            simp [hk]
        obtain ⟨e1, e2⟩ := ih (JSMap.delete m id) (seen ++ [id]) hm2
        refine ⟨?_, ?_⟩
        · simp only [if_true, firstByKey, hs, if_false, List.filterMap_cons, hl]
          rw [e1]
        · simp only [if_true]
          rw [e2]
          simp only [JSMap.delete, List.filter_filter]
          apply List.filter_congr
          intro p _
          by_cases hp : p.1 = id <;> simp [hp]

theorem gameMapOf_of_nodup (cells : List GameCell) (hd : (cells.map getGameId).Nodup) :
    gameMapOf cells = cells.enum.map fun p => (getGameId p.2, p) := by
  have h := foldl_set_nodup (fun p : Nat × GameCell => getGameId p.2) (fun p => p) cells.enum []
    (by
      have : cells.enum.map (fun p : Nat × GameCell => getGameId p.2) = cells.map getGameId := by
        conv_rhs => rw [← List.enum_map_snd cells]
        rw [List.map_map]
        rfl
      simpa [JSMap.keys, this] using hd)
  simpa [gameMapOf] using h

theorem get_gameMap_enum (cells : List GameCell) (k : String) :
    (JSMap.get (cells.enum.map fun p => (getGameId p.2, p)) k).map (fun q => q.2)
      = cellWithId cells k := by
  unfold JSMap.get cellWithId
  conv_rhs => rw [← List.enum_map_snd cells]
  rw [List.find?_map, List.find?_map]
  simp [Function.comp_def]

/-- With the grid in the document and pairwise distinct ids, the body of `applyOrder`
produces the arrangement of the specification. -/
theorem reorderedCells_expected (grid : Grid) (games : List Game)
    (hdoc : grid.inDocument = true) (hd : (grid.cells.map getGameId).Nodup) :
    reorderedCells grid (games.map some)
      = expectedArrangement grid.cells (games.filterMap fun g => g.id) := by
  have hp := moveSaved_perm games (gameMapOf grid.cells) (gameMapOf_nodup grid.cells)
  obtain ⟨e1, e2⟩ := moveSaved_closed games (gameMapOf grid.cells) []
    (fun k => JSMap.get (gameMapOf grid.cells) k) (by intro k; simp)
  have hm0 := gameMapOf_of_nodup grid.cells hd
  have hvals : ((gameMapOf grid.cells).map fun p => p.2) = grid.cells.enum := by
    rw [hm0, List.map_map]
    simp [Function.comp_def]
  have hdet : detach ((moveSaved true (games.map some) (gameMapOf grid.cells)).1
      ++ (moveSaved true (games.map some) (gameMapOf grid.cells)).2.1.map fun p => p.2)
      grid.cells = [] := by
    unfold detach
    rw [List.map_eq_nil_iff, List.filter_eq_nil_iff]
    intro p hpm
    have : p ∈ (moveSaved true (games.map some) (gameMapOf grid.cells)).1
        ++ (moveSaved true (games.map some) (gameMapOf grid.cells)).2.1.map fun p => p.2 := by
      rw [hp.mem_iff, hvals]
      exact hpm
    have hmem := List.mem_map_of_mem (fun q => q.1) this
    intro hcontra
    exact (of_decide_eq_true hcontra) hmem
  unfold reorderedCells
  simp only [moveSaved_no_throw, Bool.false_eq_true, if_false, hdoc, if_true]
  rw [hdet, List.nil_append, List.map_append, e1, e2]
  unfold expectedArrangement
  congr 1
  · rw [List.map_filterMap]
    apply List.filterMap_congr
    intro k _
    rw [hm0]
    simpa [Option.map] using get_gameMap_enum grid.cells k
  · rw [hm0, List.map_map, List.filter_map, List.map_map]
    conv_rhs => rw [← List.enum_map_snd grid.cells]
    rw [List.filter_map]
    rfl

theorem find?_perm (l1 l2 : List GameCell) (k : String) (hp : l1.Perm l2)
    (hd : (l1.map getGameId).Nodup) : cellWithId l1 k = cellWithId l2 k := by
  unfold cellWithId
  cases h1 : l1.find? fun c => getGameId c == k with
  | none =>
    rw [List.find?_eq_none] at h1
    symm
    rw [List.find?_eq_none]
    intro x hx
    exact h1 x (hp.mem_iff.2 hx)
  | some c =>
    have hc1 : c ∈ l1 := List.mem_of_find?_eq_some h1
    have hc2 : getGameId c = k := by simpa using List.find?_some h1
    cases h2 : l2.find? fun c => getGameId c == k with
    | none =>
      rw [List.find?_eq_none] at h2
      exact absurd (by simp [hc2]) (h2 c (hp.mem_iff.1 hc1))
    | some c2 =>
      have hc3 : c2 ∈ l1 := hp.mem_iff.2 (List.mem_of_find?_eq_some h2)
      have hc4 : getGameId c2 = k := by simpa using List.find?_some h2
      rw [List.inj_on_of_nodup_map hd hc1 hc3 (hc2.trans hc4.symm)]

theorem expectedArrangement_idem (cells : List GameCell) (ids : List String)
    (hd : (cells.map getGameId).Nodup)
    (hp : (expectedArrangement cells ids).Perm cells) :
    expectedArrangement (expectedArrangement cells ids) ids = expectedArrangement cells ids := by
  have hd2 : ((expectedArrangement cells ids).map getGameId).Nodup :=
    (hp.map getGameId).nodup_iff.2 hd
  have ha : (firstByKey (fun k => k) [] ids).filterMap (cellWithId (expectedArrangement cells ids))
      = (firstByKey (fun k => k) [] ids).filterMap (cellWithId cells) := by
    apply List.filterMap_congr
    intro k _
    exact find?_perm _ _ k hp hd2
  have hb : ((expectedArrangement cells ids).filter fun c => getGameId c ∉ ids)
      = cells.filter fun c => getGameId c ∉ ids := by
    unfold expectedArrangement
    rw [List.filter_append, List.filter_filter]
    have : (((firstByKey (fun k => k) [] ids).filterMap (cellWithId cells)).filter
        fun c => getGameId c ∉ ids) = [] := by
      rw [List.filter_eq_nil_iff]
      intro c hc
      obtain ⟨k, hk, hkc⟩ := List.mem_filterMap.1 hc
      have hk2 : k ∈ ids := firstByKey_subset _ _ _ _ hk
      have : getGameId c = k := by simpa using List.find?_some hkc
      simp [this, hk2]
    rw [this, List.nil_append]
    apply List.filter_congr
    intro c _
    simp
  have hu : expectedArrangement (expectedArrangement cells ids) ids
      = (firstByKey (fun k => k) [] ids).filterMap (cellWithId (expectedArrangement cells ids))
        ++ (expectedArrangement cells ids).filter fun c => getGameId c ∉ ids := rfl
  rw [hu, ha, hb]
  rfl

/-- Applying the same order to the cells that the body of `applyOrder` left moves
nothing, when the ids of the cells are pairwise distinct. -/
theorem reorderedCells_idem (grid : Grid) (games : List Game)
    (hd : (grid.cells.map getGameId).Nodup) :
    reorderedCells { grid with cells := reorderedCells grid (games.map some) } (games.map some)
      = reorderedCells grid (games.map some) := by
  by_cases hdoc : grid.inDocument = true
  · have hperm := reorderedCells_perm grid games
    have e1 := reorderedCells_expected grid games hdoc hd
    have hd2 : ((reorderedCells grid (games.map some)).map getGameId).Nodup :=
      (hperm.map getGameId).nodup_iff.2 hd
    rw [reorderedCells_expected { grid with cells := reorderedCells grid (games.map some) } games
      hdoc hd2]
    simp only
    rw [e1]
    rw [e1] at hperm
    exact expectedArrangement_idem grid.cells _ hd hperm
  · have hdoc2 : grid.inDocument = false := by simpa using hdoc
    have h : ∀ g : Grid, g.inDocument = false → reorderedCells g (games.map some) = g.cells := by
      intro g hg
      unfold reorderedCells
      simp [moveSaved_no_throw, hg, moveSaved_detached, detach_nil]
    rw [h _ hdoc2, h _ hdoc2]

/-! ## Claims on `applyOrder` and on the three copies of the hash -/

theorem applyOrder_run (s : State) (grid : Grid) (hg : s.currentGrid = some grid)
    (hgd : ¬ (s.savedOrder.length = 0 ∨ s.isManualOrderEnabled = false
      ∨ s.isApplyingOrder = true)) :
    (applyOrder s).currentGrid = some { grid with cells := reorderedCells grid s.savedOrder }
    ∧ (applyOrder s).savedOrder = s.savedOrder
    ∧ (applyOrder s).isManualOrderEnabled = s.isManualOrderEnabled := by
  unfold applyOrder
  simp only [hg]
  rw [if_neg hgd]
  exact ⟨rfl, rfl, rfl⟩

theorem getAllGames_applyOrder (s : State) (grid : Grid) (hg : s.currentGrid = some grid)
    (hgd : ¬ (s.savedOrder.length = 0 ∨ s.isManualOrderEnabled = false
      ∨ s.isApplyingOrder = true)) :
    getAllGames (applyOrder s) = reorderedCells grid s.savedOrder := by
  simp only [getAllGames, (applyOrder_run s grid hg hgd).1]

/-- C7 (counterexample). Cells of applications 2, 1, 1 (the last two share the id 1) and
a saved order that names none of them: the first `applyOrder` leaves the cells in
the sequence 1, 2, 1 (copy); the second one, made after the busy flag is cleared,
leaves 1, 1 (copy), 2. -/
theorem C7_second_apply_moves_shared_id :
    getAllGames (applyOrder
        { isManualOrderEnabled := true
          currentGrid := some { cells := [cellApp2, cellApp1, cellApp1Again] }
          savedOrder := [some { id := some "9", title := some "Gone" }] })
      = [cellApp1, cellApp2, cellApp1Again]
    ∧ getAllGames (applyOrder (applyOrderTimeout (applyOrder
        { isManualOrderEnabled := true
          currentGrid := some { cells := [cellApp2, cellApp1, cellApp1Again] }
          savedOrder := [some { id := some "9", title := some "Gone" }] })))
      = [cellApp1, cellApp1Again, cellApp2] := by
  decide

/-- C7 (amended). For every state whose rendered cells have pairwise distinct ids, whose
saved order is a list of objects and in which no apply is in progress: a second
`applyOrder`, made once the busy flag of the first has been cleared, leaves the cells
arranged as the first one left them. -/
theorem C7_apply_idempotent (s : State) (games : List Game)
    (hs : s.savedOrder = games.map some) (hbusy : s.isApplyingOrder = false)
    (hd : ((getAllGames s).map getGameId).Nodup) :
    getAllGames (applyOrder (applyOrderTimeout (applyOrder s))) = getAllGames (applyOrder s) := by
  cases hg : s.currentGrid with
  | none =>
    have h1 : applyOrder s = s := by simp [applyOrder, hg]
    have h2 : applyOrderTimeout s = s := by
      cases s
      simp_all [applyOrderTimeout]
    rw [h1, h2, h1]
  | some grid =>
    by_cases hgd : s.savedOrder.length = 0 ∨ s.isManualOrderEnabled = false
        ∨ s.isApplyingOrder = true
    · have h1 : applyOrder s = s := by simp only [applyOrder, hg, if_pos hgd]
      have h2 : applyOrderTimeout s = s := by
        cases s
        simp_all [applyOrderTimeout]
      rw [h1, h2, h1]
    · have hd2 : (grid.cells.map getGameId).Nodup := by simpa [getAllGames, hg] using hd
      obtain ⟨r1, r2, r3⟩ := applyOrder_run s grid hg hgd
      have hg2 : (applyOrderTimeout (applyOrder s)).currentGrid
          = some { grid with cells := reorderedCells grid s.savedOrder } := r1
      have hgd2 : ¬ ((applyOrderTimeout (applyOrder s)).savedOrder.length = 0
          ∨ (applyOrderTimeout (applyOrder s)).isManualOrderEnabled = false
          ∨ (applyOrderTimeout (applyOrder s)).isApplyingOrder = true) := by
        have e1 : (applyOrderTimeout (applyOrder s)).savedOrder = s.savedOrder := r2
        have e2 : (applyOrderTimeout (applyOrder s)).isManualOrderEnabled
            = s.isManualOrderEnabled := r3
        have e3 : (applyOrderTimeout (applyOrder s)).isApplyingOrder = false := rfl
        rw [e1, e2, e3]
        intro h
        rcases h with h | h | h
        · exact hgd (Or.inl h)
        · exact hgd (Or.inr (Or.inl h))
        · cases h
      have hs2 : (applyOrderTimeout (applyOrder s)).savedOrder = s.savedOrder := r2
      rw [getAllGames_applyOrder s grid hg hgd,
        getAllGames_applyOrder _ _ hg2 hgd2, hs2, hs]
      exact reorderedCells_idem grid games hd2

/-- Witness of C7 (amended): four cells with distinct ids, a saved order that names two
of them. -/
theorem C7_apply_idempotent_witness :
    getAllGames (applyOrder (applyOrderTimeout (applyOrder
        { isManualOrderEnabled := true
          currentGrid := some { cells := [cellApp1, cellApp2, cellApp3, cellApp4] }
          savedOrder := [some { id := some "3", title := some "C" },
            some { id := some "1", title := some "A" }] })))
      = getAllGames (applyOrder
        { isManualOrderEnabled := true
          currentGrid := some { cells := [cellApp1, cellApp2, cellApp3, cellApp4] }
          savedOrder := [some { id := some "3", title := some "C" },
            some { id := some "1", title := some "A" }] }) :=
  C7_apply_idempotent _
    [{ id := some "3", title := some "C" }, { id := some "1", title := some "A" }]
    rfl rfl (by decide)

/-- C8 (counterexample). With manual ordering disabled `applyOrder` returns at once:
cells 1, 2 with the saved order 2, 1 stay 1, 2, where the claim puts 2 before 1. -/
theorem C8_no_arrangement_when_disabled :
    getAllGames (applyOrder
        { isManualOrderEnabled := false
          currentGrid := some { cells := [cellApp1, cellApp2] }
          savedOrder := [some { id := some "2", title := some "B" },
            some { id := some "1", title := some "A" }] })
      = [cellApp1, cellApp2]
    ∧ expectedArrangement [cellApp1, cellApp2] ["2", "1"] = [cellApp2, cellApp1] := by
  decide

/-- C8 (amended). When manual ordering is enabled, no apply is in progress and the grid
is attached to the document, then for every rendered set with pairwise distinct ids
and every non-empty saved order of objects, after `applyOrder` the cells are: the
cells whose id occurs in the saved order, in saved-order sequence (first occurrence of
each id), followed by the cells whose id is not in the saved order, in their previous
relative order. -/
theorem C8_apply_arrangement (s : State) (grid : Grid) (games : List Game)
    (hg : s.currentGrid = some grid) (hen : s.isManualOrderEnabled = true)
    (hbusy : s.isApplyingOrder = false) (hdoc : grid.inDocument = true)
    (hs : s.savedOrder = games.map some) (hne : games ≠ [])
    (hd : (grid.cells.map getGameId).Nodup) :
    getAllGames (applyOrder s)
      = expectedArrangement grid.cells (games.filterMap fun g => g.id) := by
  have hgd : ¬ (s.savedOrder.length = 0 ∨ s.isManualOrderEnabled = false
      ∨ s.isApplyingOrder = true) := by
    simp [hs, hen, hbusy, hne]
  rw [getAllGames_applyOrder s grid hg hgd, hs]
  exact reorderedCells_expected grid games hdoc hd

/-- Witness of C8 (amended): cells 1, 2, 3, 4 and the saved order 3, 9, 1, 3 give the
cells 3, 1, 2, 4. -/
theorem C8_apply_arrangement_witness :
    getAllGames (applyOrder
        { isManualOrderEnabled := true
          currentGrid := some { cells := [cellApp1, cellApp2, cellApp3, cellApp4] }
          savedOrder := [some { id := some "3", title := some "C" },
            some { id := some "9", title := some "Gone" },
            some { id := some "1", title := some "A" },
            some { id := some "3", title := some "C" }] })
      = [cellApp3, cellApp1, cellApp2, cellApp4] :=
  (C8_apply_arrangement _ { cells := [cellApp1, cellApp2, cellApp3, cellApp4] }
    [{ id := some "3", title := some "C" }, { id := some "9", title := some "Gone" },
      { id := some "1", title := some "A" }, { id := some "3", title := some "C" }]
    rfl rfl rfl rfl rfl (by simp) (by decide)).trans (by decide)

/-- C10. For every title and every legacy id, `convertOldIdToNew` returns
`generateCompatibleGameId title false`, which is the id that `getGameId` gives to a
rendered cell with that title and no application link; the third copy of the hash, in
the `catch` of the old-format branch, gives the same id. -/
theorem C10_hash_copies_agree (legacyId title : String) (cell : GameCell)
    (hlink : appIdOfLink cell = none) (htitle : getGameTitle cell = title) :
    convertOldIdToNew legacyId title = generateCompatibleGameId title false
    ∧ generateCompatibleGameId title false = getGameId cell
    ∧ (btoa title = none →
        generateCompatibleGameId title true = generateCompatibleGameId title false) := by
  refine ⟨rfl, ?_, ?_⟩
  · simp only [getGameId, hlink, htitle, generateCompatibleGameId, Bool.false_eq_true, if_false]
    rfl
  · intro hb
    simp only [generateCompatibleGameId, hb, if_true, Bool.false_eq_true, if_false]

/-- Witness of C10: the title "Cuphead" and a cell without a link titled "Cuphead". -/
theorem C10_hash_copies_agree_witness :
    convertOldIdToNew "Q3VwaGVhZA" "Cuphead" = generateCompatibleGameId "Cuphead" false
    ∧ generateCompatibleGameId "Cuphead" false = getGameId cellCuphead :=
  ⟨(C10_hash_copies_agree "Q3VwaGVhZA" "Cuphead" cellCuphead rfl rfl).1,
    (C10_hash_copies_agree "Q3VwaGVhZA" "Cuphead" cellCuphead rfl rfl).2.1⟩

/-! ## Claims on legacy ids in the saved order and on the title hash -/

/-- C11 (failing input). Rendered cells: application 1, then a cell titled "Cuphead"
with the fallback id `game_owci6a`; saved order: the old-format entry of "Cuphead",
then application 1. `synchronizeGameOrder` drops the old-format entry and appends the
cell at the end under its new id, and `applyOrder` run on the saved order as it was
leaves the "Cuphead" cell last. -/
theorem C11_legacy_entry_dropped :
    isOldFormatId "Q3VwaGVhZA" = true
    ∧ convertOldIdToNew "Q3VwaGVhZA" "Cuphead" = getGameId cellCuphead
    ∧ (synchronizeGameOrder
        { isManualOrderEnabled := true
          currentGrid := some { cells := [cellApp1, cellCuphead] }
          savedOrder := [some legacyCuphead, some { id := some "1", title := some "A" }] }).1.savedOrder
      = [some { id := some "1", title := some "A" },
          some { id := some "game_owci6a", title := some "Cuphead" }]
    ∧ getAllGames (applyOrder
        { isManualOrderEnabled := true
          currentGrid := some { cells := [cellApp1, cellCuphead] }
          savedOrder := [some legacyCuphead, some { id := some "1", title := some "A" }] })
      = [cellApp1, cellCuphead] := by
  decide

theorem toInt32_modEq (x : Int) : toInt32 x ≡ x [ZMOD 4294967296] := by
  unfold toInt32
  split
  · have h : x % 4294967296 ≡ x [ZMOD 4294967296] := Int.mod_modEq x 4294967296
    have h2 : x % 4294967296 - 4294967296 ≡ x % 4294967296 [ZMOD 4294967296] := by
      unfold Int.ModEq
      omega
    exact h2.trans h
  · exact Int.mod_modEq x 4294967296

theorem toInt32_congr (x y : Int) (h : x ≡ y [ZMOD 4294967296]) : toInt32 x = toInt32 y := by
  unfold Int.ModEq at h
  unfold toInt32
  rw [h]

theorem toInt32_range (x : Int) : -2147483648 ≤ toInt32 x ∧ toInt32 x < 2147483648 := by
  unfold toInt32
  split <;> omega

theorem hashStep_eq (hash : Int) (char : Nat) :
    hashStep hash char = toInt32 (hash * 31 + (char : Int)) := by
  unfold hashStep
  apply toInt32_congr
  have h1 : toInt32 (toInt32 hash * 32) ≡ hash * 32 [ZMOD 4294967296] :=
    (toInt32_modEq _).trans ((toInt32_modEq hash).mul_right 32)
  have h2 : toInt32 (toInt32 hash * 32) - hash + (char : Int)
      ≡ hash * 32 - hash + (char : Int) [ZMOD 4294967296] :=
    (h1.sub_right hash).add_right _
  have h3 : hash * 32 - hash + (char : Int) = hash * 31 + (char : Int) := by ring
  rw [h3] at h2
  exact h2

theorem foldl_hashStep_eq (codes : List Nat) (hash : Int) :
    codes.foldl hashStep hash
      = codes.foldl (fun (hash : Int) (charCode : Nat) => toInt32 (hash * 31 + (charCode : Int))) hash := by
  induction codes generalizing hash with
  | nil => rfl
  | cons c rest ih => simp only [List.foldl_cons, hashStep_eq, ih]

theorem rollingHash_range (codes : List Nat) :
    -2147483648 ≤ rollingHash codes ∧ rollingHash codes < 2147483648 := by
  unfold rollingHash
  induction codes using List.reverseRecOn with
  | nil => simp
  | append_singleton l c _ =>
    rw [List.foldl_append]
    exact toInt32_range _

/-- C12. For every title, given as its UTF-16 code units, the number that the loop
`hash = ((hash << 5) - hash) + char; hash = hash & hash` reaches from 0 (in `getGameId`
and in both branches of `generateCompatibleGameId`) is the rolling hash
`hash * 31 + charCode` wrapped to a signed 32-bit integer after each character; it lies
in [-2^31, 2^31) and is a function of the code units alone. -/
theorem C12_title_hash (codes : List Nat) :
    codes.foldl hashStep 0 = rollingHash codes
    ∧ codes.foldl
        (fun (hash : Int) (char : Nat) => toInt32 ((toInt32 (toInt32 hash * 32) - hash) + (char : Int)))
        0 = rollingHash codes
    ∧ -2147483648 ≤ codes.foldl hashStep 0
    ∧ codes.foldl hashStep 0 < 2147483648 := by
  have h := foldl_hashStep_eq codes 0
  have r := rollingHash_range codes
  exact ⟨h, h, h ▸ r.1, h ▸ r.2⟩

/-! ## Claims on the fallback id, the preferred id and the title -/

theorem digitValue36_digit36 (d : Nat) (h : d < 36) : digitValue36 (digit36 d) = d := by
  interval_cases d <;> decide

theorem foldl_digits36 (l : List Char) (a : Nat) :
    l.foldl (fun n c => n * 36 + digitValue36 c) a
      = a * 36 ^ l.length + l.foldl (fun n c => n * 36 + digitValue36 c) 0 := by
  induction l generalizing a with
  | nil => simp
  | cons c rest ih =>
    rw [List.foldl_cons, List.foldl_cons, ih, ih (0 * 36 + digitValue36 c), List.length_cons]
    ring

theorem fromDigits36_cons (c : Char) (l : List Char) :
    fromDigits36 (c :: l) = digitValue36 c * 36 ^ l.length + fromDigits36 l := by
  unfold fromDigits36
  rw [List.foldl_cons, foldl_digits36]
  simp

theorem fromDigits36_toDigits36 (fuel n : Nat) (acc : List Char) (h : n < fuel) :
    fromDigits36 (toDigits36 fuel n acc) = n * 36 ^ acc.length + fromDigits36 acc := by
  induction fuel generalizing n acc with
  | zero => omega
  | succ fuel ih =>
    unfold toDigits36
    split
    · rename_i hn
      rw [fromDigits36_cons, digitValue36_digit36 n hn]
    · rename_i hn
      have hlt : n / 36 < fuel := by omega
      rw [ih (n / 36) _ hlt, fromDigits36_cons, digitValue36_digit36 (n % 36) (by omega),
        List.length_cons, pow_succ]
      have hdiv : n = 36 * (n / 36) + n % 36 := (Nat.div_add_mod n 36).symm
      generalize 36 ^ acc.length = p at *
      generalize fromDigits36 acc = q at *
      calc n / 36 * (p * 36) + (n % 36 * p + q)
          = (36 * (n / 36) + n % 36) * p + q := by ring
        _ = n * p + q := by rw [← hdiv]

/-- The text written by `toString36` denotes the number in base 36. -/
theorem fromDigits36_toString36 (n : Nat) : fromDigits36 (toString36 n).data = n := by
  unfold toString36
  rw [fromDigits36_toDigits36 (n + 1) n [] (by omega)]
  simp [fromDigits36]

theorem getGameId_fallback (cell : GameCell) (h : appIdOfLink cell = none) :
    getGameId cell = expectedFallbackId "game_" (getGameTitle cell) := by
  simp only [getGameId, h, expectedFallbackId, rollingHash, foldl_hashStep_eq]

/-- C13 (counterexample). For the cell titled "Cuphead", without a link, the fallback id
is `game_owci6a`: it does not start with "item_". -/
theorem C13_fallback_prefix_is_not_item :
    getGameId cellCuphead = "game_owci6a"
    ∧ expectedFallbackId "item_" (getGameTitle cellCuphead) = "item_owci6a" := by
  decide

/-- C13 (amended). For every cell without an application link, the id returned by
`getGameId` is the string "game_" followed by the base-36 rendering of the absolute
value of the rolling hash of the title, cut to at most 16 characters; the base-36
text denotes that absolute value. -/
theorem C13_fallback_id (cell : GameCell) (hlink : appIdOfLink cell = none) :
    getGameId cell = expectedFallbackId "game_" (getGameTitle cell)
    ∧ (getGameId cell).data.length ≤ 16
    ∧ fromDigits36 (toString36 (rollingHash (charCodes (getGameTitle cell))).natAbs).data
        = (rollingHash (charCodes (getGameTitle cell))).natAbs := by
  refine ⟨getGameId_fallback cell hlink, ?_, fromDigits36_toString36 _⟩
  rw [getGameId_fallback cell hlink]
  simp [expectedFallbackId, substring0]

/-- Witness of C13 (amended): the cell titled "Cuphead". -/
theorem C13_fallback_id_witness :
    getGameId cellCuphead = expectedFallbackId "game_" (getGameTitle cellCuphead) :=
  (C13_fallback_id cellCuphead rfl).1

theorem appPrefix_data : "app/".data = ['a', 'p', 'p', '/'] := rfl

theorem appOccurrence_nil_iff (l : List Char) :
    IsAppOccurrence l []
      ↔ ("app/".data.isPrefixOf l && !((l.drop 4).takeWhile isDigit).isEmpty) = true := by
  constructor
  · rintro ⟨d, suffix, hd, rfl⟩
    simp [appPrefix_data, List.isPrefixOf, List.takeWhile, hd]
  · intro h
    simp only [Bool.and_eq_true, Bool.not_eq_true', List.isEmpty_eq_false] at h
    obtain ⟨h1, h2⟩ := h
    rw [List.isPrefixOf_iff_prefix] at h1
    obtain ⟨t, rfl⟩ := h1
    have hdrop : (("app/".data ++ t).drop 4) = t := by simp [appPrefix_data]
    rw [hdrop] at h2
    cases t with
    | nil => simp at h2
    | cons d suffix =>
      refine ⟨d, suffix, ?_, by simp⟩
      by_contra hd
      simp [List.takeWhile, hd] at h2

theorem takeWhile_digits (digits rest : List Char) (hall : ∀ c ∈ digits, isDigit c = true)
    (hrest : ∀ c ∈ rest.head?, isDigit c = false) :
    (digits ++ rest).takeWhile isDigit = digits := by
  induction digits with
  | nil =>
    cases rest with
    | nil => rfl
    | cons c rest => simp [List.takeWhile, hrest c (by simp)]
  | cons d digits ih =>
    have h := ih (fun c hc => hall c (List.mem_cons_of_mem _ hc))
    show (d :: (digits ++ rest)).takeWhile isDigit = d :: digits
    rw [List.takeWhile_cons, hall d (List.mem_cons_self _ _), if_pos rfl, h]

theorem appOccurrence_cons (c : Char) (t pre : List Char) :
    IsAppOccurrence (c :: t) (c :: pre) ↔ IsAppOccurrence t pre := by
  constructor
  · rintro ⟨d, suffix, hd, he⟩
    exact ⟨d, suffix, hd,
      (List.cons.inj (he : c :: t = c :: (pre ++ "app/".data ++ d :: suffix))).2⟩
  · rintro ⟨d, suffix, hd, he⟩
    exact ⟨d, suffix, hd, by rw [he]; rfl⟩

theorem matchAppId_first (l pre digits rest : List Char) (h : IsFirstAppMatch l pre digits rest) :
    matchAppId l = some digits := by
  induction pre generalizing l with
  | nil =>
    obtain ⟨hl, hne, hall, hrest, _⟩ := h
    have hocc : IsAppOccurrence l [] := by
      cases digits with
      | nil => exact absurd rfl hne
      | cons d ds =>
        exact ⟨d, ds ++ rest, hall d (List.mem_cons_self _ _), by rw [hl]; simp⟩
    have hcond := (appOccurrence_nil_iff l).1 hocc
    have hdrop : l.drop 4 = digits ++ rest := by
      rw [hl]
      simp [appPrefix_data]
    cases l with
    | nil => simp [appPrefix_data] at hl
    | cons c t =>
      unfold matchAppId
      rw [if_pos hcond, hdrop, takeWhile_digits digits rest hall hrest]
  | cons c pre ih =>
    obtain ⟨hl, hne, hall, hrest, hmin⟩ := h
    cases l with
    | nil => exact absurd hl (by simp)
    | cons c2 t =>
      have hl2 := List.cons.inj
        (hl : c2 :: t = c :: (pre ++ "app/".data ++ digits ++ rest))
      obtain ⟨hc, ht⟩ := hl2
      subst hc
      have hnot : ¬ IsAppOccurrence (c2 :: t) [] := by
        intro hocc
        have := hmin [] hocc
        simp at this
      unfold matchAppId
      rw [if_neg (fun hc => hnot ((appOccurrence_nil_iff (c2 :: t)).2 hc))]
      apply ih
      refine ⟨ht, hne, hall, hrest, ?_⟩
      intro pre2 hocc
      have := hmin (c2 :: pre2) ((appOccurrence_cons c2 t pre2).2 hocc)
      simpa using this

theorem matchAppId_none (l : List Char) (h : ∀ pre, ¬ IsAppOccurrence l pre) :
    matchAppId l = none := by
  induction l with
  | nil => rfl
  | cons c t ih =>
    unfold matchAppId
    rw [if_neg (fun hc => h [] ((appOccurrence_nil_iff (c :: t)).2 hc))]
    apply ih
    intro pre hocc
    exact h (c :: pre) ((appOccurrence_cons c t pre).2 hocc)

theorem matchAppId_some (l digits : List Char) (h : matchAppId l = some digits) :
    ∃ pre rest, IsFirstAppMatch l pre digits rest := by
  induction l with
  | nil => simp [matchAppId] at h
  | cons c t ih =>
    unfold matchAppId at h
    split at h
    · rename_i hc
      have hocc := (appOccurrence_nil_iff (c :: t)).2 hc
      injection h with h
      simp only [Bool.and_eq_true, Bool.not_eq_true', List.isEmpty_eq_false] at hc
      obtain ⟨h1, h2⟩ := hc
      rw [List.isPrefixOf_iff_prefix] at h1
      obtain ⟨u, hu⟩ := h1
      have hdrop : (c :: t).drop 4 = u := by rw [← hu]; simp [appPrefix_data]
      rw [hdrop] at h h2
      refine ⟨[], u.dropWhile isDigit, ?_, ?_, ?_, ?_, ?_⟩
      · rw [← hu, ← h]
        simp [List.append_assoc, List.takeWhile_append_dropWhile]
      · rw [← h]; exact h2
      · intro x hx
        rw [← h] at hx
        exact (List.mem_takeWhile_imp hx)
      · intro x hx
        cases hdw : u.dropWhile isDigit with
        | nil => simp [hdw] at hx
        | cons y ys =>
          have hy : y = x := by simpa [hdw] using hx
          have := List.head_dropWhile_not isDigit u (by simp [hdw])
          simp only [hdw, List.head_cons] at this
          simpa [hy] using this
      · intro pre2 _
        simp
    · rename_i hc
      obtain ⟨pre, rest, hl, hne, hall, hrest, hmin⟩ := ih h
      refine ⟨c :: pre, rest, by rw [hl]; rfl, hne, hall, hrest, ?_⟩
      intro pre2 hocc
      cases pre2 with
      | nil => exact absurd ((appOccurrence_nil_iff (c :: t)).1 hocc) hc
      | cons c2 pre2 =>
        obtain ⟨d, suffix, hd, he⟩ := hocc
        have he2 := List.cons.inj
          (he : c :: t = c2 :: (pre2 ++ "app/".data ++ d :: suffix))
        have := hmin pre2 ⟨d, suffix, hd, he2.2⟩
        simpa using this

theorem matchAppId_of_occurrence (l pre : List Char) (h : IsAppOccurrence l pre) :
    ∃ digits, matchAppId l = some digits := by
  induction pre generalizing l with
  | nil =>
    have hcond := (appOccurrence_nil_iff l).1 h
    obtain ⟨d, suffix, _, he⟩ := h
    cases l with
    | nil => exact absurd he (by simp [appPrefix_data])
    | cons c t =>
      unfold matchAppId
      rw [if_pos hcond]
      exact ⟨_, rfl⟩
  | cons c pre ih =>
    obtain ⟨d, suffix, hd, he⟩ := h
    cases l with
    | nil => exact absurd he (by simp)
    | cons c2 t =>
      have he2 := List.cons.inj (he : c2 :: t = c :: (pre ++ "app/".data ++ d :: suffix))
      unfold matchAppId
      split
      · exact ⟨_, rfl⟩
      · exact ih t ⟨d, suffix, hd, he2.2⟩

theorem digits_ne_fallback (digits : List Char) (hne : digits ≠ [])
    (hall : ∀ c ∈ digits, isDigit c = true) (title : String) :
    String.mk digits ≠ expectedFallbackId "game_" title := by
  intro h
  have hdata := congrArg String.data h
  cases digits with
  | nil => exact hne rfl
  | cons d ds =>
    have hd := hall d (List.mem_cons_self _ _)
    simp only [expectedFallbackId, substring0, String.data_append] at hdata
    simp only [List.cons_append, List.take_succ_cons, List.cons.injEq] at hdata
    rw [hdata.1] at hd
    exact absurd hd (by decide)

/-- C14. For every cell: if its link has an `href` in which "app/" is followed by a
decimal digit, then `getGameId` returns the maximal run of digits after the first such
occurrence, whatever the title is, and that is not the fallback id; and if the cell has
no link, or an `href` without such an occurrence, `getGameId` returns the fallback id
of the title. -/
theorem C14_preferred_id (cell : GameCell) :
    (∀ link pre, cell.link = some link → IsAppOccurrence (link.href.getD "").data pre →
      ∃ pre1 digits rest, IsFirstAppMatch (link.href.getD "").data pre1 digits rest
        ∧ getGameId cell = String.mk digits
        ∧ getGameId cell ≠ expectedFallbackId "game_" (getGameTitle cell))
    ∧ (∀ link pre digits rest, cell.link = some link →
        IsFirstAppMatch (link.href.getD "").data pre digits rest →
        getGameId cell = String.mk digits)
    ∧ ((cell.link = none
          ∨ ∃ link, cell.link = some link ∧ ∀ pre, ¬ IsAppOccurrence (link.href.getD "").data pre) →
        getGameId cell = expectedFallbackId "game_" (getGameTitle cell)) := by
  have hfirst : ∀ link pre digits rest, cell.link = some link →
      IsFirstAppMatch (link.href.getD "").data pre digits rest →
      getGameId cell = String.mk digits := by
    intro link pre digits rest hl hm
    have := matchAppId_first _ pre digits rest hm
    simp [getGameId, appIdOfLink, hl, this]
  refine ⟨?_, hfirst, ?_⟩
  · intro link pre hl hocc
    obtain ⟨digits, hd⟩ := matchAppId_of_occurrence _ pre hocc
    obtain ⟨pre1, rest, hm⟩ := matchAppId_some _ digits hd
    have hid := hfirst link pre1 digits rest hl hm
    exact ⟨pre1, digits, rest, hm, hid, hid ▸ digits_ne_fallback digits hm.2.1 hm.2.2.1 _⟩
  · intro h
    apply getGameId_fallback
    rcases h with h | ⟨link, hl, hno⟩
    · simp [appIdOfLink, h]
    · simp [appIdOfLink, hl, matchAppId_none _ hno]

/-- Witness of C14: the cell that links to `/library/app/1`. -/
theorem C14_preferred_id_witness :
    ∃ pre1 digits rest, IsFirstAppMatch "/library/app/1".data pre1 digits rest
      ∧ getGameId cellApp1 = String.mk digits
      ∧ getGameId cellApp1 ≠ expectedFallbackId "game_" (getGameTitle cellApp1) :=
  (C14_preferred_id cellApp1).1 { href := some "/library/app/1", textContent := "A" }
    "/library/".data rfl ⟨'1', [], by decide, rfl⟩

/-- C15 (counterexample). A cell without image and link gets the title "Unknown Game",
not "Unknown"; and the text of a link is returned without the white space around
it. -/
theorem C15_title_literal_and_trim :
    getGameTitle { link := none, imgAlt := none } = "Unknown Game"
    ∧ specTitle (fun link => link.textContent) "Unknown" { link := none, imgAlt := none }
        = "Unknown"
    ∧ getGameTitle { link := some { href := none, textContent := " A " }, imgAlt := none } = "A"
    ∧ specTitle (fun link => link.textContent) "Unknown"
        { link := some { href := none, textContent := " A " }, imgAlt := none } = " A " := by
  decide

/-- C15 (amended). For every cell, `getGameTitle` returns the image alt text when the
cell has an image with non-empty alt; otherwise the text content of the link with the
white space around it removed, when that is non-empty; otherwise the literal
"Unknown Game". The result is never the empty string. -/
theorem C15_title_resolution (cell : GameCell) :
    getGameTitle cell = specTitle (fun link => jsTrim link.textContent) "Unknown Game" cell
    ∧ getGameTitle cell ≠ "" := by
  refine ⟨?_, getGameTitle_ne_empty cell⟩
  unfold getGameTitle specTitle
  cases hi : cell.imgAlt with
  | none =>
    cases hl : cell.link with
    | none => simp
    | some link =>
      by_cases ht : jsTrim link.textContent = "" <;> simp [ht]
  | some alt =>
    by_cases ha : alt = ""
    · cases hl : cell.link with
      | none => simp [ha]
      | some link =>
        by_cases ht : jsTrim link.textContent = "" <;> simp [ha, ht]
    · simp [ha]

/-! ## Claims on malformed imports and on the busy flag -/

/-- C16 (failing input). Rendered cells: application 1 and "Cuphead". An imported entry
without `id` makes step 1 throw, and the import comes back unchanged, where the import
without that entry is reconciled; an imported entry without `title` whose id is
rendered is kept, not skipped. -/
theorem C16_entry_without_id_is_fatal :
    synchronizeImportedOrder (some { cells := [cellApp1, cellCuphead] })
        [Item.toEntry { id := "game_owci6a", title := "Cuphead" },
          some { id := none, title := some "No id" }]
      = [Item.toEntry { id := "game_owci6a", title := "Cuphead" },
          some { id := none, title := some "No id" }]
    ∧ synchronizeImportedOrder (some { cells := [cellApp1, cellCuphead] })
        [Item.toEntry { id := "game_owci6a", title := "Cuphead" }]
      = [Item.toEntry { id := "game_owci6a", title := "Cuphead" },
          Item.toEntry { id := "1", title := "A" }]
    ∧ synchronizeImportedOrder (some { cells := [cellApp1, cellCuphead] })
        [some { id := some "game_owci6a", title := none }]
      = [some { id := some "game_owci6a", title := none },
          Item.toEntry { id := "1", title := "A" }]
    ∧ synchronizeImportedOrder (some { cells := [cellApp1, cellCuphead] }) []
      = [Item.toEntry { id := "1", title := "A" },
          Item.toEntry { id := "game_owci6a", title := "Cuphead" }] := by
  decide

/-- C17. If the imported document is not valid JSON, has no `order`, or has an `order`
that is not an array, `handleImportFile` changes nothing but the notifications, to
which it adds the error message: the saved order, the persisted order, the grid and
every flag are as they were. -/
theorem C17_malformed_import_is_atomic (s : State) (document : ImportedDocument)
    (hbad : ∀ importedOrder, document ≠ ImportedDocument.order importedOrder) :
    handleImportFile s (some document)
      = { s with notifications := s.notifications ++ ["❌ Error importing file"] } := by
  cases document with
  | order importedOrder => exact absurd rfl (hbad importedOrder)
  | invalidJson => rfl
  | orderMissing => rfl
  | orderNotArray => rfl

/-- Witness of C17: a document whose `order` is not an array. -/
theorem C17_malformed_import_is_atomic_witness :
    (handleImportFile
      { isManualOrderEnabled := true
        currentGrid := some { cells := [cellApp1, cellApp2] }
        savedOrder := [Item.toEntry { id := "2", title := "B" }]
        storedOrder := some [Item.toEntry { id := "2", title := "B" }] }
      (some ImportedDocument.orderNotArray)).savedOrder
      = [Item.toEntry { id := "2", title := "B" }] :=
  congrArg State.savedOrder
    (C17_malformed_import_is_atomic _ ImportedDocument.orderNotArray (by intro o h; cases h))

/-- C18. While the busy flag `isApplyingOrder` is set, `applyOrder` and
`applyOrderWithSync` leave the whole state as it is: no cell is moved, the saved order
and the persisted order are unchanged and no notification is added. -/
theorem C18_busy_flag_makes_apply_a_no_op (s : State) (hbusy : s.isApplyingOrder = true) :
    applyOrder s = s ∧ applyOrderWithSync s = (s, none) := by
  constructor
  · unfold applyOrder
    cases s.currentGrid with
    | none => rfl
    | some grid => simp [hbusy]
  · unfold applyOrderWithSync
    cases s.currentGrid with
    | none => rfl
    | some grid => simp [hbusy]

/-- Witness of C18: a busy state whose saved order differs from the arrangement. -/
theorem C18_busy_flag_makes_apply_a_no_op_witness :
    getAllGames (applyOrder
      { isManualOrderEnabled := true
        isApplyingOrder := true
        currentGrid := some { cells := [cellApp1, cellApp2] }
        savedOrder := [Item.toEntry { id := "2", title := "B" }] })
      = [cellApp1, cellApp2] :=
  congrArg getAllGames
    (C18_busy_flag_makes_apply_a_no_op
      { isManualOrderEnabled := true
        isApplyingOrder := true
        currentGrid := some { cells := [cellApp1, cellApp2] }
        savedOrder := [Item.toEntry { id := "2", title := "B" }] } rfl).1

/-! ## Claims on the observer of the grid -/

theorem classifyMutations_eq (s : State) (batch : List MutationRecord) (flags : Bool × Bool) :
    classifyMutations s batch flags
      = (flags.1 || batch.any (fun r => !recordMovesMoreThan 3 r && recordMovesMoreThan 0 r),
          flags.2 || batch.any (fun r =>
            recordMovesMoreThan 3 r || (r.isChildList && detectSignificantChanges s))) := by
  induction batch generalizing flags with
  | nil => simp [classifyMutations]
  | cons r rest ih =>
    unfold classifyMutations
    cases hc : r.isChildList with
    | false =>
      simp only [Bool.false_eq_true, if_false]
      rw [ih]
      simp [recordMovesMoreThan, hc]
    | true =>
      simp only [if_true]
      rw [ih]
      by_cases h3 : (gameNodes r.addedNodes).length > 3 ∨ (gameNodes r.removedNodes).length > 3
      · have h3b : recordMovesMoreThan 3 r = true := by
          simpa [recordMovesMoreThan, hc] using h3
        cases hd : detectSignificantChanges s <;>
          simp [h3, h3b, hd, hc, List.any_cons]
      · have h3b : recordMovesMoreThan 3 r = false := by
          simpa [recordMovesMoreThan, hc] using h3
        by_cases h0 : (gameNodes r.addedNodes).length > 0 ∨ (gameNodes r.removedNodes).length > 0
        · have h0b : recordMovesMoreThan 0 r = true := by
            simpa [recordMovesMoreThan, hc] using h0
          cases hd : detectSignificantChanges s <;>
            simp [h3, h3b, h0, h0b, hd, hc, List.any_cons, Bool.or_assoc]
        · have h0b : recordMovesMoreThan 0 r = false := by
            simpa [recordMovesMoreThan, hc] using h0
          cases hd : detectSignificantChanges s <;>
            simp [h3, h3b, h0, h0b, hd, hc, List.any_cons]

/-- C19 (counterexample). Five rendered cells, five saved entries, and a batch of five
records that add one game cell each: the batch adds five game cells, and the observer
schedules the reconciliation after 300 ms. -/
theorem C19_five_single_additions_are_minor :
    batchAdded [addsOneGame, addsOneGame, addsOneGame, addsOneGame, addsOneGame] = 5
    ∧ (gridObserverCallback
        { isManualOrderEnabled := true
          currentGrid := some { cells := [cellApp1, cellApp2, cellApp3, cellApp4, cellCuphead] }
          savedOrder := [some {}, some {}, some {}, some {}, some {}] }
        [addsOneGame, addsOneGame, addsOneGame, addsOneGame, addsOneGame]).gridRenderTimeout
      = some 300 := by
  decide

/-- C19 (amended). For every batch delivered to the observer while ordering is enabled,
the modal is closed and no apply is in progress: the reconciliation is scheduled after
800 ms iff some record of the batch adds more than 3 or removes more than 3 game
cells, or the batch holds a `childList` record and the rendered count and the saved
count differ by more than 1; otherwise it is scheduled after 300 ms iff some record
adds or removes at least one game cell; otherwise nothing is scheduled. -/
theorem C19_mutation_classification (s : State) (grid : Grid) (batch : List MutationRecord)
    (hen : s.isManualOrderEnabled = true) (hmodal : s.modalOpen = false)
    (hbusy : s.isApplyingOrder = false) (hg : s.currentGrid = some grid) :
    (gridObserverCallback s batch).gridRenderTimeout
      = if batch.any (fun r => recordMovesMoreThan 3 r
            || (r.isChildList && decide
              (((grid.cells.length : Int) - (s.savedOrder.length : Int)).natAbs > 1))) then
          some 800
        else if batch.any (recordMovesMoreThan 0) then some 300
        else none := by
  have hd : detectSignificantChanges s
      = decide (((grid.cells.length : Int) - (s.savedOrder.length : Int)).natAbs > 1) := by
    simp [detectSignificantChanges, hg]
  have hguard : ¬ (s.isManualOrderEnabled = false ∨ s.modalOpen = true
      ∨ s.isApplyingOrder = true) := by simp [hen, hmodal, hbusy]
  unfold gridObserverCallback
  rw [if_neg hguard, classifyMutations_eq, ← hd]
  simp only [Bool.false_or]
  by_cases hsig : batch.any (fun r =>
      recordMovesMoreThan 3 r || (r.isChildList && detectSignificantChanges s)) = true
  · simp [hsig]
  · have hsig2 : batch.any (fun r =>
        recordMovesMoreThan 3 r || (r.isChildList && detectSignificantChanges s)) = false := by
      simpa using hsig
    have hminor : batch.any (fun r => !recordMovesMoreThan 3 r && recordMovesMoreThan 0 r)
        = batch.any (recordMovesMoreThan 0) := by
      rw [Bool.eq_iff_iff]
      simp only [List.any_eq_true, Bool.and_eq_true, Bool.not_eq_true']
      constructor
      · rintro ⟨r, hr, _, h0⟩
        exact ⟨r, hr, h0⟩
      · rintro ⟨r, hr, h0⟩
        refine ⟨r, hr, ?_, h0⟩
        have := List.any_eq_false.1 hsig2 r hr
        simp only [Bool.or_eq_true, not_or] at this
        simpa using this.1
    rw [hsig2, hminor]
    by_cases hm : batch.any (recordMovesMoreThan 0) = true
    · simp [hm]
    · have hm2 : batch.any (recordMovesMoreThan 0) = false := by simpa using hm
      simp [hm2]

/-- Witness of C19 (amended): one record that adds five game cells is scheduled after
800 ms. -/
theorem C19_mutation_classification_witness :
    (gridObserverCallback
      { isManualOrderEnabled := true
        currentGrid := some { cells := [cellApp1, cellApp2, cellApp3, cellApp4, cellCuphead] }
        savedOrder := [some {}, some {}, some {}, some {}, some {}] }
      [{ addedNodes := [gameNode, gameNode, gameNode, gameNode, gameNode],
         removedNodes := [] }]).gridRenderTimeout = some 800 :=
  (C19_mutation_classification _
    { cells := [cellApp1, cellApp2, cellApp3, cellApp4, cellCuphead] } _ rfl rfl rfl rfl).trans
    (by decide)

/-- C20 (failing input). A reconciliation is pending (300 ms), one cell is rendered and
one entry is saved. A batch that adds a text node, and so no game cell, cancels the
pending timer and schedules nothing; a batch that adds a game cell restarts it. -/
theorem C20_pending_timer_cancelled :
    batchAdded [addsOneText] = 0 ∧ batchRemoved [addsOneText] = 0
    ∧ (gridObserverCallback
        { isManualOrderEnabled := true
          currentGrid := some { cells := [cellApp1] }
          savedOrder := [Item.toEntry { id := "1", title := "A" }]
          gridRenderTimeout := some 300 }
        [addsOneText]).gridRenderTimeout = none
    ∧ (gridObserverCallback
        { isManualOrderEnabled := true
          currentGrid := some { cells := [cellApp1] }
          savedOrder := [Item.toEntry { id := "1", title := "A" }]
          gridRenderTimeout := some 300 }
        [addsOneGame]).gridRenderTimeout = some 300 := by
  decide

/-! ## Claims on suppression, on the reported counts and on id formats -/

/-- C21. A batch of mutation records that reaches the observer callback while manual
ordering is disabled, while the reorder modal is open or while an apply is in progress
leaves the whole state as it is: the pending timer is neither cancelled nor replaced
and the saved order is unchanged. -/
theorem C21_suppressed_batch (s : State) (batch : List MutationRecord)
    (hsuppressed : s.isManualOrderEnabled = false ∨ s.modalOpen = true ∨ s.isApplyingOrder = true) :
    gridObserverCallback s batch = s := by
  unfold gridObserverCallback
  rw [if_pos hsuppressed]

/-- Witness of C21: a batch of five added game cells while the modal is open, with a
timer pending. -/
theorem C21_suppressed_batch_witness :
    (gridObserverCallback
      { isManualOrderEnabled := true
        modalOpen := true
        currentGrid := some { cells := [cellApp1] }
        savedOrder := [Item.toEntry { id := "1", title := "A" }]
        gridRenderTimeout := some 300 }
      [{ addedNodes := [gameNode, gameNode, gameNode, gameNode, gameNode],
         removedNodes := [] }]).gridRenderTimeout = some 300 :=
  congrArg State.gridRenderTimeout
    (C21_suppressed_batch
      { isManualOrderEnabled := true
        modalOpen := true
        currentGrid := some { cells := [cellApp1] }
        savedOrder := [Item.toEntry { id := "1", title := "A" }]
        gridRenderTimeout := some 300 }
      [{ addedNodes := [gameNode, gameNode, gameNode, gameNode, gameNode],
         removedNodes := [] }] (Or.inr (Or.inl rfl)))

/-- C26 (failing input). The cell that links to application 1 has the id "1", which
`isOldFormatId` takes for an old-format id; the import reconciliation then looks the
imported entry up under the title hash "game_1t", finds no such cell, and returns the
rendered cells in render order instead of the imported order. -/
theorem C26_application_id_taken_for_old :
    getGameId cellApp1 = "1" ∧ isOldFormatId (getGameId cellApp1) = true
    ∧ resolveImportedId { id := some (getGameId cellApp1), title := some "A" } = some "game_1t"
    ∧ (synchronizeImportedOrder (some { cells := [cellApp2, cellApp1] })
        [(cellItem cellApp1).toEntry, (cellItem cellApp2).toEntry]).map entryId
      = [some "2", some "1"] := by
  decide

/-- C29 (failing input). Two cells are rendered and the saved order holds one entry whose
game is not rendered: two games are appended and one entry is dropped, and the
notification reports two removed games. When one of two saved entries is dropped and
nothing is appended, no notification is shown at all. -/
theorem C29_removed_count_is_added_count :
    newGamesCount [cellApp1, cellApp2] [Item.toEntry { id := "9", title := "Z" }] = 2
    ∧ removedGamesCount [cellApp1, cellApp2] [Item.toEntry { id := "9", title := "Z" }] = 1
    ∧ (synchronizeGameOrder
        { isManualOrderEnabled := true
          currentGrid := some { cells := [cellApp1, cellApp2] }
          savedOrder := [Item.toEntry { id := "9", title := "Z" }] }).1.notifications
      = ["🔄 Order synchronized: +2 new games -2 removed games"]
    ∧ removedGamesCount [cellApp1]
        [Item.toEntry { id := "1", title := "A" }, Item.toEntry { id := "9", title := "Z" }] = 1
    ∧ synchronizeGameOrder
        { isManualOrderEnabled := true
          currentGrid := some { cells := [cellApp1] }
          savedOrder :=
            [Item.toEntry { id := "1", title := "A" }, Item.toEntry { id := "9", title := "Z" }] }
      = ({ isManualOrderEnabled := true
           currentGrid := some { cells := [cellApp1] }
           savedOrder := [Item.toEntry { id := "1", title := "A" }]
           storedOrder := some [Item.toEntry { id := "1", title := "A" }]
           notifications := [] }, some true) := by
  decide

theorem applyOrder_notifications (s : State) (grid : Grid) (hg : s.currentGrid = some grid)
    (hgd : ¬ (s.savedOrder.length = 0 ∨ s.isManualOrderEnabled = false
      ∨ s.isApplyingOrder = true)) :
    (applyOrder s).notifications
      = if (moveSaved grid.inDocument s.savedOrder (gameMapOf grid.cells)).2.2 = true
          ∨ s.modalOpen = true then s.notifications
        else s.notifications ++ ["🔄 "
          ++ toString (moveSaved grid.inDocument s.savedOrder (gameMapOf grid.cells)).1.length
          ++ " games reordered"] := by
  unfold applyOrder
  simp only [hg]
  rw [if_neg hgd]

theorem length_filterMap_isSome {α β : Type} (f : α → Option β) (l : List α) :
    (l.filterMap f).length = (l.filter fun a => (f a).isSome).length := by
  induction l with
  | nil => rfl
  | cons a l ih =>
    cases h : f a with
    | none => simp [List.filterMap_cons, List.filter_cons, h, ih]
    | some b => simp [List.filterMap_cons, List.filter_cons, h, ih]

theorem keys_gameMapOf (cells : List GameCell) (k : String) :
    k ∈ JSMap.keys (gameMapOf cells) ↔ k ∈ cells.map getGameId := by
  have h := (foldl_set_keys (fun p : Nat × GameCell => getGameId p.2) (fun p => p) cells.enum []
    List.nodup_nil).2 k
  have hmap : cells.enum.map (fun p : Nat × GameCell => getGameId p.2) = cells.map getGameId := by
    conv_rhs => rw [← List.enum_map_snd cells]
    rw [List.map_map]
    rfl
  unfold gameMapOf
  rw [h, hmap]
  simp [JSMap.keys]

/-- The cells that the loop of `applyOrder` moves to the fragment: one for each id of the
saved order that is rendered. -/
theorem moveSaved_count (cells : List GameCell) (games : List Game) :
    (moveSaved true (games.map some) (gameMapOf cells)).1.length
      = ((firstByKey (fun k => k) [] (games.filterMap fun g => g.id)).filter
          fun k => k ∈ cells.map getGameId).length := by
  obtain ⟨e1, _⟩ := moveSaved_closed games (gameMapOf cells) []
    (fun k => JSMap.get (gameMapOf cells) k) (by intro k; simp)
  rw [e1, length_filterMap_isSome]
  congr 1
  apply List.filter_congr
  intro k _
  have h1 := JSMap.get_eq_none (gameMapOf cells) k
  have h2 := keys_gameMapOf cells k
  by_cases hk : k ∈ cells.map getGameId
  · have hne : JSMap.get (gameMapOf cells) k ≠ none := fun h => (h1.1 h) (h2.2 hk)
    simp [hk, Option.isSome_iff_ne_none, hne]
  · have hnone : JSMap.get (gameMapOf cells) k = none := h1.2 (fun h => hk (h2.1 h))
    simp [hk, hnone]

/-- C23 (counterexample). The cells of applications 1 and 2 are already arranged in the
saved order 1, 2: `applyOrder` leaves each cell at its position and reports two
reordered games. -/
theorem C23_count_of_arranged_grid :
    getAllGames (applyOrder
      { isManualOrderEnabled := true
        currentGrid := some { cells := [cellApp1, cellApp2] }
        savedOrder := [Item.toEntry { id := "1", title := "A" },
          Item.toEntry { id := "2", title := "B" }] }) = [cellApp1, cellApp2]
    ∧ repositionedCount [cellApp1, cellApp2] (getAllGames (applyOrder
      { isManualOrderEnabled := true
        currentGrid := some { cells := [cellApp1, cellApp2] }
        savedOrder := [Item.toEntry { id := "1", title := "A" },
          Item.toEntry { id := "2", title := "B" }] })) = 0
    ∧ (applyOrder
      { isManualOrderEnabled := true
        currentGrid := some { cells := [cellApp1, cellApp2] }
        savedOrder := [Item.toEntry { id := "1", title := "A" },
          Item.toEntry { id := "2", title := "B" }] }).notifications
      = ["🔄 2 games reordered"] := by
  decide

/-- C23 (amended). When manual ordering is enabled, no apply is in progress, the modal is
closed and the grid is attached to the document, then for every rendered set and every
non-empty saved order of objects `applyOrder` adds one notification, and the count in
it is the number of distinct ids of the saved order that are rendered, whether the
cells of these ids change their position or not. -/
theorem C23_reported_count (s : State) (grid : Grid) (games : List Game)
    (hg : s.currentGrid = some grid) (hen : s.isManualOrderEnabled = true)
    (hbusy : s.isApplyingOrder = false) (hmodal : s.modalOpen = false)
    (hdoc : grid.inDocument = true) (hs : s.savedOrder = games.map some) (hne : games ≠ []) :
    (applyOrder s).notifications
      = s.notifications ++ ["🔄 "
          ++ toString ((firstByKey (fun k => k) [] (games.filterMap fun g => g.id)).filter
              fun k => k ∈ grid.cells.map getGameId).length
          ++ " games reordered"] := by
  have hgd : ¬ (s.savedOrder.length = 0 ∨ s.isManualOrderEnabled = false
      ∨ s.isApplyingOrder = true) := by
    simp [hs, hen, hbusy, hne]
  rw [applyOrder_notifications s grid hg hgd, hs, hdoc, moveSaved_no_throw, moveSaved_count]
  simp [hmodal]

/-- Witness of C23 (amended): cells 1, 2, 3 and the saved order 3, 9, 3, 1 give the
count 2. -/
theorem C23_reported_count_witness :
    (applyOrder
      { isManualOrderEnabled := true
        currentGrid := some { cells := [cellApp1, cellApp2, cellApp3] }
        savedOrder := [Item.toEntry { id := "3", title := "C" },
          Item.toEntry { id := "9", title := "Z" }, Item.toEntry { id := "3", title := "C" },
          Item.toEntry { id := "1", title := "A" }] }).notifications
      = ["🔄 2 games reordered"] :=
  (C23_reported_count
    { isManualOrderEnabled := true
      currentGrid := some { cells := [cellApp1, cellApp2, cellApp3] }
      savedOrder := [Item.toEntry { id := "3", title := "C" },
        Item.toEntry { id := "9", title := "Z" }, Item.toEntry { id := "3", title := "C" },
        Item.toEntry { id := "1", title := "A" }] }
    { cells := [cellApp1, cellApp2, cellApp3] }
    [{ id := some "3", title := some "C" }, { id := some "9", title := some "Z" },
      { id := some "3", title := some "C" }, { id := some "1", title := some "A" }]
    rfl rfl rfl rfl rfl rfl (by decide)).trans (by decide)

theorem charCodes_of_bmp (l : List Char) (h : ∀ c ∈ l, c.toNat < 65536) :
    (charCodes (String.mk l)).length = l.length := by
  induction l with
  | nil => rfl
  | cons c l ih =>
    have hc : c.toNat < 65536 := h c (List.mem_cons_self _ _)
    have hl := ih fun d hd => h d (List.mem_cons_of_mem _ hd)
    simp only [charCodes, List.flatMap_cons, if_pos hc, List.length_append, List.length_cons,
      List.length_nil] at hl ⊢
    omega

theorem digit36_toNat_lt (d : Nat) (h : d < 36) : (digit36 d).toNat < 128 := by
  revert d
  decide

theorem toDigits36_chars (fuel n : Nat) (acc : List Char) (hacc : ∀ c ∈ acc, c.toNat < 128) :
    ∀ c ∈ toDigits36 fuel n acc, c.toNat < 128 := by
  induction fuel generalizing n acc with
  | zero => exact hacc
  | succ fuel ih =>
    unfold toDigits36
    split
    · intro c hc
      rcases List.mem_cons.1 hc with rfl | hc
      · exact digit36_toNat_lt n (by assumption)
      · exact hacc c hc
    · apply ih
      intro c hc
      rcases List.mem_cons.1 hc with rfl | hc
      · exact digit36_toNat_lt _ (Nat.mod_lt _ (by decide))
      · exact hacc c hc

theorem toDigits36_length (fuel n k : Nat) (acc : List Char) (hfuel : n < fuel)
    (hk : n < 36 ^ (k + 1)) :
    acc.length + 1 ≤ (toDigits36 fuel n acc).length
    ∧ (toDigits36 fuel n acc).length ≤ acc.length + (k + 1) := by
  induction fuel generalizing n k acc with
  | zero => omega
  | succ fuel ih =>
    unfold toDigits36
    split
    · simp only [List.length_cons]
      omega
    · rename_i hn
      have hn36 : 36 ≤ n := Nat.le_of_not_lt hn
      cases k with
      | zero => simp at hk; omega
      | succ k =>
        have hdiv : n / 36 < 36 ^ (k + 1) := by
          rw [Nat.div_lt_iff_lt_mul (by decide)]
          rw [pow_succ] at hk
          exact hk
        have hfuel2 : n / 36 < fuel := by
          have := Nat.div_lt_self (by omega : 0 < n) (by decide : 1 < 36)
          omega
        have := ih (n / 36) k (digit36 (n % 36) :: acc) hfuel2 hdiv
        simp only [List.length_cons] at this
        omega

theorem natAbs_foldl_hashStep_lt (codes : List Nat) :
    (codes.foldl hashStep 0).natAbs < 36 ^ 6 := by
  have h : -2147483648 ≤ codes.foldl hashStep 0 ∧ codes.foldl hashStep 0 < 2147483648 := by
    induction codes using List.reverseRecOn with
    | nil => decide
    | append_singleton l c _ =>
      rw [List.foldl_append]
      exact toInt32_range _
  have : ((codes.foldl hashStep 0).natAbs : Int) < 2176782336 := by
    rw [Int.natCast_natAbs]
    exact abs_lt.2 ⟨by omega, by omega⟩
  have h36 : (36 : Nat) ^ 6 = 2176782336 := by norm_num
  rw [h36]
  exact_mod_cast this

/-- The fallback id of a title: the prefix and the digits, with no character cut. -/
theorem fallbackId_eq (title : String) :
    generateCompatibleGameId title false
        = "game_" ++ toString36 ((charCodes title).foldl hashStep 0).natAbs
    ∧ 1 ≤ (toString36 ((charCodes title).foldl hashStep 0).natAbs).data.length
    ∧ (toString36 ((charCodes title).foldl hashStep 0).natAbs).data.length ≤ 6
    ∧ 6 ≤ jsLength (generateCompatibleGameId title false)
    ∧ jsLength (generateCompatibleGameId title false) ≤ 11 := by
  have hlen := toDigits36_length (((charCodes title).foldl hashStep 0).natAbs + 1)
    ((charCodes title).foldl hashStep 0).natAbs 5 [] (Nat.lt_succ_self _)
    (natAbs_foldl_hashStep_lt _)
  have hchars := toDigits36_chars (((charCodes title).foldl hashStep 0).natAbs + 1)
    ((charCodes title).foldl hashStep 0).natAbs [] (by simp)
  simp only [List.length_nil, Nat.zero_add] at hlen
  have hgen : generateCompatibleGameId title false
      = substring0 ("game_" ++ toString36 ((charCodes title).foldl hashStep 0).natAbs) 16 := rfl
  have hdata : ("game_" ++ toString36 ((charCodes title).foldl hashStep 0).natAbs).data
      = "game_".data ++ toDigits36 (((charCodes title).foldl hashStep 0).natAbs + 1)
          ((charCodes title).foldl hashStep 0).natAbs [] := by
    simp [toString36, String.data_append]
  have hcut : substring0 ("game_" ++ toString36 ((charCodes title).foldl hashStep 0).natAbs) 16
      = "game_" ++ toString36 ((charCodes title).foldl hashStep 0).natAbs := by
    unfold substring0
    rw [List.take_of_length_le]
    rw [hdata, List.length_append]
    have : "game_".data.length = 5 := rfl
    omega
  have hjs : jsLength ("game_" ++ toString36 ((charCodes title).foldl hashStep 0).natAbs)
      = 5 + (toDigits36 (((charCodes title).foldl hashStep 0).natAbs + 1)
          ((charCodes title).foldl hashStep 0).natAbs []).length := by
    unfold jsLength
    have := charCodes_of_bmp ("game_".data ++ toDigits36
      (((charCodes title).foldl hashStep 0).natAbs + 1)
      ((charCodes title).foldl hashStep 0).natAbs []) (by
        intro c hc
        rcases List.mem_append.1 hc with h | h
        · have : ∀ d ∈ "game_".data, d.toNat < 65536 := by decide
          exact this c h
        · exact lt_trans (hchars c h) (by decide))
    rw [← hdata] at this
    rw [this, hdata, List.length_append]
    rfl
  refine ⟨hgen.trans hcut, ?_, ?_, ?_, ?_⟩
  · exact hlen.1
  · exact hlen.2
  · rw [hgen, hcut, hjs]; omega
  · rw [hgen, hcut, hjs]; omega

/-- C30. For every title, the fallback id that `generateCompatibleGameId(title, false)`
computes is the prefix "game_" followed by the 1 to 6 base-36 digits of the absolute
value of the hash: it has 6 to 11 code units and the cut to 16 characters removes
nothing. For every cell without an application id in its link, `getGameId` returns
this id for the title of the cell. -/
theorem C30_fallback_id_length (title : String) (cell : GameCell)
    (hlink : appIdOfLink cell = none) :
    (generateCompatibleGameId title false
        = "game_" ++ toString36 ((charCodes title).foldl hashStep 0).natAbs
      ∧ startsWith (generateCompatibleGameId title false) "game_" = true
      ∧ 1 ≤ (toString36 ((charCodes title).foldl hashStep 0).natAbs).data.length
      ∧ (toString36 ((charCodes title).foldl hashStep 0).natAbs).data.length ≤ 6
      ∧ 6 ≤ jsLength (generateCompatibleGameId title false)
      ∧ jsLength (generateCompatibleGameId title false) ≤ 11)
    ∧ getGameId cell = generateCompatibleGameId (getGameTitle cell) false
    ∧ startsWith (getGameId cell) "game_" = true
    ∧ 6 ≤ jsLength (getGameId cell) ∧ jsLength (getGameId cell) ≤ 11 := by
  have hstart : ∀ t, startsWith (generateCompatibleGameId t false) "game_" = true := by
    intro t
    rw [(fallbackId_eq t).1]
    simp [startsWith, String.data_append]
  have hid : getGameId cell = generateCompatibleGameId (getGameTitle cell) false := by
    unfold getGameId
    rw [hlink]
    rfl
  obtain ⟨h1, h2, h3, h4, h5⟩ := fallbackId_eq title
  obtain ⟨_, _, _, g4, g5⟩ := fallbackId_eq (getGameTitle cell)
  refine ⟨⟨h1, hstart title, h2, h3, h4, h5⟩, hid, ?_, ?_, ?_⟩
  · rw [hid]; exact hstart _
  · rw [hid]; exact g4
  · rw [hid]; exact g5

/-- Witness of C30: the title "Cuphead" and the cell without a link that shows it. -/
theorem C30_fallback_id_length_witness :
    jsLength (getGameId cellCuphead) ≤ 11 :=
  (C30_fallback_id_length "Cuphead" cellCuphead (by decide)).2.2.2.2

/-- The old-format id of a title that `btoa` accepts: at most 16 letters and digits. -/
theorem oldFormatId_chars (title : String) (hlatin : ∀ u ∈ charCodes title, u ≤ 255) :
    (generateCompatibleGameId title true).data.length ≤ 16
    ∧ ∀ c ∈ (generateCompatibleGameId title true).data,
        (97 ≤ c.toNat ∧ c.toNat ≤ 122) ∨ (65 ≤ c.toNat ∧ c.toNat ≤ 90)
          ∨ (48 ≤ c.toNat ∧ c.toNat ≤ 57) := by
  have hb : btoa title = some (String.mk (base64Encode (charCodes title))) := by
    unfold btoa
    rw [if_pos]
    rw [List.all_eq_true]
    intro u hu
    exact decide_eq_true (hlatin u hu)
  have hgen : generateCompatibleGameId title true
      = substring0 (stripNonAlnum (String.mk (base64Encode (charCodes title)))) 16 := by
    unfold generateCompatibleGameId
    rw [if_pos rfl, hb]
  rw [hgen]
  refine ⟨?_, ?_⟩
  · simp only [substring0, List.length_take]
    exact Nat.min_le_left _ _
  · intro c hc
    simp only [substring0, stripNonAlnum] at hc
    have hf := (List.mem_filter.1 (List.mem_of_mem_take hc)).2
    simp only [isDigit, Bool.or_eq_true, Bool.and_eq_true, decide_eq_true_eq] at hf
    rcases hf with (h | h) | h
    · exact Or.inl h
    · exact Or.inr (Or.inl h)
    · exact Or.inr (Or.inr h)

/-- C25 (counterexample). The title "ポータル" has code units above 255: `btoa` throws
on it, and the id that `generateCompatibleGameId(title, true)` returns is the title
hash with the prefix "game_", which `isOldFormatId` does not take for an old id. -/
theorem C25_title_outside_latin1 :
    btoa "ポータル" = none
    ∧ startsWith (generateCompatibleGameId "ポータル" true) "game_" = true
    ∧ isOldFormatId (generateCompatibleGameId "ポータル" true) = false := by
  decide

/-- The id of a title that `btoa` rejects: the title hash with the prefix "game_". -/
theorem oldFormatId_of_thrown (title : String) (hwide : ∃ u ∈ charCodes title, 255 < u) :
    btoa title = none
    ∧ generateCompatibleGameId title true = generateCompatibleGameId title false := by
  have hb : btoa title = none := by
    unfold btoa
    rw [if_neg]
    intro hall
    obtain ⟨u, hu, hlt⟩ := hwide
    have := List.all_eq_true.1 hall u hu
    simp only [decide_eq_true_eq] at this
    omega
  refine ⟨hb, ?_⟩
  unfold generateCompatibleGameId
  simp only [hb]
  rfl

/-- The old-format id of a title that `btoa` accepts does not start with "game_" and is
taken for an old id. -/
theorem oldFormatId_recognised (title : String) (hlatin : ∀ u ∈ charCodes title, u ≤ 255) :
    isOldFormatId (generateCompatibleGameId title true) = true
    ∧ (∀ c ∈ (generateCompatibleGameId title true).data,
        (97 ≤ c.toNat ∧ c.toNat ≤ 122) ∨ (65 ≤ c.toNat ∧ c.toNat ≤ 90)
          ∨ (48 ≤ c.toNat ∧ c.toNat ≤ 57))
    ∧ jsLength (generateCompatibleGameId title true) ≤ 16
    ∧ startsWith (generateCompatibleGameId title true) "game_" = false := by
  obtain ⟨hlen, hchars⟩ := oldFormatId_chars title hlatin
  have hjs : jsLength (generateCompatibleGameId title true) ≤ 16 := by
    unfold jsLength
    have := charCodes_of_bmp (generateCompatibleGameId title true).data (by
      intro c hc
      rcases hchars c hc with h | h | h <;> omega)
    rw [this]
    exact hlen
  have hstart : startsWith (generateCompatibleGameId title true) "game_" = false := by
    cases h : startsWith (generateCompatibleGameId title true) "game_" with
    | false => rfl
    | true =>
      exfalso
      unfold startsWith at h
      obtain ⟨t, ht⟩ := List.isPrefixOf_iff_prefix.1 h
      have hmem : '_' ∈ (generateCompatibleGameId title true).data := by
        rw [← ht]
        exact List.mem_append_left _ (by decide)
      have hu : ('_' : Char).toNat = 95 := rfl
      rcases hchars _ hmem with h | h | h <;> omega
  refine ⟨?_, hchars, hjs, hstart⟩
  unfold isOldFormatId
  rw [hstart]
  simp [hjs]

/-- C25 (amended). For every title whose code units are all at most 255 (the titles that
`btoa` accepts), the id that `generateCompatibleGameId(title, true)` returns holds
only letters and digits, has at most 16 code units and does not start with "game_",
and `isOldFormatId` returns true for it. For every title with a code unit above 255,
`btoa` throws and `generateCompatibleGameId(title, true)` returns the id of the new
format, the title hash with the prefix "game_", and `isOldFormatId` returns false
for it. -/
theorem C25_old_format_recognised (title : String) :
    ((∀ u ∈ charCodes title, u ≤ 255) →
      isOldFormatId (generateCompatibleGameId title true) = true
      ∧ (∀ c ∈ (generateCompatibleGameId title true).data,
          (97 ≤ c.toNat ∧ c.toNat ≤ 122) ∨ (65 ≤ c.toNat ∧ c.toNat ≤ 90)
            ∨ (48 ≤ c.toNat ∧ c.toNat ≤ 57))
      ∧ jsLength (generateCompatibleGameId title true) ≤ 16
      ∧ startsWith (generateCompatibleGameId title true) "game_" = false)
    ∧ ((∃ u ∈ charCodes title, 255 < u) →
      btoa title = none
      ∧ generateCompatibleGameId title true
        = "game_" ++ toString36 ((charCodes title).foldl hashStep 0).natAbs
      ∧ generateCompatibleGameId title true = generateCompatibleGameId title false
      ∧ startsWith (generateCompatibleGameId title true) "game_" = true
      ∧ isOldFormatId (generateCompatibleGameId title true) = false) := by
  refine ⟨oldFormatId_recognised title, ?_⟩
  intro hwide
  obtain ⟨hb, hsame⟩ := oldFormatId_of_thrown title hwide
  have hid := (fallbackId_eq title).1
  have hstart : startsWith (generateCompatibleGameId title true) "game_" = true := by
    rw [hsame, hid]
    simp [startsWith, String.data_append]
  refine ⟨hb, hsame.trans hid, hsame, hstart, ?_⟩
  unfold isOldFormatId
  rw [hstart]
  rfl

/-- Witness of C25 (amended): the title "Cuphead", which `btoa` accepts, and the title
"Ωmega", which it rejects. -/
theorem C25_old_format_recognised_witness :
    isOldFormatId (generateCompatibleGameId "Cuphead" true) = true
    ∧ isOldFormatId (generateCompatibleGameId "Ωmega" true) = false :=
  ⟨((C25_old_format_recognised "Cuphead").1 (by decide)).1,
    ((C25_old_format_recognised "Ωmega").2 ⟨937, by decide, by decide⟩).2.2.2.2⟩

/-! ## Claims on a second reconciliation, on the toggle and on the round trip -/

theorem keepSaved_kept (l : List Entry) (m : JSMap String) :
    keepSaved (keepSaved l m).1 m = ((keepSaved l m).1, (keepSaved l m).2.1, false) := by
  induction l generalizing m with
  | nil => rfl
  | cons e rest ih =>
    cases e with
    | none => simpa only [keepSaved] using ih m
    | some g =>
      cases hid : g.id with
      | none =>
        simp only [keepSaved, hid]
        exact ih m
      | some id =>
        by_cases hhas : JSMap.has m id = true
        · simp only [keepSaved, hid, if_pos hhas, ih (JSMap.delete m id)]
        · simp only [keepSaved, hid, if_neg hhas]
          exact ih m

theorem keepSaved_append (l1 l2 : List Entry) (m : JSMap String) :
    keepSaved (l1 ++ l2) m
      = ((keepSaved l1 m).1 ++ (keepSaved l2 (keepSaved l1 m).2.1).1,
          (keepSaved l2 (keepSaved l1 m).2.1).2.1,
          (keepSaved l1 m).2.2 || (keepSaved l2 (keepSaved l1 m).2.1).2.2) := by
  induction l1 generalizing m with
  | nil => simp [keepSaved]
  | cons e rest ih =>
    cases e with
    | none =>
      rw [List.cons_append]
      simpa only [keepSaved] using ih m
    | some g =>
      rw [List.cons_append]
      cases hid : g.id with
      | none => simp only [keepSaved, hid, ih m, Bool.true_or]
      | some id =>
        by_cases hhas : JSMap.has m id = true
        · simp only [keepSaved, hid, if_pos hhas, ih (JSMap.delete m id), List.cons_append]
        · simp only [keepSaved, hid, if_neg hhas, ih m, Bool.true_or]

theorem keepSaved_keys_nodup (l : List Entry) (m : JSMap String) (hm : (JSMap.keys m).Nodup) :
    (JSMap.keys (keepSaved l m).2.1).Nodup := by
  induction l generalizing m with
  | nil => exact hm
  | cons e rest ih =>
    cases e with
    | none => simpa only [keepSaved] using ih m hm
    | some g =>
      cases hid : g.id with
      | none =>
        simp only [keepSaved, hid]
        exact ih m hm
      | some id =>
        by_cases hhas : JSMap.has m id = true
        · simp only [keepSaved, hid, if_pos hhas]
          exact ih _ (JSMap.nodup_delete m id hm)
        · simp only [keepSaved, hid, if_neg hhas]
          exact ih m hm

theorem keepSaved_remainingEntries (m : JSMap String) (hm : (JSMap.keys m).Nodup) :
    keepSaved (remainingEntries m) m = (remainingEntries m, [], false) := by
  induction m with
  | nil => rfl
  | cons p rest ih =>
    have hnd : p.1 ∉ JSMap.keys rest ∧ (JSMap.keys rest).Nodup := by
      simpa [JSMap.keys] using hm
    have hhas : JSMap.has (p :: rest) p.1 = true := by simp [JSMap.has]
    have hdel : JSMap.delete (p :: rest) p.1 = rest := by
      unfold JSMap.delete
      rw [List.filter_cons_of_neg (by simp)]
      apply List.filter_eq_self.2
      intro q hq
      have : q.1 ≠ p.1 := fun h => hnd.1 (h ▸ List.mem_map_of_mem (fun p => p.1) hq)
      simpa using this
    have hrem : remainingEntries (p :: rest)
        = some { id := some p.1, title := some p.2 } :: remainingEntries rest := rfl
    rw [hrem]
    simp only [keepSaved, if_pos hhas, hdel, ih hnd.2]

/-- The saved order that `synchronizeGameOrder` builds is kept as it is by a second run
on the same rendered games. -/
theorem keepSaved_newOrder (l : List Entry) (m : JSMap String) (hm : (JSMap.keys m).Nodup) :
    keepSaved ((keepSaved l m).1 ++ remainingEntries (keepSaved l m).2.1) m
      = ((keepSaved l m).1 ++ remainingEntries (keepSaved l m).2.1, [], false) := by
  rw [keepSaved_append, keepSaved_kept]
  simp only [keepSaved_remainingEntries _ (keepSaved_keys_nodup l m hm), Bool.false_or]

theorem synchronizeGameOrder_run (s : State) (grid : Grid) (hg : s.currentGrid = some grid)
    (hen : s.isManualOrderEnabled = true) (hne : grid.cells ≠ []) :
    synchronizeGameOrder s
      = if ((keepSaved s.savedOrder (currentGameMapOf grid.cells)).2.2
            || !(keepSaved s.savedOrder (currentGameMapOf grid.cells)).2.1.isEmpty) = true then
          ({ s with
              savedOrder := (keepSaved s.savedOrder (currentGameMapOf grid.cells)).1
                ++ remainingEntries (keepSaved s.savedOrder (currentGameMapOf grid.cells)).2.1
              storedOrder := some ((keepSaved s.savedOrder (currentGameMapOf grid.cells)).1
                ++ remainingEntries (keepSaved s.savedOrder (currentGameMapOf grid.cells)).2.1)
              notifications :=
                if (keepSaved s.savedOrder (currentGameMapOf grid.cells)).2.1.length > 0
                    ∨ ((keepSaved s.savedOrder (currentGameMapOf grid.cells)).1
                        ++ remainingEntries
                          (keepSaved s.savedOrder (currentGameMapOf grid.cells)).2.1).length
                      - ((keepSaved s.savedOrder (currentGameMapOf grid.cells)).1
                        ++ remainingEntries
                          (keepSaved s.savedOrder (currentGameMapOf grid.cells)).2.1).length
                      + (keepSaved s.savedOrder (currentGameMapOf grid.cells)).2.1.length > 0 then
                  s.notifications
                    ++ [syncMessage (keepSaved s.savedOrder (currentGameMapOf grid.cells)).2.1.length
                      (((keepSaved s.savedOrder (currentGameMapOf grid.cells)).1
                        ++ remainingEntries
                          (keepSaved s.savedOrder (currentGameMapOf grid.cells)).2.1).length
                      - ((keepSaved s.savedOrder (currentGameMapOf grid.cells)).1
                        ++ remainingEntries
                          (keepSaved s.savedOrder (currentGameMapOf grid.cells)).2.1).length
                      + (keepSaved s.savedOrder (currentGameMapOf grid.cells)).2.1.length)]
                else s.notifications }, some true)
        else (s, some false) := by
  have h1 : ¬ ((!s.isManualOrderEnabled) = true) := by simp [hen]
  have h2 : ¬ (grid.cells.length = 0) := fun h => hne (List.length_eq_zero.1 h)
  unfold synchronizeGameOrder
  simp only [hg]
  rw [if_neg h1, if_neg h2]

/-- While the ordering is enabled and a game is rendered, a second run finds nothing to
change. -/
theorem synchronizeGameOrder_second_run (s : State) (grid : Grid)
    (hg : s.currentGrid = some grid) (hen : s.isManualOrderEnabled = true)
    (hne : grid.cells ≠ []) :
    synchronizeGameOrder (synchronizeGameOrder s).1 = ((synchronizeGameOrder s).1, some false) := by
  have hrun := synchronizeGameOrder_run s grid hg hen hne
  by_cases hch : ((keepSaved s.savedOrder (currentGameMapOf grid.cells)).2.2
      || !(keepSaved s.savedOrder (currentGameMapOf grid.cells)).2.1.isEmpty) = true
  · rw [if_pos hch] at hrun
    have hst := congrArg Prod.fst hrun
    simp only at hst
    have hg2 : (synchronizeGameOrder s).1.currentGrid = some grid := by rw [hst]; exact hg
    have hen2 : (synchronizeGameOrder s).1.isManualOrderEnabled = true := by rw [hst]; exact hen
    have hsv : (synchronizeGameOrder s).1.savedOrder
        = (keepSaved s.savedOrder (currentGameMapOf grid.cells)).1
          ++ remainingEntries (keepSaved s.savedOrder (currentGameMapOf grid.cells)).2.1 := by
      rw [hst]
    rw [synchronizeGameOrder_run _ grid hg2 hen2 hne, hsv,
      keepSaved_newOrder _ _ (currentGameMapOf_nodup grid.cells)]
    rfl
  · rw [if_neg hch] at hrun
    rw [hrun]
    exact hrun

/-- With the ordering disabled a run returns `undefined` and changes nothing. -/
theorem synchronizeGameOrder_disabled (s : State) (hdis : s.isManualOrderEnabled = false) :
    synchronizeGameOrder s = (s, none) := by
  unfold synchronizeGameOrder
  cases s.currentGrid with
  | none => rfl
  | some grid => simp [hdis]

/-- C28 (counterexample). With manual ordering disabled, the second run returns
`undefined`, as the first one does, not `false`. -/
theorem C28_second_run_when_disabled :
    (synchronizeGameOrder (synchronizeGameOrder
      { isManualOrderEnabled := false
        currentGrid := some { cells := [cellApp1] }
        savedOrder := [] }).1).2 = none := by
  decide

/-- C28 (amended). While manual ordering is enabled, for every rendered set with at least
one game cell and every saved order, a second run of `synchronizeGameOrder` on the
state that the first run left returns `false` and leaves the whole state, and so the
saved order and the persisted order, as the first run left it. With manual ordering
disabled, in every state, both runs return `undefined` and change nothing. -/
theorem C28_second_run_changes_nothing (s : State) :
    (∀ grid : Grid, s.currentGrid = some grid → grid.cells ≠ [] →
      s.isManualOrderEnabled = true →
      synchronizeGameOrder (synchronizeGameOrder s).1
        = ((synchronizeGameOrder s).1, some false))
    ∧ (s.isManualOrderEnabled = false →
      synchronizeGameOrder s = (s, none)
      ∧ synchronizeGameOrder (synchronizeGameOrder s).1 = (s, none)) := by
  refine ⟨fun grid hg hne hen => synchronizeGameOrder_second_run s grid hg hen hne, ?_⟩
  intro hdis
  have h := synchronizeGameOrder_disabled s hdis
  refine ⟨h, ?_⟩
  rw [h]
  exact h

/-- Witness of C28 (amended): two rendered cells and a saved order with an entry that is
not rendered, a `null` and an entry without id, with the ordering enabled and with
the ordering disabled. -/
theorem C28_second_run_changes_nothing_witness :
    (synchronizeGameOrder (synchronizeGameOrder
      { isManualOrderEnabled := true
        currentGrid := some { cells := [cellApp1, cellApp2] }
        savedOrder := [Item.toEntry { id := "9", title := "Z" }, none,
          some { id := none, title := some "No id" },
          Item.toEntry { id := "2", title := "B" }] }).1).2 = some false
    ∧ (synchronizeGameOrder (synchronizeGameOrder
      { isManualOrderEnabled := false
        currentGrid := some { cells := [cellApp1, cellApp2] }
        savedOrder := [Item.toEntry { id := "9", title := "Z" }, none,
          some { id := none, title := some "No id" },
          Item.toEntry { id := "2", title := "B" }] }).1).2 = none :=
  ⟨congrArg Prod.snd
    ((C28_second_run_changes_nothing
      { isManualOrderEnabled := true
        currentGrid := some { cells := [cellApp1, cellApp2] }
        savedOrder := [Item.toEntry { id := "9", title := "Z" }, none,
          some { id := none, title := some "No id" },
          Item.toEntry { id := "2", title := "B" }] }).1
      { cells := [cellApp1, cellApp2] } rfl (by decide) rfl),
    congrArg Prod.snd
      ((C28_second_run_changes_nothing
        { isManualOrderEnabled := false
          currentGrid := some { cells := [cellApp1, cellApp2] }
          savedOrder := [Item.toEntry { id := "9", title := "Z" }, none,
            some { id := none, title := some "No id" },
            Item.toEntry { id := "2", title := "B" }] }).2 rfl).2⟩

theorem synchronizeGameOrder_snapshot (s : State) :
    (synchronizeGameOrder s).1.originalGridHTML = s.originalGridHTML
    ∧ (synchronizeGameOrder s).1.currentGrid = s.currentGrid := by
  unfold synchronizeGameOrder
  cases hg : s.currentGrid with
  | none => simp [hg]
  | some grid =>
    simp only
    split
    · simp [hg]
    · split
      · simp [hg]
      · split
        · simp [hg]
        · simp [hg]

theorem applyOrder_snapshot (s : State) :
    (applyOrder s).originalGridHTML = s.originalGridHTML
    ∧ (applyOrder s).currentGrid.isSome = s.currentGrid.isSome := by
  unfold applyOrder
  cases hg : s.currentGrid with
  | none => simp [hg]
  | some grid =>
    simp only
    split
    · simp [hg]
    · simp

theorem saveOrder_snapshot (s : State) (newOrder : Option (List Entry)) :
    (saveOrder s newOrder).originalGridHTML = s.originalGridHTML
    ∧ (saveOrder s newOrder).currentGrid = s.currentGrid := by
  unfold saveOrder
  cases hg : s.currentGrid with
  | none => simp [hg]
  | some grid =>
    simp only
    split
    · simp [hg]
    · simp [hg]

theorem applyOrderWithSync_snapshot (s : State) :
    (applyOrderWithSync s).1.originalGridHTML = s.originalGridHTML
    ∧ (applyOrderWithSync s).1.currentGrid.isSome = s.currentGrid.isSome := by
  unfold applyOrderWithSync
  cases hg : s.currentGrid with
  | none => simp [hg]
  | some grid =>
    simp only
    split
    · simp [hg]
    · have h1 := applyOrder_snapshot (synchronizeGameOrder s).1
      have h2 := synchronizeGameOrder_snapshot s
      simp only
      rw [h1.1, h1.2, h2.1, h2.2, hg]
      simp

theorem toggleEnableTimeout_snapshot (s : State) :
    (toggleEnableTimeout s).originalGridHTML = s.originalGridHTML
    ∧ (toggleEnableTimeout s).currentGrid.isSome = s.currentGrid.isSome := by
  unfold toggleEnableTimeout
  have h := applyOrderWithSync_snapshot (if s.savedOrder.length = 0 then saveOrder s none else s)
  rw [h.1, h.2]
  split
  · rw [(saveOrder_snapshot s none).1, (saveOrder_snapshot s none).2]
    exact ⟨rfl, rfl⟩
  · exact ⟨rfl, rfl⟩

/-- The listener that disables the ordering writes a snapshot that is not the empty
string back into the grid. -/
theorem toggleInputChange_restores (s : State) (grid : Grid) (html : GridMarkup)
    (found : Option Grid) (foundOther : String) (hg : s.currentGrid = some grid)
    (hsnap : s.originalGridHTML = some html) (hne : html.isEmptyString = false) :
    currentGridHTML (toggleInputChange s false found foundOther) = some html := by
  rcases s with ⟨en, saved, cg, mo, ap, st, no, gt, og, se, rp, wm, om⟩
  simp only at hg hsnap
  subst hg hsnap
  cases en <;> cases rp <;>
    simp [toggleInputChange, saveEnabledState, hasSnapshot, hne, currentGridHTML, innerHTML]

/-- The listener that enables the ordering and finds the grid: the grid is the one found,
not yet reordered, and the snapshot is the one held before, or else the content of the
grid. -/
theorem toggleInputChange_enables (s : State) (found : Grid) (foundOther : String) :
    (toggleInputChange s true (some found) foundOther).currentGrid = some found
    ∧ currentGridHTML (toggleInputChange s true (some found) foundOther)
      = some (innerHTML found foundOther)
    ∧ (toggleInputChange s true (some found) foundOther).originalGridHTML
      = if hasSnapshot s = true then s.originalGridHTML
        else some (innerHTML found foundOther) := by
  rcases s with ⟨en, saved, cg, mo, ap, st, no, gt, og, se, rp, wm, om⟩
  cases og with
  | none => cases st <;> cases en <;> exact ⟨rfl, rfl, rfl⟩
  | some html =>
    cases hne : html.isEmptyString <;> cases st <;> cases en <;>
      simp [toggleInputChange, saveEnabledState, loadOrder, hasSnapshot, hne, currentGridHTML]

/-- C22 (counterexample). Manual ordering is enabled on a grid with the cells of
applications 1 and 2 and disabled again; it is then enabled on the grid with the cells
of applications 2, 1 and 3. The second enable keeps the snapshot of the first, and the
second disable puts the cells of applications 1 and 2 into the grid. When the snapshot
held is the markup of a placeholder, an enable on the cells of applications 1 and 2
keeps it and the disable leaves no cell in the grid. -/
theorem C22_second_cycle_restores_first_content :
    (toggleInputChange
        (toggleInputChange
          (toggleEnableTimeout
            (toggleInputChange { } true (some { cells := [cellApp1, cellApp2] }) ""))
          false none "")
        true (some { cells := [cellApp2, cellApp1, cellApp3] }) "").originalGridHTML
      = some { cells := [cellApp1, cellApp2], otherMarkup := "" }
    ∧ getAllGames
        (toggleInputChange
          (toggleInputChange
            (toggleInputChange
              (toggleEnableTimeout
                (toggleInputChange { } true (some { cells := [cellApp1, cellApp2] }) ""))
              false none "")
            true (some { cells := [cellApp2, cellApp1, cellApp3] }) "")
          false none "")
      = [cellApp1, cellApp2]
    ∧ getAllGames
        (toggleInputChange
          (toggleInputChange
            { originalGridHTML := some { cells := [], otherMarkup := "<p>Loading</p>" } }
            true (some { cells := [cellApp1, cellApp2] }) "")
          false none "")
      = [] := by
  decide

/-- C22 (amended). An enable of manual ordering that finds the grid with a content G that
is not the empty string leaves the grid as found, not yet reordered, and holds as
snapshot the snapshot held before, if that is a string that is not empty, and else G.
The timer that the enable starts, which reorders the grid, keeps this snapshot, and a
disable that follows it, or that is made in any later state with this snapshot and a
grid, makes the snapshot the content of the grid: G in the cycle that took the
snapshot, the content held from the earlier cycle in every later cycle. -/
theorem C22_restore_point (s later : State) (found grid : Grid) (foundOther : String)
    (target : Option Grid) (targetOther : String)
    (hcontent : (innerHTML found foundOther).isEmptyString = false)
    (hsnap : later.originalGridHTML
      = (toggleInputChange s true (some found) foundOther).originalGridHTML)
    (hgrid : later.currentGrid = some grid) :
    (toggleInputChange s true (some found) foundOther).currentGrid = some found
    ∧ currentGridHTML (toggleInputChange s true (some found) foundOther)
      = some (innerHTML found foundOther)
    ∧ (toggleInputChange s true (some found) foundOther).originalGridHTML
      = (if hasSnapshot s = true then s.originalGridHTML
          else some (innerHTML found foundOther))
    ∧ (toggleEnableTimeout (toggleInputChange s true (some found) foundOther)).originalGridHTML
      = (if hasSnapshot s = true then s.originalGridHTML
          else some (innerHTML found foundOther))
    ∧ currentGridHTML (toggleInputChange
        (toggleEnableTimeout (toggleInputChange s true (some found) foundOther))
        false target targetOther)
      = (if hasSnapshot s = true then s.originalGridHTML
          else some (innerHTML found foundOther))
    ∧ currentGridHTML (toggleInputChange later false target targetOther)
      = (if hasSnapshot s = true then s.originalGridHTML
          else some (innerHTML found foundOther)) := by
  obtain ⟨h1, h1b, h2⟩ := toggleInputChange_enables s found foundOther
  obtain ⟨t1, t2⟩ :=
    toggleEnableTimeout_snapshot (toggleInputChange s true (some found) foundOther)
  have hheld : ∃ html : GridMarkup, html.isEmptyString = false
      ∧ (if hasSnapshot s = true then s.originalGridHTML
          else some (innerHTML found foundOther)) = some html := by
    cases hsn : hasSnapshot s with
    | false => exact ⟨innerHTML found foundOther, hcontent, by simp⟩
    | true =>
      unfold hasSnapshot at hsn
      cases ho : s.originalGridHTML with
      | none => simp [ho] at hsn
      | some html =>
        rw [ho] at hsn
        exact ⟨html, by simpa using hsn, by simp⟩
  obtain ⟨html, hne, e1⟩ := hheld
  have hsome : ∃ g,
      (toggleEnableTimeout (toggleInputChange s true (some found) foundOther)).currentGrid
        = some g := by
    rw [h1] at t2
    exact Option.isSome_iff_exists.1 t2
  obtain ⟨g, hgt⟩ := hsome
  refine ⟨h1, h1b, h2, t1.trans h2, ?_, ?_⟩
  · rw [e1]
    exact toggleInputChange_restores _ g html target targetOther hgt (t1.trans (h2.trans e1)) hne
  · rw [e1]
    exact toggleInputChange_restores later grid html target targetOther hgrid
      (hsnap.trans (h2.trans e1)) hne

/-- Witness of C22 (amended): the first enable on the cells of applications 2 and 1 and
a placeholder, with the saved order 1, 2 in the store, and the disable that follows
the reordering. -/
theorem C22_restore_point_witness :
    getAllGames (toggleEnableTimeout (toggleInputChange
        { storedOrder := some [Item.toEntry { id := "1", title := "A" },
            Item.toEntry { id := "2", title := "B" }] }
        true (some { cells := [cellApp2, cellApp1] }) "<p>Loading</p>"))
      = [cellApp1, cellApp2]
    ∧ currentGridHTML (toggleInputChange
        (toggleEnableTimeout (toggleInputChange
          { storedOrder := some [Item.toEntry { id := "1", title := "A" },
              Item.toEntry { id := "2", title := "B" }] }
          true (some { cells := [cellApp2, cellApp1] }) "<p>Loading</p>"))
        false none "")
      = some { cells := [cellApp2, cellApp1], otherMarkup := "<p>Loading</p>" } :=
  ⟨by decide,
    (C22_restore_point
      { storedOrder := some [Item.toEntry { id := "1", title := "A" },
          Item.toEntry { id := "2", title := "B" }] }
      (toggleEnableTimeout (toggleInputChange
        { storedOrder := some [Item.toEntry { id := "1", title := "A" },
            Item.toEntry { id := "2", title := "B" }] }
        true (some { cells := [cellApp2, cellApp1] }) "<p>Loading</p>"))
      { cells := [cellApp2, cellApp1] } { cells := [cellApp1, cellApp2] }
      "<p>Loading</p>" none ""
      (by decide) (by decide) (by decide)).2.2.2.2.1.trans (by decide)⟩

/-- C27 (failing input). The cells of applications 1 and 2 are rendered in this order and
the saved order is 2, 1. The document that `exportOrder` writes has the order 2, 1;
after `handleImportFile` has read it back, the saved order is 1, 2. -/
theorem C27_round_trip_loses_order :
    (exportOrder
        { isManualOrderEnabled := true
          currentGrid := some { cells := [cellApp1, cellApp2] }
          savedOrder := [Item.toEntry { id := "2", title := "B" },
            Item.toEntry { id := "1", title := "A" }] } "2026-01-01T00:00:00.000Z").2.order.map
      entryId = [some "2", some "1"]
    ∧ (handleImportFile
        (exportOrder
          { isManualOrderEnabled := true
            currentGrid := some { cells := [cellApp1, cellApp2] }
            savedOrder := [Item.toEntry { id := "2", title := "B" },
              Item.toEntry { id := "1", title := "A" }] } "2026-01-01T00:00:00.000Z").1
        (some (exportedDocument (exportOrder
          { isManualOrderEnabled := true
            currentGrid := some { cells := [cellApp1, cellApp2] }
            savedOrder := [Item.toEntry { id := "2", title := "B" },
              Item.toEntry { id := "1", title := "A" }] }
          "2026-01-01T00:00:00.000Z").2))).savedOrder.map entryId
      = [some "1", some "2"] := by
  decide

/-! ## Claims on the gradient of the colour customizer -/

theorem roundToDouble_zero (den : Nat) : roundToDouble 0 den = (0, 0) := by
  unfold roundToDouble
  rw [if_pos rfl]

theorem mulDouble_zero (x : Nat × Int) : mulDouble 0 x = (0, 0) := by
  unfold mulDouble
  split <;> simp [roundToDouble_zero]

theorem gradientPercentage_first (length : Nat) (h : 2 ≤ length) :
    gradientPercentage length 0 = 0 := by
  unfold gradientPercentage
  rw [if_neg (by omega), mulDouble_zero]
  rfl

/-- For up to 16 colours the percentage of every stop is the integer nearest to
`index * 100 / (length - 1)`. -/
theorem gradientPercentage_nearest : ∀ length < 17, ∀ index < length, 2 ≤ length →
    gradientPercentage length index = nearestInteger (index * 100) (length - 1) := by
  decide

theorem colorStopsOf_getElem? (colors : List Color) (i : Nat) (color : Color)
    (h : colors[i]? = some color) :
    (colorStopsOf colors)[i]?
      = some (hexAlphaToRGBA color.hex color.alpha ++ " "
          ++ toString (gradientPercentage colors.length i) ++ "%") := by
  unfold colorStopsOf
  rw [List.getElem?_map, List.getElem?_enum, h]
  rfl

/-- C24 (counterexample). Four colours: the stop with index 1 is placed at 33 percent and
the stop with index 2 at 67 percent, where `1 * (100 / 3)` is not 33. -/
theorem C24_inner_stop_is_rounded :
    generateGradient
        [solidColor "#000000", solidColor "#ff0000", solidColor "#00ff00", solidColor "#0000ff"]
        "90"
      = "linear-gradient(90deg, rgba(0, 0, 0, 1) 0%, rgba(255, 0, 0, 1) 33%, rgba(0, 255, 0, 1) 67%, rgba(0, 0, 255, 1) 100%)"
    ∧ (gradientPercentage 4 1 : ℚ) ≠ 1 * (100 / (4 - 1)) := by
  refine ⟨by decide, ?_⟩
  rw [show gradientPercentage 4 1 = 33 by decide]
  norm_num

/-- C24 (amended). For fewer than 2 colours `generateGradient` returns the fixed gradient
'linear-gradient(0deg, #000 0%, #000 100%)'. For n >= 2 colours it returns the angle
followed by n colour stops in input order, joined by ", "; the stop with index i is
the colour of index i followed by a whole number of percent: 0 for the first stop, 100
for the last, and for a stop between them the value `Math.round(i * (100 / (n - 1)))`
of the double arithmetic, which for up to 16 colours is the integer nearest to
`i * 100 / (n - 1)`. -/
theorem C24_gradient_stops (colors : List Color) (angle : String) :
    (colors.length < 2 →
      generateGradient colors angle = "linear-gradient(0deg, #000 0%, #000 100%)")
    ∧ (2 ≤ colors.length →
      generateGradient colors angle
          = "linear-gradient(" ++ angle ++ "deg, " ++ ", ".intercalate (colorStopsOf colors) ++ ")"
        ∧ (colorStopsOf colors).length = colors.length
        ∧ (∀ i color, colors[i]? = some color →
            (colorStopsOf colors)[i]?
              = some (hexAlphaToRGBA color.hex color.alpha ++ " "
                  ++ toString (gradientPercentage colors.length i) ++ "%"))
        ∧ gradientPercentage colors.length 0 = 0
        ∧ gradientPercentage colors.length (colors.length - 1) = 100
        ∧ (∀ i, i < colors.length - 1 →
            gradientPercentage colors.length i
              = mathRound (mulDouble i (divDouble 100 (colors.length - 1))))
        ∧ (colors.length ≤ 16 → ∀ i, i < colors.length →
            gradientPercentage colors.length i
              = nearestInteger (i * 100) (colors.length - 1))) := by
  refine ⟨?_, ?_⟩
  · intro h
    unfold generateGradient
    rw [if_pos h]
  · intro h
    refine ⟨?_, ?_, colorStopsOf_getElem? colors, gradientPercentage_first _ h, ?_, ?_, ?_⟩
    · unfold generateGradient
      rw [if_neg (by omega)]
    · simp [colorStopsOf]
    · unfold gradientPercentage
      rw [if_pos rfl]
    · intro i hi
      unfold gradientPercentage
      rw [if_neg (by omega)]
    · intro hle i hi
      exact gradientPercentage_nearest colors.length (by omega) i hi h

/-- Witness of C24 (amended): three colours, one of them with a short hexadecimal text. -/
theorem C24_gradient_stops_witness :
    generateGradient [solidColor "#15004b", { hex := "#FfA", alpha := "0.8" }, solidColor "#012a46"]
        "135"
      = "linear-gradient(135deg, rgba(21, 0, 75, 1) 0%, rgba(255, 10, NaN, 0.8) 50%, rgba(1, 42, 70, 1) 100%)"
    ∧ gradientPercentage 3 1 = nearestInteger (1 * 100) 2 :=
  ⟨((C24_gradient_stops
      [solidColor "#15004b", { hex := "#FfA", alpha := "0.8" }, solidColor "#012a46"] "135").2
      (by decide)).1.trans (by decide),
    (C24_gradient_stops
      [solidColor "#15004b", { hex := "#FfA", alpha := "0.8" }, solidColor "#012a46"] "135").2
      (by decide) |>.2.2.2.2.2.2 (by decide) 1 (by decide)⟩

end ManualOrder
